import Mathlib

/-!
# app-ethereum: the EIP-712 progressive field-hash engine

A shallow embedding of `src_features/signMessageEIP712/field_hash.c`.

The C file keeps its state in globals (`fh`, `global_sha3`, the arena of
`mem.c`, the path of `path.c`, `eip712_context`, the review UI).  Here all of
that is one explicit record, `World`, threaded through every function.  The
collaborators whose code is not part of the sources (SDK hash calls, the
field encoders, the review UI) are the fields of `Env`.
-/

namespace AppEthereum

/-! ## Data model -/

/-- An octet (`uint8_t`). -/
abbrev Byte := Fin 256

/-- A 32-byte block of the arena: an encoded field or a Keccak-256 digest. -/
abbrev Word := { l : List Byte // l.length = 32 }

/-- The APDU status words named in the sources (`apdu_constants.h`). -/
inductive Status where
  | APDU_RESPONSE_OK
  | APDU_RESPONSE_INVALID_DATA
  | APDU_RESPONSE_INSUFFICIENT_MEMORY
  | APDU_RESPONSE_CONDITION_NOT_SATISFIED
  | APDU_RESPONSE_UNKNOWN
  | APDU_RESPONSE_INVALID_P1_P2
  | APDU_RESPONSE_SECURITY_NOT_SATISFIED
  | APDU_RESPONSE_TX_TYPE_NOT_SUPPORTED
  deriving DecidableEq, Repr

open Status

/-- The field types of `typed_data.h`: the six the sources switch on, and the
two dynamic ones (string, dynamic byte array). -/
inductive e_type where
  | TYPE_CUSTOM
  | TYPE_SOL_INT
  | TYPE_SOL_UINT
  | TYPE_SOL_ADDRESS
  | TYPE_SOL_BOOL
  | TYPE_SOL_STRING
  | TYPE_SOL_BYTES_FIX
  | TYPE_SOL_BYTES_DYN
  deriving DecidableEq, Repr

open e_type

/-- Modelled from the spec: the macro `IS_DYN` of `field_hash.h`, which is not
among the sources. The types hashed progressively by `field_hash` are strings
and dynamic byte arrays. -/
def IS_DYN (t : e_type) : Bool :=
  t = TYPE_SOL_STRING || t = TYPE_SOL_BYTES_DYN

/-- The phases of the engine (`e_field_hashing_state`): `FHS_IDLE` is the
spec's Idle, `FHS_WAITING_FOR_MORE` its AwaitingMore. -/
inductive e_field_hashing_state where
  | FHS_IDLE
  | FHS_WAITING_FOR_MORE
  deriving DecidableEq, Repr

open e_field_hashing_state

/-- The engine state `s_field_hashing`; `remaining_size` is a `uint16_t`. -/
structure s_field_hashing where
  remaining_size : Nat
  state : e_field_hashing_state
  deriving DecidableEq, Repr

/-- The root struct being hashed (`e_root_type` of `path.h`). -/
inductive e_root_type where
  | ROOT_NONE
  | ROOT_DOMAIN
  | ROOT_MESSAGE
  deriving DecidableEq, Repr

open e_root_type

/-- A struct field definition, as seen through `struct_field_type`,
`get_struct_field_typesize` and `get_struct_field_keyname` (which may return
`NULL`, here `none`; the key is `keylen` bytes, not NUL-terminated). -/
structure Field where
  type : e_type
  typesize : Nat
  keyname : Option (List Byte)
  deriving DecidableEq, Repr

/-- What the review UI has been told. -/
inductive ui_event where
  | new_field (field_ptr : Field) (data : List Byte)
  | finalize_field
  deriving DecidableEq, Repr

/-- The globals the engine reads and writes.

* `fh`: the static pointer `fh` (`NULL` is `none`);
* `global_sha3`: the bytes absorbed by the content hash context since its
  last initialisation;
* `parent_hash`: the bytes absorbed by the hash context of the enclosing
  struct, a `cx_sha3_t` stored in the arena;
* `hash_ctx_end`: the arena offset at which that hash context ends (its
  address plus `sizeof(cx_sha3_t)`): `hash - sizeof(cx_sha3_t)` is that
  context exactly when the block `hash` starts at this offset;
* `stray_hash`: the words `hash_nbytes` was given for a region of the arena
  that is not that hash context, oldest first; what the SDK makes of such a
  region is outside the model;
* `mem_used`, `mem_size`: the arena, a stack of blocks: `mem_used` is the
  offset of its first free byte;
* `path_fields`, `root_type`: the Path Navigator, as the fields still to be
  fed, current one first;
* `contract_addr`, `chain_id`: the Domain Capture Context `eip712_context`;
* `ui_log`: the calls made to the review UI, oldest first. -/
structure World where
  fh : Option s_field_hashing
  global_sha3 : List Byte
  parent_hash : List Byte
  hash_ctx_end : Nat
  stray_hash : List (List Byte)
  mem_used : Nat
  mem_size : Nat
  path_fields : List Field
  root_type : e_root_type
  contract_addr : List Byte
  chain_id : Nat
  ui_log : List ui_event
  deriving DecidableEq, Repr

/-- The collaborators whose code is outside the sources.

* `cx_keccak_init_no_throw size`: whether the SDK call returns `CX_OK`;
* `cx_hash_no_throw ctx`: the SDK call with `CX_LAST` on a context that has
  absorbed `ctx`: the digest, or `none` when it reports an error;
* `ui_712_new_field`: the status returned by the review UI;
* `encode_*`: the Field Encoder: the 32-byte word, or `none` for `NULL`. -/
structure Env where
  cx_keccak_init_no_throw : Nat → Bool
  cx_hash_no_throw : List Byte → Option Word
  ui_712_new_field : Field → List Byte → Status
  encode_int : List Byte → Nat → Option Word
  encode_uint : List Byte → Option Word
  encode_bytes : List Byte → Option Word
  encode_address : List Byte → Option Word
  encode_boolean : List Byte → Option Word

/-! ## Constants -/

/-- Size of a Keccak-256 digest. -/
def KECCAK256_HASH_BYTESIZE : Nat := 32

/-- Size of an encoded field. -/
def EIP_712_ENCODED_FIELD_LENGTH : Nat := 32

/-- The value of `sizeof(eip712_context->contract_addr)`. -/
def ADDRESS_LENGTH : Nat := 20

/-- The value of `sizeof(s_field_hashing)`. -/
def sizeof_s_field_hashing : Nat := 4

/-- The C string "verifyingContract", as ASCII codes. -/
def str_verifyingContract : List Byte :=
  [118, 101, 114, 105, 102, 121, 105, 110, 103, 67, 111, 110, 116, 114, 97, 99, 116]

/-- The C string "chainId", as ASCII codes. -/
def str_chainId : List Byte := [99, 104, 97, 105, 110, 73, 100]

/-! ## Collaborators modelled from the spec -/

/-- Modelled from the spec: `mem_alloc` of the Bounded Arena (`mem.c` is not
among the sources): `allocate(size) -> handle | OutOfMemory`. The handle is
left out, the block's content is passed by value. -/
def mem_alloc (size : Nat) (w : World) : Option World :=
  if w.mem_used + size ≤ w.mem_size then some { w with mem_used := w.mem_used + size }
  else none

/-- Modelled from the spec: `mem_dealloc` of the Bounded Arena (`mem.c` is not
among the sources): `release(size)` frees the most recently allocated block. -/
def mem_dealloc (size : Nat) (w : World) : World :=
  { w with mem_used := w.mem_used - size }

/-- Modelled from the spec: `MEM_ALLOC_AND_ALIGN_TYPE(*fh)` of `mem_utils.h`
(not among the sources), an arena allocation of the engine state. Alignment
padding is left out. -/
def MEM_ALLOC_AND_ALIGN_TYPE_fh (w : World) : Option World :=
  mem_alloc sizeof_s_field_hashing w

/-- Modelled from the spec: `path_get_field` of the Path Navigator (`path.c`
is not among the sources): `current_field() -> FieldDescriptor | none`. -/
def path_get_field (w : World) : Option Field :=
  w.path_fields.head?

/-- Modelled from the spec: `path_advance` of the Path Navigator (`path.c` is
not among the sources): marks the current field complete and moves on to the
next one. -/
def path_advance (w : World) : World :=
  { w with path_fields := w.path_fields.tail }

/-- Modelled from the spec: `path_get_root_type` of the Path Navigator. -/
def path_get_root_type (w : World) : e_root_type :=
  w.root_type

/-- The review UI is told about a field value; its answer comes from `Env`. -/
def ui_712_new_field (env : Env) (w : World) (field_ptr : Field) (data : List Byte) :
    Status × World :=
  (env.ui_712_new_field field_ptr data,
   { w with ui_log := w.ui_log ++ [ui_event.new_field field_ptr data] })

/-- The review UI is told the field is complete. -/
def ui_712_finalize_field (w : World) : World :=
  { w with ui_log := w.ui_log ++ [ui_event.finalize_field] }

/-- Modelled from the spec: the Field Encoder hands back its 32-byte word in a
block allocated from the arena (`encode_field.c` is not among the sources), or
`NULL` when it rejects the value or the arena is exhausted. -/
def encode_alloc (r : Option Word) (w : World) : Option Word × World :=
  match r with
  | none => (none, w)
  | some v =>
    match mem_alloc EIP_712_ENCODED_FIELD_LENGTH w with
    | none => (none, w)
    | some w1 => (some v, w1)

/-- The call `hash_nbytes(data, len, ctx)` on the content hash context. -/
def hash_nbytes_global (data : List Byte) (w : World) : World :=
  { w with global_sha3 := w.global_sha3 ++ data }

/-- The call `hash_nbytes(data, len, ctx)` on the `cx_sha3_t` that ends at the
arena offset `ctx_end`: the hash context of the enclosing struct when that is
where it ends, else a region of the arena that holds no hash context. -/
def hash_nbytes_at (ctx_end : Nat) (data : List Byte) (w : World) : World :=
  if ctx_end = w.hash_ctx_end then { w with parent_hash := w.parent_hash ++ data }
  else { w with stray_hash := w.stray_hash ++ [data] }

/-- Modelled from the spec: `u64_from_BE` of `common_utils.c` (not among the
sources): the bytes read as a big-endian unsigned integer, in a `uint64_t`. -/
def u64_from_BE (data : List Byte) : Nat :=
  data.foldl (fun res b => (res * 256 + b.val) % 2 ^ 64) 0

/-- The libc `strncmp`: compares at most `n` characters and stops after a NUL.
Reading past the end of a list yields the terminating NUL. -/
def strncmp : List Byte → List Byte → Nat → Int
  | _, _, 0 => 0
  | s1, s2, n + 1 =>
    let c1 := s1.headD 0
    let c2 := s2.headD 0
    if c1 ≠ c2 then (c1.val : Int) - (c2.val : Int)
    else if c1 = 0 then 0
    else strncmp s1.tail s2.tail n

/-- The value of `__builtin_bswap16(*(uint16_t *) &data[0])` on the
little-endian target: the first two bytes in network byte order. -/
def bswap16_head (data : List Byte) : Nat :=
  match data with
  | b0 :: b1 :: _ => 256 * b0.val + b1.val
  | _ => 0

/-! ## field_hash.c -/

/-- Initialize the field hash context. `junk` is the content of the freshly
allocated `remaining_size`, which the C code does not initialise. -/
def field_hash_init (junk : Nat) (w : World) : Status × World :=
  match w.fh with
  | none =>
    match MEM_ALLOC_AND_ALIGN_TYPE_fh w with
    | none => (APDU_RESPONSE_INSUFFICIENT_MEMORY, w)
    | some w1 => (APDU_RESPONSE_OK, { w1 with fh := some { remaining_size := junk, state := FHS_IDLE } })
  | some _ => (APDU_RESPONSE_OK, w)

/-- Deinitialize the field hash context. -/
def field_hash_deinit (w : World) : World :=
  { w with fh := none }

/-- Special handling of the first chunk received from a field value. Returns
the data pointer (`none` for `NULL`), the status `*sw` and the new globals;
the new `*data_length` is the length of the returned data. -/
def field_hash_prepare (env : Env) (w : World) (field_ptr : Field) (data : List Byte)
    (sw : Status) : Option (List Byte) × Status × World :=
  let field_type := field_ptr.type
  let w1 := { w with fh := some { remaining_size := bswap16_head data,
                                  state := FHS_WAITING_FOR_MORE } }
  let data1 := data.drop 2
  if IS_DYN field_type then
    if env.cx_keccak_init_no_throw 256 then
      let w2 := { w1 with global_sha3 := [] }
      let r := ui_712_new_field env w2 field_ptr data1
      (some data1, r.1, r.2)
    else
      (none, sw, w1)
  else
    (some data1, sw, w1)

/-- Finalize static field hash: encode the field data depending on its type. -/
def field_hash_finalize_static (env : Env) (w : World) (field_ptr : Field)
    (data : List Byte) : Option Word × World :=
  let r : Option Word × World :=
    match field_ptr.type with
    | TYPE_SOL_INT => encode_alloc (env.encode_int data field_ptr.typesize) w
    | TYPE_SOL_UINT => encode_alloc (env.encode_uint data) w
    | TYPE_SOL_BYTES_FIX => encode_alloc (env.encode_bytes data) w
    | TYPE_SOL_ADDRESS => encode_alloc (env.encode_address data) w
    | TYPE_SOL_BOOL => encode_alloc (env.encode_boolean data) w
    | _ => (none, w)
  match r with
  | (none, w1) => (none, w1)
  | (some value, w1) =>
    let u := ui_712_new_field env w1 field_ptr data
    if u.1 ≠ APDU_RESPONSE_OK then (none, u.2) else (some value, u.2)

/-- Finalize dynamic field hash: allocate and hash the data. -/
def field_hash_finalize_dynamic (env : Env) (w : World) : Option Word × World :=
  match mem_alloc KECCAK256_HASH_BYTESIZE w with
  | none => (none, w)
  | some w1 =>
    match env.cx_hash_no_throw w1.global_sha3 with
    | none => (none, w1)
    | some value => (some value, w1)

/-- Feed the newly created field hash into the parent struct's progressive
hash, then deallocate it. The block `hash` is the one allocated last, so it
starts at the offset `mem_used - len`, and the context the code feeds is the
`cx_sha3_t` that ends there (`hash - sizeof(cx_sha3_t)`). -/
def field_hash_feed_parent (field_type : e_type) (hash : Word) (w : World) : World :=
  let len := if IS_DYN field_type then KECCAK256_HASH_BYTESIZE else EIP_712_ENCODED_FIELD_LENGTH
  mem_dealloc len (hash_nbytes_at (w.mem_used - len) (hash.val.take len) w)

/-- Special domain fields handling. -/
def field_hash_domain_special_fields (w : World) (field_ptr : Field) (data : List Byte) :
    Status × World :=
  match field_ptr.keyname with
  | none => (APDU_RESPONSE_CONDITION_NOT_SATISFIED, w)
  | some key =>
    if strncmp key str_verifyingContract key.length = 0 then
      if data.length ≠ ADDRESS_LENGTH then (APDU_RESPONSE_INVALID_DATA, w)
      else (APDU_RESPONSE_OK, { w with contract_addr := data })
    else if strncmp key str_chainId key.length = 0 then
      (APDU_RESPONSE_OK, { w with chain_id := u64_from_BE data })
    else (APDU_RESPONSE_OK, w)

/-- The tail of `field_hash_finalize`, once the word to feed is known. -/
def field_hash_finalize_feed (w : World) (field_ptr : Field) (data : List Byte)
    (value : Word) : Status × World :=
  let w2 := field_hash_feed_parent field_ptr.type value w
  let d : Status × World :=
    if path_get_root_type w2 = ROOT_DOMAIN then field_hash_domain_special_fields w2 field_ptr data
    else (APDU_RESPONSE_OK, w2)
  if d.1 ≠ APDU_RESPONSE_OK then (d.1, d.2)
  else
    let w3 := path_advance d.2
    let w4 := { w3 with fh := w3.fh.map (fun h => { h with state := FHS_IDLE }) }
    (APDU_RESPONSE_OK, ui_712_finalize_field w4)

/-- Finalize the data hashing. -/
def field_hash_finalize (env : Env) (w : World) (field_ptr : Field) (data : List Byte) :
    Status × World :=
  if ¬ IS_DYN field_ptr.type then
    match field_hash_finalize_static env w field_ptr data with
    | (none, w1) => (APDU_RESPONSE_INVALID_DATA, w1)
    | (some value, w1) => field_hash_finalize_feed w1 field_ptr data value
  else
    match field_hash_finalize_dynamic env w with
    | (none, w1) => (APDU_RESPONSE_INSUFFICIENT_MEMORY, w1)
    | (some value, w1) => field_hash_finalize_feed w1 field_ptr data value

/-- The body of `field_hash` from the length check on (line 272 to the end):
`h` is the engine state `*fh`, `data` the value bytes of the chunk. -/
def field_hash_consume (env : Env) (w : World) (h : s_field_hashing) (field_ptr : Field)
    (data : List Byte) (part_flag : Bool) : Status × World :=
  if data.length > h.remaining_size then (APDU_RESPONSE_INVALID_DATA, w)
  else
    let h1 : s_field_hashing := { h with remaining_size := h.remaining_size - data.length }
    let w1 := { w with fh := some h1 }
    let w2 := if IS_DYN field_ptr.type then hash_nbytes_global data w1 else w1
    if h1.remaining_size = 0 then
      if part_flag then (APDU_RESPONSE_INVALID_DATA, w2)
      else
        let r := field_hash_finalize env w2 field_ptr data
        if r.1 ≠ APDU_RESPONSE_OK then (r.1, r.2) else (APDU_RESPONSE_OK, r.2)
    else
      if !part_flag || !IS_DYN field_ptr.type then (APDU_RESPONSE_INVALID_DATA, w2)
      else (APDU_RESPONSE_OK, w2)

/-- Hash a field value: `data` is the chunk (`data_length` is its length, a
`uint8_t`), `part_flag` tells whether more of that value comes later.

After `field_hash_prepare` the pointer `fh` is still set, and the data pointer
is `NULL` only together with a status other than Ok: the `none` branch below
and the default of `getD` are never taken. -/
def field_hash (env : Env) (w : World) (data : List Byte) (part_flag : Bool) :
    Status × World :=
  match w.fh, path_get_field w with
  | some h, some field_ptr =>
    if h.state = FHS_IDLE then
      if data.length < 2 then (APDU_RESPONSE_INVALID_DATA, w)
      else
        let p := field_hash_prepare env w field_ptr data APDU_RESPONSE_UNKNOWN
        if p.2.1 ≠ APDU_RESPONSE_OK then (p.2.1, p.2.2)
        else
          match p.2.2.fh with
          | some h1 => field_hash_consume env p.2.2 h1 field_ptr (p.1.getD []) part_flag
          | none => (APDU_RESPONSE_CONDITION_NOT_SATISFIED, p.2.2)
    else field_hash_consume env w h field_ptr data part_flag
  | _, _ => (APDU_RESPONSE_CONDITION_NOT_SATISFIED, w)

/-! ## Drivers and sample data -/

/-- The 2-byte header announcing a value of `n` bytes, in network byte order. -/
def length_header (n : Nat) : List Byte :=
  [Fin.ofNat (n / 256), Fin.ofNat n]

/-- The caller's loop over the chunks of one field value: every chunk but the
last one is flagged partial. Returns the statuses, in order, and the final
globals. -/
def field_hash_chunks (env : Env) (w : World) : List (List Byte) → List Status × World
  | [] => ([], w)
  | [c] =>
    let r := field_hash env w c false
    ([r.1], r.2)
  | c :: c1 :: cs =>
    let r := field_hash env w c true
    let rs := field_hash_chunks env r.2 (c1 :: cs)
    (r.1 :: rs.1, rs.2)

/-- The engine part of the globals: everything but the review UI log. -/
def engine (w : World) : World :=
  { w with ui_log := [] }

/-- A 32-byte word of zeroes but for the last byte. -/
def word_of (b : Byte) : Word :=
  ⟨List.replicate 31 0 ++ [b], by simp⟩

/-- A sample environment: every SDK call succeeds, the UI accepts every field,
the digest of a context is a word ending in the number of bytes absorbed and
every encoder yields a word ending in the first byte of the value. -/
def sampleEnv : Env where
  cx_keccak_init_no_throw := fun _ => true
  cx_hash_no_throw := fun ctx => some (word_of (Fin.ofNat ctx.length))
  ui_712_new_field := fun _ _ => APDU_RESPONSE_OK
  encode_int := fun d _ => some (word_of (d.headD 0))
  encode_uint := fun d => some (word_of (d.headD 0))
  encode_bytes := fun d => some (word_of (d.headD 0))
  encode_address := fun d => some (word_of (d.headD 0))
  encode_boolean := fun d => some (word_of (d.headD 0))

/-- The sample environment with a review UI that refuses every field. -/
def refusingEnv : Env :=
  { sampleEnv with ui_712_new_field := fun _ _ => APDU_RESPONSE_CONDITION_NOT_SATISFIED }

/-- A dynamic field named "name". -/
def field_name : Field :=
  { type := TYPE_SOL_STRING, typesize := 0, keyname := some [110, 97, 109, 101] }

/-- A static field of type `uint8` named "age". -/
def field_age : Field :=
  { type := TYPE_SOL_UINT, typesize := 1, keyname := some [97, 103, 101] }

/-- A static field of type `address` named "wallet". -/
def field_wallet : Field :=
  { type := TYPE_SOL_ADDRESS, typesize := 0, keyname := some [119, 97, 108, 108, 101, 116] }

/-- A dynamic field of type `bytes` named "chainId". -/
def field_chainId_bytes : Field :=
  { type := TYPE_SOL_BYTES_DYN, typesize := 0, keyname := some str_chainId }

/-- A session in phase Idle about to receive `f`, with `free` bytes left in the
arena, whose last block is the hash context of the enclosing struct. -/
def session (f : Field) (root : e_root_type) (free : Nat) : World :=
  { fh := some { remaining_size := 0, state := FHS_IDLE }
    global_sha3 := []
    parent_hash := []
    hash_ctx_end := 100
    stray_hash := []
    mem_used := 100
    mem_size := 100 + free
    path_fields := [f]
    root_type := root
    contract_addr := List.replicate 20 0
    chain_id := 0
    ui_log := [] }

/-! ## Notions used in the statements -/

/-- The field's key triggers no special domain handling. -/
def domain_neutral (w : World) (f : Field) : Prop :=
  w.root_type ≠ ROOT_DOMAIN ∨
    ∃ key, f.keyname = some key ∧ strncmp key str_verifyingContract key.length ≠ 0 ∧
      strncmp key str_chainId key.length ≠ 0

/-- The bytes absorbed by the hash context of the enclosing struct once a word
allocated on top of the arena of `w` has been fed: the word is absorbed when
that context is the last block of the arena. -/
def parent_fed (w : World) (d : List Byte) : List Byte :=
  if w.mem_used = w.hash_ctx_end then w.parent_hash ++ d else w.parent_hash

/-- The words fed to a region that is not a hash context, once a word
allocated on top of the arena of `w` has been fed. -/
def stray_fed (w : World) (d : List Byte) : List (List Byte) :=
  if w.mem_used = w.hash_ctx_end then w.stray_hash else w.stray_hash ++ [d]

/-- The second world differs from the first at most in the arena usage and the UI log. -/
def only_mem_ui (w w1 : World) : Prop :=
  w1 = { w with mem_used := w1.mem_used, ui_log := w1.ui_log }

/-- The second world holds the same session as the first: engine state, path,
Domain Capture Context, content hash and root type are equal. -/
def same_session (w w1 : World) : Prop :=
  w1.fh = w.fh ∧ w1.path_fields = w.path_fields ∧ w1.contract_addr = w.contract_addr ∧
  w1.chain_id = w.chain_id ∧ w1.global_sha3 = w.global_sha3 ∧ w1.root_type = w.root_type

/-- The globals right after the length header of a first chunk has been read. -/
def after_header (w : World) (total : Nat) : World :=
  { w with fh := some { remaining_size := total, state := FHS_WAITING_FOR_MORE } }

/-- The globals right after `field_hash_prepare` accepted the first chunk of a dynamic field. -/
def after_prepare (w : World) (total : Nat) (f : Field) (rest : List Byte) : World :=
  { w with
    fh := some { remaining_size := total, state := FHS_WAITING_FOR_MORE }
    global_sha3 := []
    ui_log := w.ui_log ++ [ui_event.new_field f rest] }

/-- The value bytes of a chunk: a first chunk (phase Idle) starts with the
2-byte length header, which is not part of the value. -/
def chunk_value (h : s_field_hashing) (data : List Byte) : List Byte :=
  if h.state = FHS_IDLE then data.drop 2 else data

/-- The value of `remaining_bytes` the value bytes of a chunk are counted
against: the length announced by the header for a first chunk (phase Idle),
the bytes still missing otherwise. -/
def chunk_expected (h : s_field_hashing) (data : List Byte) : Nat :=
  if h.state = FHS_IDLE then bswap16_head data else h.remaining_size

/-- A chunk gets as far as the length and partial-flag checks of `field_hash`:
a first chunk (phase Idle) does so when the field is dynamic, its content
hash could be initialised and the review UI accepted it. -/
def reaches_check (env : Env) (h : s_field_hashing) (f : Field) (data : List Byte) : Prop :=
  h.state = FHS_IDLE →
    IS_DYN f.type = true ∧ env.cx_keccak_init_no_throw 256 = true ∧
      env.ui_712_new_field f (data.drop 2) = APDU_RESPONSE_OK

/-- The chunks are a correct split of the stream "2-byte length of `v`, then
`v`": the first chunk holds at least the header, and every chunk but the last
leaves some of the value still to come. -/
def correctly_chunked (v : List Byte) (chunks : List (List Byte)) : Prop :=
  chunks.flatten = length_header v.length ++ v ∧ 2 ≤ (chunks.headD []).length ∧
    ∀ k < chunks.length, 0 < k → ((chunks.take k).flatten).length < 2 + v.length

instance (v : List Byte) (chunks : List (List Byte)) : Decidable (correctly_chunked v chunks) := by
  unfold correctly_chunked
  infer_instance

/-- The bytes read as a big-endian unsigned integer, of any size. -/
def be_value (data : List Byte) : Nat :=
  data.foldl (fun res b => res * 256 + b.val) 0

/-- The answer of the Field Encoder for a static field: the encoder picked by
the switch of `field_hash_finalize_static`, `none` for the types it does not
handle. -/
def static_word (env : Env) (field_ptr : Field) (data : List Byte) : Option Word :=
  match field_ptr.type with
  | TYPE_SOL_INT => env.encode_int data field_ptr.typesize
  | TYPE_SOL_UINT => env.encode_uint data
  | TYPE_SOL_BYTES_FIX => env.encode_bytes data
  | TYPE_SOL_ADDRESS => env.encode_address data
  | TYPE_SOL_BOOL => env.encode_boolean data
  | _ => none

/-- The sample environment with an SDK that fails to finalize a hash. -/
def hashFailEnv : Env :=
  { sampleEnv with cx_hash_no_throw := fun _ => none }

/-- A static field of type `uint256` named "chain", a proper prefix of
"chainId". -/
def field_chain : Field :=
  { type := TYPE_SOL_UINT, typesize := 32, keyname := some [99, 104, 97, 105, 110] }

/-- A static field of type `address` named "verifying", a proper prefix of
"verifyingContract". -/
def field_verifying : Field :=
  { type := TYPE_SOL_ADDRESS, typesize := 0,
    keyname := some [118, 101, 114, 105, 102, 121, 105, 110, 103] }

/-- A static field of type `address` with an empty name. -/
def field_unnamed : Field :=
  { type := TYPE_SOL_ADDRESS, typesize := 0, keyname := some [] }

/-- A field of a custom (struct) type named "from". -/
def field_custom : Field :=
  { type := TYPE_CUSTOM, typesize := 0, keyname := some [102, 114, 111, 109] }

/-- A session in phase AwaitingMore with `n` bytes of the value of `f` still to
come, and `free` bytes left in the arena. -/
def awaiting (f : Field) (root : e_root_type) (free : Nat) (n : Nat) : World :=
  { session f root free with
    fh := some { remaining_size := n, state := FHS_WAITING_FOR_MORE } }

/-! ## cmd_provide_domain_name.c

The globals of the file (`g_payload`, `g_payload_size`,
`g_payload_expected_size`, `g_domain_name_info`, `g_domain_name`), together
with `apdu_response_code`, the anti-replay challenge, the arena and the APDU
responses sent, are the record `DnWorld`. The collaborators whose code is not
part of the sources are the fields of `DnEnv`. -/

namespace DomainName

/-- The value of `P1_FIRST_CHUNK`. -/
def P1_FIRST_CHUNK : Nat := 0x01

/-- The value of `P1_FOLLOWING_CHUNK`. -/
def P1_FOLLOWING_CHUNK : Nat := 0x00

/-- The value of `ALGO_SECP256K1`. -/
def ALGO_SECP256K1 : Nat := 1

/-- The value of `SLIP_44_ETHEREUM`. -/
def SLIP_44_ETHEREUM : Nat := 60

/-- The value of `TAG_COUNT`. -/
def TAG_COUNT : Nat := 9

/-- The tag `STRUCT_TYPE` of `e_tlv_tag`. -/
def STRUCT_TYPE : Nat := 0x01

/-- The tag `STRUCT_VERSION` of `e_tlv_tag`. -/
def STRUCT_VERSION : Nat := 0x02

/-- The tag `CHALLENGE` of `e_tlv_tag`. -/
def CHALLENGE : Nat := 0x12

/-- The tag `SIGNER_KEY_ID` of `e_tlv_tag`. -/
def SIGNER_KEY_ID : Nat := 0x13

/-- The tag `SIGNER_ALGO` of `e_tlv_tag`. -/
def SIGNER_ALGO : Nat := 0x14

/-- The tag `SIGNATURE` of `e_tlv_tag`. -/
def SIGNATURE : Nat := 0x15

/-- The tag `DOMAIN_NAME` of `e_tlv_tag`. -/
def DOMAIN_NAME : Nat := 0x20

/-- The tag `COIN_TYPE` of `e_tlv_tag`. -/
def COIN_TYPE : Nat := 0x21

/-- The tag `ADDRESS` of `e_tlv_tag`. -/
def ADDRESS : Nat := 0x22

/-- The key id `KEY_ID_TEST` of `e_key_id`. -/
def KEY_ID_TEST : Nat := 0x00

/-- The key id `KEY_ID_PROD` of `e_key_id`. -/
def KEY_ID_PROD : Nat := 0x03

/-- The value of `UINT8_MAX`. -/
def UINT8_MAX : Nat := 255

/-- The C string ".eth", as ASCII codes. -/
def str_eth : List Byte := [46, 101, 116, 104]

/-- A parsed TLV entry (`s_tlv_data` of `tlv.h`): the tag and the value; the
field `length` of the C struct is the length of `value`. -/
structure s_tlv_data where
  tag : Nat
  value : List Byte
  deriving DecidableEq, Repr

/-- The field `length` of a parsed TLV entry. -/
def s_tlv_data.length (data : s_tlv_data) : Nat :=
  data.value.length

/-- The cached binding `s_domain_name_info`; `name` tells whether the pointer
is set (it only ever points to `g_domain_name`), `addr` holds `ADDRESS_LENGTH`
bytes. -/
structure s_domain_name_info where
  valid : Bool
  name : Bool
  addr : List Byte
  deriving DecidableEq, Repr

/-- The signature context `s_sig_ctx`; `hash_ctx` is the list of the bytes the
SHA-256 context has absorbed, `input_sig` is `none` for `NULL`. -/
structure s_sig_ctx where
  key_id : Nat
  input_sig_size : Nat
  input_sig : Option (List Byte)
  hash_ctx : List Byte
  deriving DecidableEq, Repr

/-- The parameter of the TLV handlers, `struct tlv_handler_param`, but for its
pointer to the global `g_domain_name_info`; `counters` holds `TAG_COUNT`
values of type `uint8_t`. -/
structure s_tlv_handler_param where
  sig_ctx : s_sig_ctx
  counters : List Nat
  deriving DecidableEq, Repr

/-- What the module does that the host or the arena owner can observe. -/
inductive dn_event where
  | payload_freed
  | challenge_rolled
  | response (sw : Status)
  deriving DecidableEq, Repr

/-- The globals of the module.

* `g_payload`: `none` for `NULL`, else the bytes received so far;
* `g_payload_size`, `g_payload_expected_size`: `uint16_t`;
* `g_domain_name`: the buffer of `DOMAIN_NAME_MAX_LENGTH + 1` characters;
* `challenge`, `rolls`: the anti-replay challenge and how often it was rolled;
* `mem_used`, `mem_size`: the arena;
* `io_log`: the events so far, oldest first. -/
structure DnWorld where
  g_payload : Option (List Byte)
  g_payload_size : Nat
  g_payload_expected_size : Nat
  g_domain_name_info : s_domain_name_info
  g_domain_name : List Byte
  apdu_response_code : Status
  challenge : Nat
  rolls : Nat
  mem_used : Nat
  mem_size : Nat
  io_log : List dn_event
  deriving DecidableEq, Repr

/-- The collaborators whose code is outside the sources.

* `tlv_decode payload`: the TLV entries `parse_tlv` finds in the payload, in
  order, and whether the payload is well-formed to its end;
* `der_encode_value size value`: the bytes `der_encode_value` writes into a
  buffer of `size` bytes, none when it returns 0;
* `cx_sha256 ctx`: the SHA-256 digest of the bytes `ctx`;
* `cx_ecdsa_verify hash sig`: the SDK check of `sig` over `hash` against
  `DOMAIN_NAME_PUB_KEY`;
* `chain_is_ethereum_compatible`: the test of `network.c`;
* `cx_rng n`: the value of the `n`-th draw of a new challenge;
* `HAVE_DOMAIN_NAME_TEST_KEY`, `HAVE_BYPASS_SIGNATURES`: the build flags;
* `DOMAIN_NAME_MAX_LENGTH`: the constant of `domain_name.h`. -/
structure DnEnv where
  tlv_decode : List Byte → List s_tlv_data × Bool
  der_encode_value : Nat → Nat → List Byte
  cx_sha256 : List Byte → List Byte
  cx_ecdsa_verify : List Byte → List Byte → Bool
  chain_is_ethereum_compatible : Nat → Bool
  cx_rng : Nat → Nat
  HAVE_DOMAIN_NAME_TEST_KEY : Bool
  HAVE_BYPASS_SIGNATURES : Bool
  DOMAIN_NAME_MAX_LENGTH : Nat

/-- Modelled from the spec: `mem_alloc` of the Bounded Arena (`mem.c` is not
among the sources), on the globals of this module. -/
def mem_alloc (size : Nat) (w : DnWorld) : Option DnWorld :=
  if w.mem_used + size ≤ w.mem_size then some { w with mem_used := w.mem_used + size }
  else none

/-- Modelled from the spec: `mem_dealloc` of the Bounded Arena (`mem.c` is not
among the sources), on the globals of this module. -/
def mem_dealloc (size : Nat) (w : DnWorld) : DnWorld :=
  { w with mem_used := w.mem_used - size }

/-- Modelled from the spec: `get_challenge` of `challenge.c` (not among the
sources), the current value of the single-use challenge. -/
def get_challenge (w : DnWorld) : Nat :=
  w.challenge

/-- Modelled from the spec: `roll_challenge` of `challenge.c` (not among the
sources): the challenge is replaced by a fresh 32-bit draw. -/
def roll_challenge (env : DnEnv) (w : DnWorld) : DnWorld :=
  { w with
    challenge := env.cx_rng w.rolls % 2 ^ 32
    rolls := w.rolls + 1
    io_log := w.io_log ++ [dn_event.challenge_rolled] }

/-- The value of `U2BE(data, 0)`: the first two bytes, big-endian. -/
def U2BE (data : List Byte) : Nat :=
  match data with
  | b0 :: b1 :: _ => 256 * b0.val + b1.val
  | _ => 0

/-- The value of `U4BE(buffer, 0)`: the first four bytes, big-endian. -/
def U4BE (buffer : List Byte) : Nat :=
  be_value (buffer.take 4)

/-- The difference `a - b` in the type `size_t` (32 bits). -/
def size_t_sub (a b : Nat) : Nat :=
  (a + 2 ^ 32 - b % 2 ^ 32) % 2 ^ 32

/-- The libc `isalpha` in the C locale. -/
def isalpha (c : Byte) : Bool :=
  (65 ≤ c.val && c.val ≤ 90) || (97 ≤ c.val && c.val ≤ 122)

/-- The libc `islower` in the C locale. -/
def islower (c : Byte) : Bool :=
  97 ≤ c.val && c.val ≤ 122

/-- The libc `isdigit`. -/
def isdigit (c : Byte) : Bool :=
  48 ≤ c.val && c.val ≤ 57

/-- Send a response APDU. -/
def response_to_domain_name (success : Bool) (w : DnWorld) : DnWorld :=
  let sw := if success then APDU_RESPONSE_OK else w.apdu_response_code
  { w with io_log := w.io_log ++ [dn_event.response sw] }

/-- Checks if a domain name for the given chain ID and address is known;
always wipes the content of `g_domain_name_info`. -/
def has_domain_name (env : DnEnv) (w : DnWorld) (chain_id : Nat) (addr : List Byte) :
    Bool × DnWorld :=
  let ret :=
    if w.g_domain_name_info.valid then
      if env.chain_is_ethereum_compatible chain_id &&
          decide (addr.take ADDRESS_LENGTH = w.g_domain_name_info.addr.take ADDRESS_LENGTH) then
        true
      else false
    else false
  (ret, { w with g_domain_name_info :=
            { valid := false, name := false, addr := List.replicate ADDRESS_LENGTH 0 } })

/-- Get an unsigned integer from variable length tlv data (up to 4 bytes);
`none` when unsuccessful. -/
def get_uint_from_data (data : s_tlv_data) : Option Nat :=
  if data.length > 4 then none
  else some (U4BE (List.replicate (4 - data.length) 0 ++ data.value))

/-- Handler for tag `STRUCT_TYPE`. -/
def handle_struct_type (_data : s_tlv_data) (param : s_tlv_handler_param) :
    Bool × s_tlv_handler_param :=
  (true, param)

/-- Handler for tag `STRUCT_VERSION`. -/
def handle_struct_version (_data : s_tlv_data) (param : s_tlv_handler_param) :
    Bool × s_tlv_handler_param :=
  (true, param)

/-- Handler for tag `CHALLENGE`. -/
def handle_challenge (w : DnWorld) (data : s_tlv_data) (param : s_tlv_handler_param) :
    Bool × s_tlv_handler_param :=
  match get_uint_from_data data with
  | none => (false, param)
  | some value => (decide (value = get_challenge w), param)

/-- Handler for tag `SIGNER_KEY_ID`. -/
def handle_sign_key_id (data : s_tlv_data) (param : s_tlv_handler_param) :
    Bool × s_tlv_handler_param :=
  match get_uint_from_data data with
  | none => (false, param)
  | some value =>
    if value > UINT8_MAX then (false, param)
    else (true, { param with sig_ctx := { param.sig_ctx with key_id := value } })

/-- Handler for tag `SIGNER_ALGO`. -/
def handle_sign_algo (data : s_tlv_data) (param : s_tlv_handler_param) :
    Bool × s_tlv_handler_param :=
  match get_uint_from_data data with
  | none => (false, param)
  | some value => (decide (value = ALGO_SECP256K1), param)

/-- Handler for tag `SIGNATURE`; `input_sig_size` is a `uint8_t`. -/
def handle_signature (data : s_tlv_data) (param : s_tlv_handler_param) :
    Bool × s_tlv_handler_param :=
  (true, { param with sig_ctx :=
            { param.sig_ctx with
              input_sig_size := data.length % 256
              input_sig := some data.value } })

/-- Tests if the given domain name character is valid. -/
def is_valid_domain_character (c : Byte) : Bool :=
  if isalpha c then
    if !islower c then false else true
  else if !isdigit c then
    if c.val = 46 || c.val = 45 || c.val = 95 then true else false
  else true

/-- The loop of `handle_domain_name` from index `idx` on: the characters are
checked and copied one by one into the name buffer. -/
def handle_domain_name_loop : List Byte → Nat → List Byte → Bool × List Byte
  | [], _, name => (true, name)
  | c :: cs, idx, name =>
    if !is_valid_domain_character c then (false, name)
    else handle_domain_name_loop cs (idx + 1) (name.set idx c)

/-- Handler for tag `DOMAIN_NAME`; the name is written into `g_domain_name`,
which `param->domain_name_info->name` points to. -/
def handle_domain_name (env : DnEnv) (w : DnWorld) (data : s_tlv_data)
    (param : s_tlv_handler_param) : Bool × DnWorld × s_tlv_handler_param :=
  if data.length > env.DOMAIN_NAME_MAX_LENGTH then (false, w, param)
  else if data.length < 5 || strncmp str_eth (data.value.drop (data.length - 4)) 4 ≠ 0 then
    (false, w, param)
  else
    let r := handle_domain_name_loop data.value 0 w.g_domain_name
    if !r.1 then (false, { w with g_domain_name := r.2 }, param)
    else (true, { w with g_domain_name := r.2.set data.length 0 }, param)

/-- Handler for tag `COIN_TYPE`. -/
def handle_coin_type (data : s_tlv_data) (param : s_tlv_handler_param) :
    Bool × s_tlv_handler_param :=
  match get_uint_from_data data with
  | none => (false, param)
  | some value => (decide (value = SLIP_44_ETHEREUM), param)

/-- Handler for tag `ADDRESS`; the address is written into
`g_domain_name_info`. -/
def handle_address (w : DnWorld) (data : s_tlv_data) (param : s_tlv_handler_param) :
    Bool × DnWorld × s_tlv_handler_param :=
  if data.length ≠ ADDRESS_LENGTH then (false, w, param)
  else (true, { w with g_domain_name_info := { w.g_domain_name_info with addr := data.value } },
        param)

/-- Hash TLV payload: the new content of the hash context, and whether it was
successful. -/
def hash_payload (env : DnEnv) (data : s_tlv_data) (hash_ctx : List Byte) :
    Bool × List Byte :=
  if data.tag ≠ SIGNATURE then
    let buf1 := env.der_encode_value 5 data.tag
    if buf1.length = 0 then (false, hash_ctx)
    else
      let ctx1 := hash_ctx ++ buf1
      let buf2 := env.der_encode_value 5 data.length
      if buf2.length = 0 then (false, ctx1)
      else (true, ctx1 ++ buf2 ++ data.value)
  else (true, hash_ctx)

/-- The statement `param->counters[idx] += 1` on a `uint8_t`. -/
def count_tag (idx : Nat) (param : s_tlv_handler_param) : s_tlv_handler_param :=
  { param with counters := param.counters.set idx ((param.counters.getD idx 0 + 1) % 256) }

/-- The switch of `tlv_handler` with the update of the counters that follows
it. -/
def tlv_dispatch (env : DnEnv) (w : DnWorld) (param : s_tlv_handler_param) (data : s_tlv_data) :
    Bool × DnWorld × s_tlv_handler_param :=
  if data.tag = STRUCT_TYPE then
    ((handle_struct_type data param).1, w, count_tag 0 (handle_struct_type data param).2)
  else if data.tag = STRUCT_VERSION then
    ((handle_struct_version data param).1, w, count_tag 1 (handle_struct_version data param).2)
  else if data.tag = CHALLENGE then
    ((handle_challenge w data param).1, w, count_tag 2 (handle_challenge w data param).2)
  else if data.tag = SIGNER_KEY_ID then
    ((handle_sign_key_id data param).1, w, count_tag 3 (handle_sign_key_id data param).2)
  else if data.tag = SIGNER_ALGO then
    ((handle_sign_algo data param).1, w, count_tag 4 (handle_sign_algo data param).2)
  else if data.tag = SIGNATURE then
    ((handle_signature data param).1, w, count_tag 5 (handle_signature data param).2)
  else if data.tag = DOMAIN_NAME then
    ((handle_domain_name env w data param).1, (handle_domain_name env w data param).2.1,
      count_tag 6 (handle_domain_name env w data param).2.2)
  else if data.tag = COIN_TYPE then
    ((handle_coin_type data param).1, w, count_tag 7 (handle_coin_type data param).2)
  else if data.tag = ADDRESS then
    ((handle_address w data param).1, (handle_address w data param).2.1,
      count_tag 8 (handle_address w data param).2.2)
  else (false, w, param)

/-- Callback for the TLV parser: calls the right handler for each tag and
counts how many times each tag is found. -/
def tlv_handler (env : DnEnv) (w : DnWorld) (param : s_tlv_handler_param) (data : s_tlv_data) :
    Bool × DnWorld × s_tlv_handler_param :=
  if !(hash_payload env data param.sig_ctx.hash_ctx).1 then
    (false, w,
      { param with sig_ctx :=
          { param.sig_ctx with hash_ctx := (hash_payload env data param.sig_ctx.hash_ctx).2 } })
  else
    tlv_dispatch env w
      { param with sig_ctx :=
          { param.sig_ctx with hash_ctx := (hash_payload env data param.sig_ctx.hash_ctx).2 } }
      data

/-- Verify the signature context: the SHA-256 hash of the payload against the
public key. -/
def verify_signature (env : DnEnv) (sig_ctx : s_sig_ctx) : Bool :=
  let hash := env.cx_sha256 sig_ctx.hash_ctx
  if sig_ctx.key_id = (if env.HAVE_DOMAIN_NAME_TEST_KEY then KEY_ID_TEST else KEY_ID_PROD) then
    if !env.cx_ecdsa_verify hash ((sig_ctx.input_sig.getD []).take sig_ctx.input_sig_size) then
      if !env.HAVE_BYPASS_SIGNATURES then false else true
    else true
  else false

/-- Allocate and assign TLV payload. -/
def alloc_payload (size : Nat) (w : DnWorld) : Bool × DnWorld :=
  match mem_alloc size w with
  | none => (false, { w with g_payload := none,
                             apdu_response_code := APDU_RESPONSE_INSUFFICIENT_MEMORY })
  | some w1 => (true, { w1 with g_payload := some [], g_payload_expected_size := size })

/-- Deallocate and unassign TLV payload. -/
def free_payload (w : DnWorld) : DnWorld :=
  { mem_dealloc w.g_payload_expected_size w with
    g_payload := none
    g_payload_size := 0
    g_payload_expected_size := 0
    io_log := w.io_log ++ [dn_event.payload_freed] }

/-- Handler for the first chunk: how many bytes in the payload were processed,
0 if unsuccessful. -/
def handle_first_chunk (w : DnWorld) (data : List Byte) : Nat × DnWorld :=
  if w.g_payload ≠ none then
    (0, { free_payload w with apdu_response_code := APDU_RESPONSE_INVALID_P1_P2 })
  else if data.length < 2 then
    (0, { w with apdu_response_code := APDU_RESPONSE_INVALID_DATA })
  else
    let r := alloc_payload (U2BE data) w
    if !r.1 then (0, { r.2 with apdu_response_code := APDU_RESPONSE_INSUFFICIENT_MEMORY })
    else (2, r.2)

/-- Check if all tags have been found once. -/
def all_tags_found_once (counters : List Nat) : Bool :=
  (List.range TAG_COUNT).all (fun i => decide (counters.getD i 0 = 1))

/-- The loop of `parse_tlv` over the entries it decodes: the handler is called
on each entry in turn, until one fails. -/
def parse_tlv_entries (env : DnEnv) :
    List s_tlv_data → DnWorld → s_tlv_handler_param → Bool × DnWorld × s_tlv_handler_param
  | [], w, param => (true, w, param)
  | data :: rest, w, param =>
    let r := tlv_handler env w param data
    if !r.1 then (false, r.2.1, r.2.2)
    else parse_tlv_entries env rest r.2.1 r.2.2

/-- Modelled from the spec: `parse_tlv` of `tlv.c` (not among the sources), with
`tlv_handler` as its callback: the entries of the payload are handed to the
handler one after the other, as they are decoded; the parsing fails when the
handler fails on an entry or the payload is malformed. -/
def parse_tlv (env : DnEnv) (payload : List Byte) (w : DnWorld) (param : s_tlv_handler_param) :
    Bool × DnWorld × s_tlv_handler_param :=
  let d := env.tlv_decode payload
  let r := parse_tlv_entries env d.1 w param
  if !r.1 then (false, r.2.1, r.2.2) else (d.2, r.2.1, r.2.2)

/-- The zero-initialised `handler_param` of `handle_all_received`, after
`cx_sha256_init`. -/
def handler_param_zero : s_tlv_handler_param :=
  { sig_ctx := { key_id := 0, input_sig_size := 0, input_sig := none, hash_ctx := [] }
    counters := List.replicate TAG_COUNT 0 }

/-- Handler for once the whole TLV payload has been received. -/
def handle_all_received (env : DnEnv) (w : DnWorld) : Bool × DnWorld :=
  let w1 := { w with g_domain_name_info := { w.g_domain_name_info with name := true } }
  let p := parse_tlv env ((w1.g_payload.getD []).take w1.g_payload_size) w1 handler_param_zero
  if !p.1 || !all_tags_found_once p.2.2.counters || !verify_signature env p.2.2.sig_ctx then
    let w2 := roll_challenge env (free_payload p.2.1)
    (false, { w2 with apdu_response_code := APDU_RESPONSE_INVALID_DATA })
  else
    let w2 := { p.2.1 with g_domain_name_info := { p.2.1.g_domain_name_info with valid := true } }
    (true, roll_challenge env (free_payload w2))

/-- The body of `handle_provide_domain_name` once the chunk is known to belong
to a payload (line 556 to the end): `offset` bytes of `data` are skipped. The
byte count `length - offset` is computed in `size_t`; the bytes copied are
those of `data` after the first `offset`. -/
def handle_provide_domain_name_feed (env : DnEnv) (w : DnWorld) (data : List Byte)
    (offset : Nat) : DnWorld :=
  if (w.g_payload_size + size_t_sub data.length offset) % 2 ^ 32 > w.g_payload_expected_size then
    response_to_domain_name false
      (free_payload { w with apdu_response_code := APDU_RESPONSE_INVALID_DATA })
  else
    let w1 := { w with
      g_payload := some (w.g_payload.getD [] ++ data.drop offset)
      g_payload_size := (w.g_payload_size + size_t_sub data.length offset) % 2 ^ 16 }
    if w1.g_payload_size = w1.g_payload_expected_size then
      let r := handle_all_received env w1
      if !r.1 then response_to_domain_name false r.2
      else response_to_domain_name true r.2
    else response_to_domain_name true w1

/-- Handle domain name APDU; `length` is the length of `data`, a `uint8_t`. -/
def handle_provide_domain_name (env : DnEnv) (w : DnWorld) (p1 : Nat) (_p2 : Nat)
    (data : List Byte) : DnWorld :=
  if p1 = P1_FIRST_CHUNK then
    let r := handle_first_chunk w data
    if r.1 = 0 then response_to_domain_name false r.2
    else handle_provide_domain_name_feed env r.2 data r.1
  else
    if w.g_payload = none then
      response_to_domain_name false { w with apdu_response_code := APDU_RESPONSE_INVALID_P1_P2 }
    else handle_provide_domain_name_feed env w data 0

/-! ### Sample data -/

/-- A toy TLV decoder with one byte for the tag and one for the length. -/
def sample_tlv_decode_fuel : Nat → List Byte → List s_tlv_data × Bool
  | _, [] => ([], true)
  | 0, _ => ([], false)
  | _, [_] => ([], false)
  | fuel + 1, t :: l :: rest =>
    if rest.length < l.val then ([], false)
    else
      let r := sample_tlv_decode_fuel fuel (rest.drop l.val)
      ({ tag := t.val, value := rest.take l.val } :: r.1, r.2)

/-- A sample environment: the toy decoder, a DER encoding for values below
256, a toy digest (number of bytes and their sum, modulo 256), signatures that
are valid when equal to the digest, chain 1 as the only compatible one, the
production key and no bypass. -/
def sampleDnEnv : DnEnv where
  tlv_decode := fun payload => sample_tlv_decode_fuel payload.length payload
  der_encode_value := fun _ v =>
    if v < 128 then [Fin.ofNat v] else if v < 256 then [129, Fin.ofNat v] else []
  cx_sha256 := fun ctx => [Fin.ofNat ctx.length, Fin.ofNat (ctx.foldl (fun a b => a + b.val) 0)]
  cx_ecdsa_verify := fun hash sig => decide (sig = hash)
  chain_is_ethereum_compatible := fun c => decide (c = 1)
  cx_rng := fun n => 1000 + n
  HAVE_DOMAIN_NAME_TEST_KEY := false
  HAVE_BYPASS_SIGNATURES := false
  DOMAIN_NAME_MAX_LENGTH := 30

/-- The globals at start-up, with challenge 7 and an arena of 1024 bytes. -/
def dn_start : DnWorld :=
  { g_payload := none
    g_payload_size := 0
    g_payload_expected_size := 0
    g_domain_name_info := { valid := false, name := false, addr := List.replicate 20 0 }
    g_domain_name := List.replicate 31 0
    apdu_response_code := APDU_RESPONSE_OK
    challenge := 7
    rolls := 0
    mem_used := 0
    mem_size := 1024
    io_log := [] }

/-- The signed part of a sample payload binding the name "a.eth" to `addr`,
answering the challenge `c`, in the toy encoding: every tag but SIGNATURE,
once. -/
def sample_tbs (c : Byte) (addr : List Byte) : List Byte :=
  [1, 1, 3] ++ [2, 1, 1] ++ [18, 1, c] ++ [19, 1, 3] ++ [20, 1, 1] ++
    [32, 5, 97, 46, 101, 116, 104] ++ [33, 1, 60] ++ (34 :: 20 :: addr)

/-- A sample payload: the signed part followed by its toy signature. -/
def sample_payload (c : Byte) (addr : List Byte) : List Byte :=
  sample_tbs c addr ++ (21 :: 2 :: sampleDnEnv.cx_sha256 (sample_tbs c addr))

/-- The 20-byte address `0a ... 0a`. -/
def addr_a : List Byte := List.replicate 20 10

/-- The 20-byte address `0b ... 0b`. -/
def addr_b : List Byte := List.replicate 20 11

/-- An unsigned payload carrying only the name "z.eth" and the address `addr`,
in the toy encoding. -/
def rogue_payload (addr : List Byte) : List Byte :=
  [32, 5, 122, 46, 101, 116, 104] ++ (34 :: 20 :: addr)

/-- The globals after the sample payload for `addr_a` was registered from
start-up, in one chunk. -/
def dn_registered : DnWorld :=
  handle_provide_domain_name sampleDnEnv dn_start 1 0
    (length_header 51 ++ sample_payload 7 addr_a)

/-- The TLV entries of a payload that is well-formed but for its 257 entries
with the tag STRUCT_TYPE; the signature is the toy signature of the rest. -/
def entries_257 : List s_tlv_data :=
  List.replicate 257 { tag := STRUCT_TYPE, value := [] } ++
    [{ tag := STRUCT_VERSION, value := [1] }, { tag := CHALLENGE, value := [7] },
     { tag := SIGNER_KEY_ID, value := [3] }, { tag := SIGNER_ALGO, value := [1] },
     { tag := DOMAIN_NAME, value := [97, 46, 101, 116, 104] },
     { tag := COIN_TYPE, value := [60] }, { tag := ADDRESS, value := addr_a },
     { tag := SIGNATURE, value := [46, 157] }]

/-- The payload with the entries `entries_257`, in the toy encoding. -/
def payload_257 : List Byte :=
  (List.replicate 257 [1, 0]).flatten ++ [2, 1, 1] ++ [18, 1, 7] ++ [19, 1, 3] ++ [20, 1, 1] ++
    [32, 5, 97, 46, 101, 116, 104] ++ [33, 1, 60] ++ (34 :: 20 :: addr_a) ++ [21, 2, 46, 157]

/-- The globals at start-up once `payload` has been received in full, right
before `handle_all_received`. -/
def dn_received (payload : List Byte) : DnWorld :=
  { dn_start with
    g_payload := some payload
    g_payload_size := payload.length
    g_payload_expected_size := payload.length
    mem_used := payload.length }

/-- The second globals differ from the first at most in the cached address and
the name buffer. -/
def binding_only (w w1 : DnWorld) : Prop :=
  w1.g_payload = w.g_payload ∧ w1.g_payload_size = w.g_payload_size ∧
  w1.g_payload_expected_size = w.g_payload_expected_size ∧
  w1.g_domain_name_info.valid = w.g_domain_name_info.valid ∧
  w1.g_domain_name_info.name = w.g_domain_name_info.name ∧
  w1.apdu_response_code = w.apdu_response_code ∧ w1.challenge = w.challenge ∧
  w1.rolls = w.rolls ∧ w1.mem_used = w.mem_used ∧ w1.mem_size = w.mem_size ∧
  w1.io_log = w.io_log

/-! ### Notions used in the statements on cmd_provide_domain_name.c -/

/-- The bytes one TLV entry adds to the signed stream: nothing for a SIGNATURE
entry, else the DER encodings of its tag and of its length, then its value. -/
def tlv_signed_bytes (env : DnEnv) (data : s_tlv_data) : List Byte :=
  if data.tag = SIGNATURE then []
  else env.der_encode_value 5 data.tag ++ env.der_encode_value 5 data.length ++ data.value

/-- The signed stream of a sequence of TLV entries. -/
def signed_stream (env : DnEnv) (entries : List s_tlv_data) : List Byte :=
  (entries.map (tlv_signed_bytes env)).flatten

/-- The tag and the length of the entry can be DER-encoded in 5 bytes:
`der_encode_value` does not return 0 on them. -/
def der_encodable (env : DnEnv) (data : s_tlv_data) : Prop :=
  (env.der_encode_value 5 data.tag).length ≠ 0 ∧
    (env.der_encode_value 5 data.length).length ≠ 0

/-- The characters allowed in a domain name: a-z, 0-9, '.', '-' and '_'. -/
def allowed_character (c : Byte) : Prop :=
  (97 ≤ c.val ∧ c.val ≤ 122) ∨ (48 ≤ c.val ∧ c.val ≤ 57) ∨ c.val = 46 ∨ c.val = 45 ∨ c.val = 95

/-- The reassembly invariant of the payload globals: no more bytes received
than expected, and both counts are 0 when there is no payload buffer. -/
def payload_invariant (w : DnWorld) : Prop :=
  w.g_payload_size ≤ w.g_payload_expected_size ∧
    (w.g_payload = none → w.g_payload_size = 0 ∧ w.g_payload_expected_size = 0)

/-- A command of the host: `p1`, `p2` and the data. -/
structure dn_command where
  p1 : Nat
  p2 : Nat
  data : List Byte
  deriving DecidableEq, Repr

/-- The globals after a sequence of provide-domain-name commands. -/
def run_commands (env : DnEnv) (w : DnWorld) (cmds : List dn_command) : DnWorld :=
  cmds.foldl (fun w1 c => handle_provide_domain_name env w1 c.p1 c.p2 c.data) w

end DomainName

/-! ## cmd_signMessage712.c and cmd_signTx.c

The two command handlers work on the globals of `shared_context.h` (the
application state, the union `tmpCtx`, the transaction parser context) and on
collaborators that are not among the sources: these are parameters, and every
call of one is recorded in `calls`. -/

/-- Modelled from the spec: the application states (`app_state_t` of
`shared_context.h`, not among the sources); the handlers name the first
two. -/
inductive app_state_t where
  | APP_STATE_IDLE
  | APP_STATE_SIGNING_TX
  | APP_STATE_SIGNING_MESSAGE
  | APP_STATE_SIGNING_EIP712
  deriving DecidableEq, Repr

open app_state_t

/-- A derivation path (`bip32_path_t`). -/
structure bip32_path_t where
  length : Nat
  path : List Nat
  deriving DecidableEq, Repr

/-- The status returned by `processTx`: the four values `handleSign` names,
and any other value. -/
inductive parserStatus_e where
  | USTREAM_PROCESSING
  | USTREAM_SUSPENDED
  | USTREAM_FINISHED
  | USTREAM_FAULT
  | USTREAM_other
  deriving DecidableEq, Repr

open parserStatus_e

/-- The calls of collaborators: `processTx` with the bytes and the flags it is
given. -/
inductive app_event where
  | reset_app_context
  | ui_sign_712_v0
  | initTx
  | cx_hash (bytes : List Byte)
  | processTx (workBuffer : List Byte) (processingFlags : Nat)
  | finalizeParsing
  deriving DecidableEq, Repr

/-- The fields of `txContext` that `handleSign` reads or writes. -/
structure txContext_t where
  currentField : Nat
  txType : Nat
  deriving DecidableEq, Repr

/-- The globals of the two handlers.

* `appState`: the application state;
* `bip32`: the derivation path at the start of every member of the union
  `tmpCtx`;
* `domainHash`, `messageHash`: the two hashes of
  `tmpCtx.messageSigningContext712`;
* `txContext`: the transaction parser context;
* `dataPresent`: `tmpContent.txContent.dataPresent`;
* `pluginStatus`: `dataContext.tokenContext.pluginStatus`;
* `global_sha3`: the bytes absorbed by the transaction hash context;
* `chainId`: `chainConfig->chainId`;
* `calls`: the collaborators called so far, oldest first. -/
structure AppWorld where
  appState : app_state_t
  bip32 : bip32_path_t
  domainHash : List Byte
  messageHash : List Byte
  txContext : txContext_t
  dataPresent : Bool
  pluginStatus : Nat
  global_sha3 : List Byte
  chainId : Nat
  calls : List app_event
  deriving DecidableEq, Repr

/-- The collaborators and constants of the two handlers.

* `os_global_pin_is_validated`: whether the call returns `BOLOS_UX_OK`;
* `parseBip32`: on the command data and the old content of the path, the bytes
  left after the path (the returned pointer with the updated `*dataLength`),
  `none` for `NULL`, and the content of the path after the call;
* `reset_app_context`, `initTx`, `finalizeParsing`: their effect on the
  globals;
* `processTx`: on the globals, the bytes and the processing flags, the status
  and the globals after the call;
* `cx_hash_no_throw`: whether hashing the type byte succeeds;
* the constants of `apdu_constants.h`, `feature_signTx.h`, `ethUstream.h`,
  `eth_plugin_interface.h` and of the SDK. -/
structure AppEnv where
  os_global_pin_is_validated : Bool
  parseBip32 : List Byte → bip32_path_t → Option (List Byte) × bip32_path_t
  reset_app_context : AppWorld → AppWorld
  initTx : AppWorld → AppWorld
  processTx : AppWorld → List Byte → Nat → parserStatus_e × AppWorld
  finalizeParsing : AppWorld → AppWorld
  cx_hash_no_throw : Bool
  P1_FIRST : Nat
  P1_MORE : Nat
  MIN_TX_TYPE : Nat
  MAX_TX_TYPE : Nat
  EIP2930 : Nat
  EIP1559 : Nat
  LEGACY : Nat
  RLP_NONE : Nat
  TX_FLAG_TYPE : Nat
  ETH_PLUGIN_RESULT_UNAVAILABLE : Nat
  IO_ASYNCH_REPLY : Nat

/-- A call of a collaborator: its effect on the globals, and its record; the
collaborator has no access to the record of calls. -/
def call (e : app_event) (f : AppWorld → AppWorld) (w : AppWorld) : AppWorld :=
  { f w with calls := w.calls ++ [e] }

/-- The handler `handleSignEIP712Message_v0`; `dataLength` is the length of
`workBuffer`, and the result is the status, the globals and `*flags`. -/
def handleSignEIP712Message_v0 (env : AppEnv) (w : AppWorld) (p1 : Nat)
    (workBuffer : List Byte) (flags : Nat) : Status × AppWorld × Nat :=
  if p1 ≠ 0 then (APDU_RESPONSE_INVALID_P1_P2, w, flags)
  else
    let w1 :=
      if w.appState ≠ APP_STATE_IDLE then
        call app_event.reset_app_context env.reset_app_context w
      else w
    let r := env.parseBip32 workBuffer w1.bip32
    let w2 := { w1 with bip32 := r.2 }
    match r.1 with
    | none => (APDU_RESPONSE_INVALID_DATA, w2, flags)
    | some rest =>
      if rest.length < KECCAK256_HASH_BYTESIZE * 2 then (APDU_RESPONSE_INVALID_DATA, w2, flags)
      else
        let w3 := { w2 with domainHash := rest.take KECCAK256_HASH_BYTESIZE }
        let w4 := { w3 with
          messageHash := (rest.drop KECCAK256_HASH_BYTESIZE).take KECCAK256_HASH_BYTESIZE }
        (APDU_RESPONSE_OK, call app_event.ui_sign_712_v0 id w4, flags ||| env.IO_ASYNCH_REPLY)

/-- How the first-chunk block of `handleSign` ends: with a `return`, with a
failed `CX_ASSERT`, or by going on to the checks after it with the rest of
the data. -/
inductive first_chunk_outcome where
  | returned (sw : Status) (w : AppWorld)
  | assert_failed (w : AppWorld)
  | proceed (w : AppWorld) (workBuffer : List Byte)
  deriving DecidableEq, Repr

/-- The block of `handleSign` under `if (p1 == P1_FIRST)` (lines 18 to 53). -/
def handleSign_first (env : AppEnv) (w : AppWorld) (workBuffer : List Byte) :
    first_chunk_outcome :=
  let w1 :=
    if w.appState ≠ APP_STATE_IDLE then
      call app_event.reset_app_context env.reset_app_context w
    else w
  let w2 := { w1 with appState := APP_STATE_SIGNING_TX }
  let r := env.parseBip32 workBuffer w2.bip32
  let w3 := { w2 with bip32 := r.2 }
  match r.1 with
  | none => first_chunk_outcome.returned APDU_RESPONSE_INVALID_DATA w3
  | some rest =>
    let w4 := { w3 with dataPresent := false, pluginStatus := env.ETH_PLUGIN_RESULT_UNAVAILABLE }
    let w5 := call app_event.initTx env.initTx w4
    match rest with
    | [] => first_chunk_outcome.returned APDU_RESPONSE_INVALID_DATA w5
    | txType :: more =>
      if txType.val ≥ env.MIN_TX_TYPE ∧ txType.val ≤ env.MAX_TX_TYPE then
        if txType.val = env.EIP2930 ∨ txType.val = env.EIP1559 then
          if env.cx_hash_no_throw then
            let w6 := call (app_event.cx_hash [txType])
              (fun v => { v with global_sha3 := v.global_sha3 ++ [txType] }) w5
            first_chunk_outcome.proceed
              { w6 with txContext := { w6.txContext with txType := txType.val } } more
          else first_chunk_outcome.assert_failed w5
        else first_chunk_outcome.returned APDU_RESPONSE_TX_TYPE_NOT_SUPPORTED w5
      else
        first_chunk_outcome.proceed
          { w5 with txContext := { w5.txContext with txType := env.LEGACY } } rest

/-- The part of `handleSign` after the first-chunk block (lines 57 to 92). -/
def handleSign_process (env : AppEnv) (w : AppWorld) (p1 p2 : Nat) (workBuffer : List Byte)
    (flags : Nat) : Status × AppWorld × Nat :=
  if p2 ≠ 0 then (APDU_RESPONSE_INVALID_P1_P2, w, flags)
  else if p1 = env.P1_MORE ∧ w.appState ≠ APP_STATE_SIGNING_TX then
    (APDU_RESPONSE_CONDITION_NOT_SATISFIED, w, flags)
  else if w.txContext.currentField = env.RLP_NONE then
    (APDU_RESPONSE_CONDITION_NOT_SATISFIED, w, flags)
  else
    let processingFlags := if w.chainId = 888 then env.TX_FLAG_TYPE else 0
    let r := env.processTx w workBuffer processingFlags
    let w1 := { r.2 with calls := w.calls ++ [app_event.processTx workBuffer processingFlags] }
    match r.1 with
    | USTREAM_SUSPENDED => (APDU_RESPONSE_OK, w1, flags ||| env.IO_ASYNCH_REPLY)
    | USTREAM_PROCESSING => (APDU_RESPONSE_OK, w1, flags ||| env.IO_ASYNCH_REPLY)
    | USTREAM_FINISHED =>
      (APDU_RESPONSE_OK, call app_event.finalizeParsing env.finalizeParsing w1,
        flags ||| env.IO_ASYNCH_REPLY)
    | USTREAM_FAULT => (APDU_RESPONSE_INVALID_DATA, w1, flags)
    | USTREAM_other => (APDU_RESPONSE_INVALID_DATA, w1, flags)

/-- The handler `handleSign`; `dataLength` is the length of `workBuffer`, and
the result is the status, the globals and `*flags`, or `none` when the
`CX_ASSERT` fails. -/
def handleSign (env : AppEnv) (w : AppWorld) (p1 p2 : Nat) (workBuffer : List Byte)
    (flags : Nat) : Option (Status × AppWorld × Nat) :=
  if !env.os_global_pin_is_validated then
    some (APDU_RESPONSE_SECURITY_NOT_SATISFIED, w, flags)
  else if p1 = env.P1_FIRST then
    match handleSign_first env w workBuffer with
    | first_chunk_outcome.returned sw w1 => some (sw, w1, flags)
    | first_chunk_outcome.assert_failed _ => none
    | first_chunk_outcome.proceed w1 rest => some (handleSign_process env w1 p1 p2 rest flags)
  else if p1 ≠ env.P1_MORE then some (APDU_RESPONSE_INVALID_P1_P2, w, flags)
  else some (handleSign_process env w p1 p2 workBuffer flags)

/-! ### Sample data and notions for the two handlers -/

/-- The globals once the handler has reset the application context, which
both handlers do first when the application is not idle. -/
def entry_world (env : AppEnv) (w : AppWorld) : AppWorld :=
  if w.appState ≠ APP_STATE_IDLE then call app_event.reset_app_context env.reset_app_context w
  else w

/-- A sample parser of derivation paths: a count from 1 to 10, then four
bytes per element. -/
def sample_parseBip32 (data : List Byte) (old : bip32_path_t) :
    Option (List Byte) × bip32_path_t :=
  match data with
  | [] => (none, old)
  | n :: rest =>
    if n.val = 0 ∨ n.val > 10 ∨ rest.length < 4 * n.val then
      (none, { old with length := n.val })
    else
      (some (rest.drop (4 * n.val)),
        { length := n.val
          path := (List.range n.val).map (fun i => be_value ((rest.drop (4 * i)).take 4)) })

/-- The globals at start-up. -/
def app_start : AppWorld :=
  { appState := APP_STATE_IDLE
    bip32 := { length := 0, path := [] }
    domainHash := List.replicate 32 0
    messageHash := List.replicate 32 0
    txContext := { currentField := 0, txType := 0 }
    dataPresent := false
    pluginStatus := 0
    global_sha3 := []
    chainId := 1
    calls := [] }

/-- Sample collaborators: the PIN is validated, resetting gives the start-up
globals, `initTx` sets the parser on its first field, `processTx` asks for
more, and the constants have the values of the application. -/
def sampleAppEnv : AppEnv :=
  { os_global_pin_is_validated := true
    parseBip32 := sample_parseBip32
    reset_app_context := fun w => { app_start with chainId := w.chainId }
    initTx := fun w => { w with txContext := { w.txContext with currentField := 1 } }
    processTx := fun w _ _ => (USTREAM_PROCESSING, w)
    finalizeParsing := fun w => w
    cx_hash_no_throw := true
    P1_FIRST := 0
    P1_MORE := 128
    MIN_TX_TYPE := 0
    MAX_TX_TYPE := 127
    EIP2930 := 1
    EIP1559 := 2
    LEGACY := 192
    RLP_NONE := 0
    TX_FLAG_TYPE := 1
    ETH_PLUGIN_RESULT_UNAVAILABLE := 3
    IO_ASYNCH_REPLY := 16 }

/-- A sample command of the raw-hash path: the path m/44/60, a domain hash of
bytes 1 and a message hash of bytes 2. -/
def sample_712_v0 : List Byte :=
  [2, 0, 0, 0, 44, 0, 0, 0, 60] ++ List.replicate 32 1 ++ List.replicate 32 2

/-! ## Lemmas -/

theorem field_hash_no_session (env : Env) (w : World) (data : List Byte) (part_flag : Bool)
    (h : w.fh = none ∨ path_get_field w = none) :
    field_hash env w data part_flag = (APDU_RESPONSE_CONDITION_NOT_SATISFIED, w) := by
  unfold field_hash
  rcases h with h | h
  · rw [h]
  · rw [h]
    cases w.fh <;> rfl

theorem field_hash_idle_short (env : Env) (w : World) (h : s_field_hashing) (f : Field)
    (data : List Byte) (part_flag : Bool)
    (hfh : w.fh = some h) (hf : path_get_field w = some f) (hidle : h.state = FHS_IDLE)
    (hlen : data.length < 2) :
    field_hash env w data part_flag = (APDU_RESPONSE_INVALID_DATA, w) := by
  unfold field_hash
  rw [hfh, hf]
  simp [hidle, hlen]

theorem field_hash_idle_unfold (env : Env) (w : World) (h : s_field_hashing) (f : Field)
    (b0 b1 : Byte) (rest : List Byte) (part_flag : Bool)
    (hfh : w.fh = some h) (hf : path_get_field w = some f) (hidle : h.state = FHS_IDLE) :
    field_hash env w (b0 :: b1 :: rest) part_flag =
      (let p := field_hash_prepare env w f (b0 :: b1 :: rest) APDU_RESPONSE_UNKNOWN
       if p.2.1 ≠ APDU_RESPONSE_OK then (p.2.1, p.2.2)
       else field_hash_consume env p.2.2
              { remaining_size := 256 * b0.val + b1.val, state := FHS_WAITING_FOR_MORE }
              f rest part_flag) := by
  unfold field_hash
  rw [hfh, hf]
  simp only [hidle, if_true]
  simp [field_hash_prepare, bswap16_head]
  by_cases hd : IS_DYN f.type = true
  · by_cases hk : env.cx_keccak_init_no_throw 256 = true
    · simp [hd, hk, ui_712_new_field]
    · simp [hd, hk]
  · simp [hd]

theorem word_take (d : Word) : List.take 32 d.val = d.val := by
  have h := d.property
  exact List.take_of_length_le (by omega)

theorem feed_parent_eq (t : e_type) (d : Word) (w : World) :
    field_hash_feed_parent t d w
      = { w with
          parent_hash :=
            if w.mem_used - 32 = w.hash_ctx_end then w.parent_hash ++ d.val else w.parent_hash
          stray_hash :=
            if w.mem_used - 32 = w.hash_ctx_end then w.stray_hash else w.stray_hash ++ [d.val]
          mem_used := w.mem_used - 32 } := by
  unfold field_hash_feed_parent
  by_cases h : w.mem_used - 32 = w.hash_ctx_end
  · simp [KECCAK256_HASH_BYTESIZE, EIP_712_ENCODED_FIELD_LENGTH, word_take, mem_dealloc,
      hash_nbytes_at, h]
  · simp [KECCAK256_HASH_BYTESIZE, EIP_712_ENCODED_FIELD_LENGTH, word_take, mem_dealloc,
      hash_nbytes_at, h]

theorem feed_parent_frame (t : e_type) (d : Word) (w : World) :
    ∃ ph sh, field_hash_feed_parent t d w
      = { w with parent_hash := ph, stray_hash := sh, mem_used := w.mem_used - 32 } :=
  ⟨_, _, feed_parent_eq t d w⟩

theorem finalize_feed_neutral (w : World) (f : Field) (data : List Byte) (d : Word)
    (hdom : domain_neutral w f) :
    field_hash_finalize_feed w f data d =
      (APDU_RESPONSE_OK,
        { w with
          fh := w.fh.map (fun h => { h with state := FHS_IDLE })
          parent_hash :=
            if w.mem_used - 32 = w.hash_ctx_end then w.parent_hash ++ d.val else w.parent_hash
          stray_hash :=
            if w.mem_used - 32 = w.hash_ctx_end then w.stray_hash else w.stray_hash ++ [d.val]
          mem_used := w.mem_used - 32
          path_fields := w.path_fields.tail
          ui_log := w.ui_log ++ [ui_event.finalize_field] }) := by
  unfold field_hash_finalize_feed
  rw [feed_parent_eq]
  generalize (if w.mem_used - 32 = w.hash_ctx_end then w.parent_hash ++ d.val
    else w.parent_hash) = ph
  generalize (if w.mem_used - 32 = w.hash_ctx_end then w.stray_hash
    else w.stray_hash ++ [d.val]) = sh
  rcases hdom with hdom | ⟨key, hk, h1, h2⟩
  · simp [path_get_root_type, hdom, path_advance, ui_712_finalize_field]
  · by_cases hr : w.root_type = ROOT_DOMAIN
    · simp [path_get_root_type, hr, field_hash_domain_special_fields, hk, h1, h2, path_advance,
        ui_712_finalize_field]
    · simp [path_get_root_type, hr, path_advance, ui_712_finalize_field]

theorem finalize_dynamic_ok (env : Env) (w : World) (f : Field) (data : List Byte) (d : Word)
    (hdyn : IS_DYN f.type = true) (hmem : w.mem_used + 32 ≤ w.mem_size)
    (hd : env.cx_hash_no_throw w.global_sha3 = some d) (hdom : domain_neutral w f) :
    field_hash_finalize env w f data =
      (APDU_RESPONSE_OK,
        { w with
          fh := w.fh.map (fun h => { h with state := FHS_IDLE })
          parent_hash := parent_fed w d.val
          stray_hash := stray_fed w d.val
          path_fields := w.path_fields.tail
          ui_log := w.ui_log ++ [ui_event.finalize_field] }) := by
  unfold field_hash_finalize
  simp only [hdyn, not_true_eq_false, if_false]
  unfold field_hash_finalize_dynamic
  simp only [mem_alloc, KECCAK256_HASH_BYTESIZE, hmem, if_true, hd]
  rw [finalize_feed_neutral _ _ _ _ (by simpa [domain_neutral] using hdom)]
  simp [parent_fed, stray_fed]

theorem field_hash_waiting (env : Env) (w : World) (h : s_field_hashing) (f : Field)
    (data : List Byte) (part_flag : Bool)
    (hfh : w.fh = some h) (hf : path_get_field w = some f)
    (hw : h.state = FHS_WAITING_FOR_MORE) :
    field_hash env w data part_flag = field_hash_consume env w h f data part_flag := by
  unfold field_hash
  rw [hfh, hf]
  simp [hw]

theorem consume_partial_ok (env : Env) (w : World) (h : s_field_hashing) (f : Field)
    (data : List Byte) (hdyn : IS_DYN f.type = true) (hlt : data.length < h.remaining_size) :
    field_hash_consume env w h f data true =
      (APDU_RESPONSE_OK,
        { w with
          fh := some { h with remaining_size := h.remaining_size - data.length }
          global_sha3 := w.global_sha3 ++ data }) := by
  unfold field_hash_consume
  have h1 : ¬ data.length > h.remaining_size := by omega
  have h2 : ¬ h.remaining_size - data.length = 0 := by omega
  simp [h1, h2, hdyn, hash_nbytes_global]

theorem consume_last_ok (env : Env) (w : World) (h : s_field_hashing) (f : Field)
    (data : List Byte) (d : Word) (hdyn : IS_DYN f.type = true)
    (heq : data.length = h.remaining_size) (hmem : w.mem_used + 32 ≤ w.mem_size)
    (hd : env.cx_hash_no_throw (w.global_sha3 ++ data) = some d)
    (hdom : domain_neutral w f) :
    field_hash_consume env w h f data false =
      (APDU_RESPONSE_OK,
        { w with
          fh := some { remaining_size := 0, state := FHS_IDLE }
          global_sha3 := w.global_sha3 ++ data
          parent_hash := parent_fed w d.val
          stray_hash := stray_fed w d.val
          path_fields := w.path_fields.tail
          ui_log := w.ui_log ++ [ui_event.finalize_field] }) := by
  unfold field_hash_consume
  have h1 : ¬ data.length > h.remaining_size := by omega
  have h2 : h.remaining_size - data.length = 0 := by omega
  simp only [h1, if_false, h2, hdyn, if_true, hash_nbytes_global]
  rw [finalize_dynamic_ok env _ f data d hdyn (by simpa using hmem) (by simpa using hd)
    (by simpa [domain_neutral] using hdom)]
  simp [parent_fed, stray_fed]

theorem chunks_waiting (env : Env) (f : Field) (hdyn : IS_DYN f.type = true) :
    ∀ (cs : List (List Byte)) (w : World) (r : Nat) (d : Word),
      cs ≠ [] →
      w.fh = some { remaining_size := r, state := FHS_WAITING_FOR_MORE } →
      path_get_field w = some f →
      cs.flatten.length = r →
      (∀ k < cs.length, 0 < k → ((cs.take k).flatten).length < r) →
      w.mem_used + 32 ≤ w.mem_size →
      env.cx_hash_no_throw (w.global_sha3 ++ cs.flatten) = some d →
      domain_neutral w f →
      field_hash_chunks env w cs =
        (List.replicate cs.length APDU_RESPONSE_OK,
          { w with
            fh := some { remaining_size := 0, state := FHS_IDLE }
            global_sha3 := w.global_sha3 ++ cs.flatten
            parent_hash := parent_fed w d.val
            stray_hash := stray_fed w d.val
            path_fields := w.path_fields.tail
            ui_log := w.ui_log ++ [ui_event.finalize_field] })
  | [], _, _, _, hne, _, _, _, _, _, _, _ => absurd rfl hne
  | [c], w, r, d, _, hfh, hf, hlen, _, hmem, hd, hdom => by
    simp only [field_hash_chunks]
    rw [field_hash_waiting env w _ f c false hfh hf rfl]
    rw [consume_last_ok env w _ f c d hdyn (by simpa using hlen) hmem (by simpa using hd) hdom]
    simp
  | c :: c1 :: cs, w, r, d, _, hfh, hf, hlen, hpre, hmem, hd, hdom => by
    have hc : c.length < r := by
      have := hpre 1 (by simp) (by omega)
      simpa using this
    simp only [field_hash_chunks]
    rw [field_hash_waiting env w _ f c true hfh hf rfl]
    rw [consume_partial_ok env w _ f c hdyn (by simpa using hc)]
    simp only
    have ih := chunks_waiting env f hdyn (c1 :: cs)
      { w with
        fh := some { remaining_size := r - c.length, state := FHS_WAITING_FOR_MORE }
        global_sha3 := w.global_sha3 ++ c }
      (r - c.length) d (by simp) rfl (by simpa [path_get_field] using hf)
      (by simp at hlen ⊢; omega)
      (by
        intro k hk hk0
        have := hpre (k + 1) (by simp at hk ⊢; omega) (by omega)
        simp at this ⊢
        omega)
      (by simpa using hmem)
      (by simpa using hd)
      (by simpa [domain_neutral] using hdom)
    rw [ih]
    simp [List.replicate_succ, parent_fed, stray_fed]

theorem only_mem_ui_refl (w : World) : only_mem_ui w w := rfl

theorem finalize_static_cont (env : Env) (w : World) (f : Field) (data : List Byte)
    (e : Option Word) :
    only_mem_ui w
      (match encode_alloc e w with
        | (none, w1) => ((none : Option Word), w1)
        | (some value, w1) =>
          if (ui_712_new_field env w1 f data).1 ≠ APDU_RESPONSE_OK then
            (none, (ui_712_new_field env w1 f data).2)
          else (some value, (ui_712_new_field env w1 f data).2)).2 := by
  unfold encode_alloc mem_alloc ui_712_new_field only_mem_ui
  cases e with
  | none => simp
  | some v =>
    by_cases h : w.mem_used + EIP_712_ENCODED_FIELD_LENGTH ≤ w.mem_size
    · by_cases hu : env.ui_712_new_field f data = APDU_RESPONSE_OK <;> simp [h, hu]
    · simp [h]

theorem finalize_static_frame (env : Env) (w : World) (f : Field) (data : List Byte) :
    only_mem_ui w (field_hash_finalize_static env w f data).2 := by
  unfold field_hash_finalize_static
  cases f.type <;> simp only
  all_goals first
    | exact finalize_static_cont env w f data _
    | exact only_mem_ui_refl w

theorem finalize_dynamic_frame (env : Env) (w : World) :
    only_mem_ui w (field_hash_finalize_dynamic env w).2 := by
  unfold field_hash_finalize_dynamic mem_alloc only_mem_ui
  by_cases h : w.mem_used + KECCAK256_HASH_BYTESIZE ≤ w.mem_size
  · simp only [h, if_true]
    cases env.cx_hash_no_throw w.global_sha3 <;> simp
  · simp [h]

theorem domain_special_err (w : World) (f : Field) (data : List Byte)
    (h : (field_hash_domain_special_fields w f data).1 ≠ APDU_RESPONSE_OK) :
    (field_hash_domain_special_fields w f data).2 = w := by
  unfold field_hash_domain_special_fields at h ⊢
  cases hk : f.keyname with
  | none => simp
  | some key =>
    simp only [hk] at h ⊢
    by_cases h1 : strncmp key str_verifyingContract key.length = 0
    · by_cases h2 : data.length = ADDRESS_LENGTH
      · simp [h1, h2] at h
      · simp [h1, h2]
    · by_cases h3 : strncmp key str_chainId key.length = 0
      · simp [h1, h3] at h
      · simp [h1, h3]

theorem finalize_feed_err (w : World) (f : Field) (data : List Byte) (v : Word)
    (h : (field_hash_finalize_feed w f data v).1 ≠ APDU_RESPONSE_OK) :
    (field_hash_finalize_feed w f data v).2 = field_hash_feed_parent f.type v w ∧
    w.root_type = ROOT_DOMAIN ∧
    (field_hash_finalize_feed w f data v).1
      = (field_hash_domain_special_fields (field_hash_feed_parent f.type v w) f data).1 := by
  have hroot : (field_hash_feed_parent f.type v w).root_type = w.root_type := by
    rw [feed_parent_eq]
  unfold field_hash_finalize_feed at h ⊢
  rw [← hroot]
  generalize field_hash_feed_parent f.type v w = w2 at h ⊢
  by_cases hr : w2.root_type = ROOT_DOMAIN
  · simp only [path_get_root_type, hr, if_true] at h ⊢
    by_cases hd : (field_hash_domain_special_fields w2 f data).1 = APDU_RESPONSE_OK
    · simp [hd] at h
    · simp only [ne_eq, hd, not_false_eq_true, if_true, and_true, true_and]
      exact domain_special_err _ f data hd
  · simp [path_get_root_type, hr] at h

theorem same_session_of_only (w w1 : World) (h : only_mem_ui w w1) : same_session w w1 := by
  unfold only_mem_ui at h
  unfold same_session
  rw [h]
  simp

theorem finalize_err_frame (env : Env) (w : World) (f : Field) (data : List Byte)
    (h : (field_hash_finalize env w f data).1 ≠ APDU_RESPONSE_OK) :
    same_session w (field_hash_finalize env w f data).2 := by
  unfold field_hash_finalize at h ⊢
  by_cases hdyn : IS_DYN f.type = true
  · simp only [hdyn, not_true_eq_false, if_false] at h ⊢
    have hfr := same_session_of_only _ _ (finalize_dynamic_frame env w)
    rcases hres : field_hash_finalize_dynamic env w with ⟨v, w1⟩
    rw [hres] at hfr
    cases v with
    | none => simpa using hfr
    | some v =>
      simp only [hres] at h ⊢
      rw [(finalize_feed_err w1 f data v h).1, feed_parent_eq]
      unfold same_session at hfr ⊢
      simpa using hfr
  · have hs : IS_DYN f.type = false := by simpa using hdyn
    simp only [hs, Bool.false_eq_true, not_false_eq_true, if_true] at h ⊢
    have hfr := same_session_of_only _ _ (finalize_static_frame env w f data)
    rcases hres : field_hash_finalize_static env w f data with ⟨v, w1⟩
    rw [hres] at hfr
    cases v with
    | none => simpa using hfr
    | some v =>
      simp only [hres] at h ⊢
      rw [(finalize_feed_err w1 f data v h).1, feed_parent_eq]
      unfold same_session at hfr ⊢
      simpa using hfr

theorem idle_static (env : Env) (w : World) (h : s_field_hashing) (f : Field)
    (b0 b1 : Byte) (rest : List Byte) (part_flag : Bool)
    (hfh : w.fh = some h) (hf : path_get_field w = some f) (hidle : h.state = FHS_IDLE)
    (hs : IS_DYN f.type = false) :
    field_hash env w (b0 :: b1 :: rest) part_flag
      = (APDU_RESPONSE_UNKNOWN, after_header w (256 * b0.val + b1.val)) := by
  rw [field_hash_idle_unfold env w h f b0 b1 rest part_flag hfh hf hidle]
  simp [field_hash_prepare, hs, bswap16_head, after_header]

theorem idle_dyn_init_fail (env : Env) (w : World) (h : s_field_hashing) (f : Field)
    (b0 b1 : Byte) (rest : List Byte) (part_flag : Bool)
    (hfh : w.fh = some h) (hf : path_get_field w = some f) (hidle : h.state = FHS_IDLE)
    (hd : IS_DYN f.type = true) (hk : env.cx_keccak_init_no_throw 256 = false) :
    field_hash env w (b0 :: b1 :: rest) part_flag
      = (APDU_RESPONSE_UNKNOWN, after_header w (256 * b0.val + b1.val)) := by
  rw [field_hash_idle_unfold env w h f b0 b1 rest part_flag hfh hf hidle]
  simp [field_hash_prepare, hd, hk, bswap16_head, after_header]

theorem idle_dyn_refused (env : Env) (w : World) (h : s_field_hashing) (f : Field)
    (b0 b1 : Byte) (rest : List Byte) (part_flag : Bool)
    (hfh : w.fh = some h) (hf : path_get_field w = some f) (hidle : h.state = FHS_IDLE)
    (hd : IS_DYN f.type = true) (hk : env.cx_keccak_init_no_throw 256 = true)
    (hu : env.ui_712_new_field f rest ≠ APDU_RESPONSE_OK) :
    field_hash env w (b0 :: b1 :: rest) part_flag
      = (env.ui_712_new_field f rest, after_prepare w (256 * b0.val + b1.val) f rest) := by
  rw [field_hash_idle_unfold env w h f b0 b1 rest part_flag hfh hf hidle]
  simp [field_hash_prepare, hd, hk, bswap16_head, after_prepare, ui_712_new_field, hu]

theorem idle_dyn_accepted (env : Env) (w : World) (h : s_field_hashing) (f : Field)
    (b0 b1 : Byte) (rest : List Byte) (part_flag : Bool)
    (hfh : w.fh = some h) (hf : path_get_field w = some f) (hidle : h.state = FHS_IDLE)
    (hd : IS_DYN f.type = true) (hk : env.cx_keccak_init_no_throw 256 = true)
    (hu : env.ui_712_new_field f rest = APDU_RESPONSE_OK) :
    field_hash env w (b0 :: b1 :: rest) part_flag
      = field_hash_consume env (after_prepare w (256 * b0.val + b1.val) f rest)
          { remaining_size := 256 * b0.val + b1.val, state := FHS_WAITING_FOR_MORE }
          f rest part_flag := by
  rw [field_hash_idle_unfold env w h f b0 b1 rest part_flag hfh hf hidle]
  simp [field_hash_prepare, hd, hk, bswap16_head, after_prepare, ui_712_new_field, hu]

theorem consume_overlong (env : Env) (w : World) (h : s_field_hashing) (f : Field)
    (data : List Byte) (part_flag : Bool) (hlt : h.remaining_size < data.length) :
    field_hash_consume env w h f data part_flag = (APDU_RESPONSE_INVALID_DATA, w) := by
  unfold field_hash_consume
  simp [hlt]

theorem finalize_ok_frame (env : Env) (w : World) (f : Field) (data : List Byte)
    (h : (field_hash_finalize env w f data).1 = APDU_RESPONSE_OK) :
    (field_hash_finalize env w f data).2.fh
        = w.fh.map (fun h => { h with state := FHS_IDLE }) ∧
      (field_hash_finalize env w f data).2.path_fields = w.path_fields.tail := by
  have key : ∀ (w1 : World) (v : Word), w1.fh = w.fh → w1.path_fields = w.path_fields →
      (field_hash_finalize_feed w1 f data v).1 = APDU_RESPONSE_OK →
      (field_hash_finalize_feed w1 f data v).2.fh
          = w.fh.map (fun h => { h with state := FHS_IDLE }) ∧
        (field_hash_finalize_feed w1 f data v).2.path_fields = w.path_fields.tail := by
    intro w1 v h1 h2 hok
    have hfr : (field_hash_feed_parent f.type v w1).fh = w.fh ∧
        (field_hash_feed_parent f.type v w1).path_fields = w.path_fields := by
      rw [feed_parent_eq]; exact ⟨h1, h2⟩
    unfold field_hash_finalize_feed at hok ⊢
    generalize field_hash_feed_parent f.type v w1 = w2 at hok hfr ⊢
    have hdom : (field_hash_domain_special_fields w2 f data).2.fh = w2.fh ∧
        (field_hash_domain_special_fields w2 f data).2.path_fields = w2.path_fields := by
      unfold field_hash_domain_special_fields
      cases f.keyname with
      | none => simp
      | some key =>
        simp only
        split_ifs <;> simp
    by_cases hr : path_get_root_type w2 = ROOT_DOMAIN
    · simp only [hr, if_true] at hok ⊢
      by_cases hd : (field_hash_domain_special_fields w2 f data).1 = APDU_RESPONSE_OK
      · simp [hd, path_advance, ui_712_finalize_field, hdom.1, hdom.2, hfr.1, hfr.2]
      · simp [hd] at hok
    · simp [hr, path_advance, ui_712_finalize_field, hfr.1, hfr.2]
  unfold field_hash_finalize at h ⊢
  by_cases hdyn : IS_DYN f.type = true
  · simp only [hdyn, not_true_eq_false, if_false] at h ⊢
    have hfr := same_session_of_only _ _ (finalize_dynamic_frame env w)
    rcases hres : field_hash_finalize_dynamic env w with ⟨v, w1⟩
    rw [hres] at hfr
    cases v with
    | none => simp [hres] at h
    | some v =>
      simp only [hres] at h ⊢
      exact key w1 v hfr.1 hfr.2.1 h
  · have hs : IS_DYN f.type = false := by simpa using hdyn
    simp only [hs, Bool.false_eq_true, not_false_eq_true, if_true] at h ⊢
    have hfr := same_session_of_only _ _ (finalize_static_frame env w f data)
    rcases hres : field_hash_finalize_static env w f data with ⟨v, w1⟩
    rw [hres] at hfr
    cases v with
    | none => simp [hres] at h
    | some v =>
      simp only [hres] at h ⊢
      exact key w1 v hfr.1 hfr.2.1 h

theorem consume_ok_inv (env : Env) (w : World) (h : s_field_hashing) (f : Field)
    (data : List Byte) (part_flag : Bool)
    (hok : (field_hash_consume env w h f data part_flag).1 = APDU_RESPONSE_OK) :
    (data.length = h.remaining_size ∧ part_flag = false ∧
        (field_hash_consume env w h f data part_flag).2.fh
          = some { remaining_size := 0, state := FHS_IDLE }) ∨
    (data.length < h.remaining_size ∧ part_flag = true ∧ IS_DYN f.type = true ∧
        (field_hash_consume env w h f data part_flag).2.fh
          = some { remaining_size := h.remaining_size - data.length, state := h.state }) := by
  unfold field_hash_consume at hok ⊢
  by_cases h1 : data.length > h.remaining_size
  · simp [h1] at hok
  · simp only [h1, if_false] at hok ⊢
    by_cases h2 : h.remaining_size - data.length = 0
    · simp only [h2, if_true] at hok ⊢
      cases part_flag with
      | true => simp at hok
      | false =>
        left
        refine ⟨by omega, rfl, ?_⟩
        by_cases hd : IS_DYN f.type = true
        · simp only [hd, if_true, Bool.false_eq_true, if_false] at hok ⊢
          split_ifs at hok ⊢ with hne
          · exact absurd hok hne
          · have hfin := not_not.mp hne
            rw [(finalize_ok_frame env _ f data hfin).1]
            simp [hash_nbytes_global]
        · simp only [hd, if_false, Bool.false_eq_true] at hok ⊢
          split_ifs at hok ⊢ with hne
          · exact absurd hok hne
          · have hfin := not_not.mp hne
            rw [(finalize_ok_frame env _ f data hfin).1]
            simp
    · simp only [h2, if_false] at hok ⊢
      right
      cases part_flag with
      | false => simp at hok
      | true =>
        by_cases hd : IS_DYN f.type = true
        · simp [hd, hash_nbytes_global]
          omega
        · simp [hd] at hok

theorem consume_err_frame (env : Env) (w : World) (h : s_field_hashing) (f : Field)
    (data : List Byte) (part_flag : Bool) (hfh : w.fh = some h)
    (herr : (field_hash_consume env w h f data part_flag).1 ≠ APDU_RESPONSE_OK) :
    (∃ h1, (field_hash_consume env w h f data part_flag).2.fh = some h1 ∧ h1.state = h.state ∧
      (h1.remaining_size = h.remaining_size ∨
        h1.remaining_size = h.remaining_size - data.length)) ∧
    (field_hash_consume env w h f data part_flag).2.path_fields = w.path_fields ∧
    (field_hash_consume env w h f data part_flag).2.contract_addr = w.contract_addr ∧
    (field_hash_consume env w h f data part_flag).2.chain_id = w.chain_id := by
  unfold field_hash_consume at herr ⊢
  by_cases h1 : data.length > h.remaining_size
  · simp [h1, hfh]
  · simp only [h1, if_false] at herr ⊢
    by_cases h2 : h.remaining_size - data.length = 0
    · simp only [h2, if_true] at herr ⊢
      cases part_flag with
      | true => by_cases hd : IS_DYN f.type = true <;> simp [hd, hash_nbytes_global]
      | false =>
        by_cases hd : IS_DYN f.type = true
        · simp only [hd, if_true, Bool.false_eq_true, if_false] at herr ⊢
          split_ifs at herr ⊢ with hne
          · have hfr := finalize_err_frame env _ f data hne
            unfold same_session at hfr
            obtain ⟨a1, a2, a3, a4, -, -⟩ := hfr
            simp only [a1, a2, a3, a4]
            simp [hash_nbytes_global]
          · simp at herr
        · simp only [hd, if_false, Bool.false_eq_true] at herr ⊢
          split_ifs at herr ⊢ with hne
          · have hfr := finalize_err_frame env _ f data hne
            unfold same_session at hfr
            obtain ⟨a1, a2, a3, a4, -, -⟩ := hfr
            simp only [a1, a2, a3, a4]
            simp
          · simp at herr
    · simp only [h2, if_false] at herr ⊢
      by_cases hd : IS_DYN f.type = true <;> cases part_flag <;>
        simp_all [hash_nbytes_global]

theorem consume_flag_violation (env : Env) (w : World) (h : s_field_hashing) (f : Field)
    (data : List Byte) (part_flag : Bool)
    (hv : (data.length = h.remaining_size ∧ part_flag = true) ∨
      (data.length < h.remaining_size ∧ part_flag = false) ∨
      (data.length < h.remaining_size ∧ IS_DYN f.type = false)) :
    (field_hash_consume env w h f data part_flag).1 = APDU_RESPONSE_INVALID_DATA := by
  unfold field_hash_consume
  rcases hv with ⟨h1, h2⟩ | ⟨h1, h2⟩ | ⟨h1, h2⟩
  · have a : ¬ data.length > h.remaining_size := by omega
    have b : h.remaining_size - data.length = 0 := by omega
    simp [a, b, h2]
  · have a : ¬ data.length > h.remaining_size := by omega
    have b : ¬ h.remaining_size - data.length = 0 := by omega
    simp [a, b, h2]
  · have a : ¬ data.length > h.remaining_size := by omega
    have b : ¬ h.remaining_size - data.length = 0 := by omega
    simp [a, b, h2]

theorem state_cases (h : s_field_hashing) :
    h.state = FHS_IDLE ∨ h.state = FHS_WAITING_FOR_MORE := by
  cases h.state <;> simp

/-- What a first chunk of at least two bytes leads to. -/
theorem idle_first_chunk (env : Env) (w : World) (h : s_field_hashing) (f : Field)
    (b0 b1 : Byte) (rest : List Byte) (part_flag : Bool)
    (hfh : w.fh = some h) (hf : path_get_field w = some f) (hidle : h.state = FHS_IDLE) :
    ((IS_DYN f.type = false ∨ env.cx_keccak_init_no_throw 256 = false) ∧
      field_hash env w (b0 :: b1 :: rest) part_flag
        = (APDU_RESPONSE_UNKNOWN, after_header w (256 * b0.val + b1.val))) ∨
    (IS_DYN f.type = true ∧ env.cx_keccak_init_no_throw 256 = true ∧
      env.ui_712_new_field f rest ≠ APDU_RESPONSE_OK ∧
      field_hash env w (b0 :: b1 :: rest) part_flag
        = (env.ui_712_new_field f rest, after_prepare w (256 * b0.val + b1.val) f rest)) ∨
    (IS_DYN f.type = true ∧ env.cx_keccak_init_no_throw 256 = true ∧
      env.ui_712_new_field f rest = APDU_RESPONSE_OK ∧
      field_hash env w (b0 :: b1 :: rest) part_flag
        = field_hash_consume env (after_prepare w (256 * b0.val + b1.val) f rest)
            { remaining_size := 256 * b0.val + b1.val, state := FHS_WAITING_FOR_MORE }
            f rest part_flag) := by
  by_cases hd : IS_DYN f.type = true
  · by_cases hk : env.cx_keccak_init_no_throw 256 = true
    · by_cases hu : env.ui_712_new_field f rest = APDU_RESPONSE_OK
      · exact Or.inr (Or.inr ⟨hd, hk, hu,
          idle_dyn_accepted env w h f b0 b1 rest part_flag hfh hf hidle hd hk hu⟩)
      · exact Or.inr (Or.inl ⟨hd, hk, hu,
          idle_dyn_refused env w h f b0 b1 rest part_flag hfh hf hidle hd hk hu⟩)
    · have hk1 : env.cx_keccak_init_no_throw 256 = false := by simpa using hk
      exact Or.inl ⟨Or.inr hk1,
        idle_dyn_init_fail env w h f b0 b1 rest part_flag hfh hf hidle hd hk1⟩
  · have hs : IS_DYN f.type = false := by simpa using hd
    exact Or.inl ⟨Or.inl hs, idle_static env w h f b0 b1 rest part_flag hfh hf hidle hs⟩

theorem length_header_total (n : Nat) (hn : n ≤ 65535) :
    256 * (Fin.ofNat (n / 256) : Byte).val + (Fin.ofNat n : Byte).val = n := by
  simp only [Fin.ofNat]
  omega

/-- The first chunk of a dynamic field, once accepted, is handled as its value
bytes are in phase AwaitingMore. -/
theorem chunks_first (env : Env) (w : World) (h : s_field_hashing) (f : Field)
    (b0 b1 : Byte) (rest : List Byte) (cs : List (List Byte))
    (hfh : w.fh = some h) (hf : path_get_field w = some f) (hidle : h.state = FHS_IDLE)
    (hd : IS_DYN f.type = true) (hk : env.cx_keccak_init_no_throw 256 = true)
    (hu : env.ui_712_new_field f rest = APDU_RESPONSE_OK) :
    field_hash_chunks env w ((b0 :: b1 :: rest) :: cs)
      = field_hash_chunks env (after_prepare w (256 * b0.val + b1.val) f rest) (rest :: cs) := by
  have step : ∀ part_flag : Bool,
      field_hash env w (b0 :: b1 :: rest) part_flag
        = field_hash env (after_prepare w (256 * b0.val + b1.val) f rest) rest part_flag := by
    intro part_flag
    rw [idle_dyn_accepted env w h f b0 b1 rest part_flag hfh hf hidle hd hk hu,
      field_hash_waiting env (after_prepare w (256 * b0.val + b1.val) f rest) _ f rest
        part_flag rfl (by simpa [after_prepare, path_get_field] using hf) rfl]
  cases cs with
  | nil => simp only [field_hash_chunks, step]
  | cons c1 cs => simp only [field_hash_chunks, step]

theorem fragmentation_result (env : Env) (w : World) (h : s_field_hashing) (f : Field)
    (v : List Byte) (chunks : List (List Byte)) (d : Word)
    (hfh : w.fh = some h) (hidle : h.state = FHS_IDLE) (hf : path_get_field w = some f)
    (hdyn : IS_DYN f.type = true) (hv : v.length ≤ 65535)
    (hsplit : correctly_chunked v chunks)
    (hk : env.cx_keccak_init_no_throw 256 = true)
    (hu : env.ui_712_new_field f ((chunks.headD []).drop 2) = APDU_RESPONSE_OK)
    (hmem : w.mem_used + 32 ≤ w.mem_size)
    (hd : env.cx_hash_no_throw v = some d)
    (hdom : domain_neutral w f) :
    field_hash_chunks env w chunks =
      (List.replicate chunks.length APDU_RESPONSE_OK,
        { w with
          fh := some { remaining_size := 0, state := FHS_IDLE }
          global_sha3 := v
          parent_hash := parent_fed w d.val
          stray_hash := stray_fed w d.val
          path_fields := w.path_fields.tail
          ui_log := w.ui_log ++
            [ui_event.new_field f ((chunks.headD []).drop 2), ui_event.finalize_field] }) := by
  obtain ⟨hflat, hhead, hpre⟩ := hsplit
  match chunks, hflat, hhead, hpre, hu with
  | [], _, hhead, _, _ => simp at hhead
  | [] :: cs, _, hhead, _, _ => simp at hhead
  | [_] :: cs, _, hhead, _, _ => simp at hhead
  | (b0 :: b1 :: rest) :: cs, hflat, _, hpre, hu =>
    simp only [List.headD_cons, List.drop_succ_cons, List.drop_zero] at hu ⊢
    simp only [length_header, List.flatten_cons, List.cons_append, List.nil_append,
      List.cons.injEq] at hflat
    obtain ⟨e0, e1, e2⟩ := hflat
    have htot : 256 * b0.val + b1.val = v.length := by
      rw [e0, e1]; exact length_header_total v.length hv
    rw [chunks_first env w h f b0 b1 rest cs hfh hf hidle hdyn hk hu, htot]
    rw [chunks_waiting env f hdyn (rest :: cs) (after_prepare w v.length f rest) v.length d
      (by simp) rfl (by simpa [after_prepare, path_get_field] using hf)
      (by simp only [List.flatten_cons]; rw [e2])
      (by
        intro k hk1 hk0
        have := hpre k (by simpa using hk1) hk0
        obtain ⟨j, rfl⟩ : ∃ j, k = j + 1 := ⟨k - 1, by omega⟩
        simp only [List.take_succ_cons, List.flatten_cons, List.length_append,
          List.length_cons] at this ⊢
        omega)
      (by simpa [after_prepare] using hmem)
      (by simpa [after_prepare, e2] using hd)
      (by simpa [after_prepare, domain_neutral] using hdom)]
    simp [after_prepare, e2, parent_fed, stray_fed]

theorem single_chunk_correct (v : List Byte) :
    correctly_chunked v [length_header v.length ++ v] := by
  refine ⟨by simp, by simp [length_header], ?_⟩
  intro k hk hk0
  simp at hk
  omega

theorem encode_alloc_mem (r : Option Word) (w : World) :
    ((encode_alloc r w).1 = none ∧ (encode_alloc r w).2 = w) ∨
    (∃ v, r = some v ∧ w.mem_used + 32 ≤ w.mem_size ∧
      encode_alloc r w = (some v, { w with mem_used := w.mem_used + 32 })) := by
  unfold encode_alloc mem_alloc
  cases r with
  | none => simp
  | some v =>
    simp only [EIP_712_ENCODED_FIELD_LENGTH]
    by_cases h : w.mem_used + 32 ≤ w.mem_size
    · right
      refine ⟨v, rfl, h, ?_⟩
      simp [h]
    · simp [h]

theorem finalize_static_eq (env : Env) (w : World) (f : Field) (data : List Byte) :
    field_hash_finalize_static env w f data =
      (match encode_alloc (static_word env f data) w with
        | (none, w1) => (none, w1)
        | (some value, w1) =>
          if (ui_712_new_field env w1 f data).1 ≠ APDU_RESPONSE_OK then
            (none, (ui_712_new_field env w1 f data).2)
          else (some value, (ui_712_new_field env w1 f data).2)) := by
  unfold field_hash_finalize_static static_word
  cases f.type <;> simp [encode_alloc]

/-- What static finalization does, case by case. -/
theorem finalize_static_cases (env : Env) (w : World) (f : Field) (data : List Byte) :
    (field_hash_finalize_static env w f data = (none, w)) ∨
    (∃ v, static_word env f data = some v ∧ w.mem_used + 32 ≤ w.mem_size ∧
      env.ui_712_new_field f data ≠ APDU_RESPONSE_OK ∧
      field_hash_finalize_static env w f data =
        (none, { w with mem_used := w.mem_used + 32
                        ui_log := w.ui_log ++ [ui_event.new_field f data] })) ∨
    (∃ v, static_word env f data = some v ∧ w.mem_used + 32 ≤ w.mem_size ∧
      env.ui_712_new_field f data = APDU_RESPONSE_OK ∧
      field_hash_finalize_static env w f data =
        (some v, { w with mem_used := w.mem_used + 32
                          ui_log := w.ui_log ++ [ui_event.new_field f data] })) := by
  rw [finalize_static_eq]
  rcases encode_alloc_mem (static_word env f data) w with ⟨h1, h2⟩ | ⟨v, hv, hm, he⟩
  · left
    rcases hres : encode_alloc (static_word env f data) w with ⟨o, w1⟩
    rw [hres] at h1 h2
    simp only at h1 h2
    subst h1 h2
    rfl
  · right
    rw [he]
    by_cases hu : env.ui_712_new_field f data = APDU_RESPONSE_OK
    · right
      exact ⟨v, hv, hm, hu, by simp [ui_712_new_field, hu]⟩
    · left
      exact ⟨v, hv, hm, hu, by simp [ui_712_new_field, hu]⟩

/-- What dynamic finalization does, case by case. -/
theorem finalize_dynamic_cases (env : Env) (w : World) :
    (w.mem_size < w.mem_used + 32 ∧ field_hash_finalize_dynamic env w = (none, w)) ∨
    (w.mem_used + 32 ≤ w.mem_size ∧ env.cx_hash_no_throw w.global_sha3 = none ∧
      field_hash_finalize_dynamic env w = (none, { w with mem_used := w.mem_used + 32 })) ∨
    (∃ v, w.mem_used + 32 ≤ w.mem_size ∧ env.cx_hash_no_throw w.global_sha3 = some v ∧
      field_hash_finalize_dynamic env w = (some v, { w with mem_used := w.mem_used + 32 })) := by
  unfold field_hash_finalize_dynamic mem_alloc
  by_cases h : w.mem_used + 32 ≤ w.mem_size
  · right
    cases hh : env.cx_hash_no_throw w.global_sha3 with
    | none => left; simp [KECCAK256_HASH_BYTESIZE, h, hh]
    | some v => right; exact ⟨v, h, rfl, by simp [KECCAK256_HASH_BYTESIZE, h, hh]⟩
  · left
    exact ⟨by omega, by simp [KECCAK256_HASH_BYTESIZE, h]⟩

theorem finalize_static_branch (env : Env) (w : World) (f : Field) (data : List Byte)
    (hs : IS_DYN f.type = false) :
    field_hash_finalize env w f data =
      (match field_hash_finalize_static env w f data with
        | (none, w1) => (APDU_RESPONSE_INVALID_DATA, w1)
        | (some value, w1) => field_hash_finalize_feed w1 f data value) := by
  unfold field_hash_finalize
  simp [hs]

theorem finalize_dynamic_branch (env : Env) (w : World) (f : Field) (data : List Byte)
    (hd : IS_DYN f.type = true) :
    field_hash_finalize env w f data =
      (match field_hash_finalize_dynamic env w with
        | (none, w1) => (APDU_RESPONSE_INSUFFICIENT_MEMORY, w1)
        | (some value, w1) => field_hash_finalize_feed w1 f data value) := by
  unfold field_hash_finalize
  simp [hd]

theorem finalize_feed_mem (w : World) (f : Field) (data : List Byte) (v : Word) :
    (field_hash_finalize_feed w f data v).2.mem_used = w.mem_used - 32 := by
  unfold field_hash_finalize_feed
  obtain ⟨ph, sh, hfeed⟩ := feed_parent_frame f.type v w
  rw [hfeed]
  simp only [path_get_root_type]
  by_cases hr : w.root_type = ROOT_DOMAIN
  · simp only [hr, if_true]
    have hm : ∀ w2 : World, (field_hash_domain_special_fields w2 f data).2.mem_used
        = w2.mem_used := by
      intro w2
      unfold field_hash_domain_special_fields
      cases f.keyname with
      | none => rfl
      | some key => simp only; split_ifs <;> rfl
    split_ifs
    · rw [hm]
    · simp [path_advance, ui_712_finalize_field, hm]
  · simp [hr, path_advance, ui_712_finalize_field]

/-- The arena usage after field finalization: 32 bytes more when the word was
allocated and then dropped, unchanged otherwise. -/
theorem finalize_mem (env : Env) (w : World) (f : Field) (data : List Byte) :
    (field_hash_finalize env w f data).2.mem_used = w.mem_used ∨
    ((field_hash_finalize env w f data).1 ≠ APDU_RESPONSE_OK ∧
      (field_hash_finalize env w f data).2.mem_used = w.mem_used + 32) := by
  by_cases hd : IS_DYN f.type = true
  · rw [finalize_dynamic_branch env w f data hd]
    rcases finalize_dynamic_cases env w with ⟨-, he⟩ | ⟨-, -, he⟩ | ⟨v, -, -, he⟩
    · rw [he]; left; rfl
    · rw [he]; right; exact ⟨by simp, rfl⟩
    · rw [he]; left
      simp only [finalize_feed_mem]
      omega
  · have hs : IS_DYN f.type = false := by simpa using hd
    rw [finalize_static_branch env w f data hs]
    rcases finalize_static_cases env w f data with he | ⟨v, -, -, -, he⟩ | ⟨v, -, -, -, he⟩
    · rw [he]; left; rfl
    · rw [he]; right; exact ⟨by simp, rfl⟩
    · rw [he]; left
      simp only [finalize_feed_mem]
      omega

/-- Without the root EIP712Domain, `field_hash_finalize_feed` leaves the Domain
Capture Context alone and succeeds. -/
theorem finalize_feed_no_domain (w : World) (f : Field) (data : List Byte) (v : Word)
    (hroot : w.root_type ≠ ROOT_DOMAIN) :
    (field_hash_finalize_feed w f data v).1 = APDU_RESPONSE_OK ∧
    (field_hash_finalize_feed w f data v).2.contract_addr = w.contract_addr ∧
    (field_hash_finalize_feed w f data v).2.chain_id = w.chain_id := by
  unfold field_hash_finalize_feed
  rw [feed_parent_eq]
  simp [path_get_root_type, hroot, path_advance, ui_712_finalize_field]

/-- The arena usage after the body of `field_hash`: 32 bytes more when a word
was allocated and then dropped, unchanged otherwise. -/
theorem consume_mem (env : Env) (w : World) (h : s_field_hashing) (f : Field)
    (data : List Byte) (part_flag : Bool) :
    (field_hash_consume env w h f data part_flag).2.mem_used = w.mem_used ∨
    ((field_hash_consume env w h f data part_flag).1 ≠ APDU_RESPONSE_OK ∧
      (field_hash_consume env w h f data part_flag).2.mem_used = w.mem_used + 32) := by
  have key : ∀ w2 : World, w2.mem_used = w.mem_used →
      ((if (field_hash_finalize env w2 f data).1 ≠ APDU_RESPONSE_OK then
          ((field_hash_finalize env w2 f data).1, (field_hash_finalize env w2 f data).2)
        else (APDU_RESPONSE_OK, (field_hash_finalize env w2 f data).2)).2.mem_used
          = w.mem_used ∨
        ((if (field_hash_finalize env w2 f data).1 ≠ APDU_RESPONSE_OK then
            ((field_hash_finalize env w2 f data).1, (field_hash_finalize env w2 f data).2)
          else (APDU_RESPONSE_OK, (field_hash_finalize env w2 f data).2)).1
            ≠ APDU_RESPONSE_OK ∧
          (if (field_hash_finalize env w2 f data).1 ≠ APDU_RESPONSE_OK then
            ((field_hash_finalize env w2 f data).1, (field_hash_finalize env w2 f data).2)
          else (APDU_RESPONSE_OK, (field_hash_finalize env w2 f data).2)).2.mem_used
            = w.mem_used + 32)) := by
    intro w2 hw2
    rcases finalize_mem env w2 f data with hm | ⟨hne, hm⟩
    · left
      split_ifs <;> exact hm.trans hw2
    · right
      rw [if_pos hne]
      exact ⟨hne, hm.trans (by rw [hw2])⟩
  unfold field_hash_consume
  by_cases h1 : data.length > h.remaining_size
  · simp [h1]
  · simp only [h1, if_false]
    by_cases h2 : h.remaining_size - data.length = 0
    · simp only [h2, if_true]
      cases part_flag with
      | true =>
        left
        simp only [if_true]
        split_ifs <;> rfl
      | false =>
        simp only [Bool.false_eq_true, if_false]
        apply key
        split_ifs <;> rfl
    · simp only [h2, if_false]
      left
      split_ifs <;> rfl

/-- The arena usage after `field_hash`: 32 bytes more when a word was allocated
and then dropped, unchanged otherwise. -/
theorem field_hash_mem (env : Env) (w : World) (data : List Byte) (part_flag : Bool) :
    (field_hash env w data part_flag).2.mem_used = w.mem_used ∨
    ((field_hash env w data part_flag).1 ≠ APDU_RESPONSE_OK ∧
      (field_hash env w data part_flag).2.mem_used = w.mem_used + 32) := by
  cases hfh : w.fh with
  | none => rw [field_hash_no_session env w data part_flag (Or.inl hfh)]; left; rfl
  | some h =>
    cases hf : path_get_field w with
    | none => rw [field_hash_no_session env w data part_flag (Or.inr hf)]; left; rfl
    | some f =>
      rcases state_cases h with hidle | hwait
      · match data with
        | [] =>
          rw [field_hash_idle_short env w h f [] part_flag hfh hf hidle (by simp)]; left; rfl
        | [b] =>
          rw [field_hash_idle_short env w h f [b] part_flag hfh hf hidle (by simp)]; left; rfl
        | b0 :: b1 :: rest =>
          rcases idle_first_chunk env w h f b0 b1 rest part_flag hfh hf hidle with
            ⟨-, he⟩ | ⟨-, -, -, he⟩ | ⟨-, -, -, he⟩
          · rw [he]; left; rfl
          · rw [he]; left; rfl
          · rw [he]
            exact consume_mem env _ _ f rest part_flag
      · rw [field_hash_waiting env w h f data part_flag hfh hf hwait]
        exact consume_mem env w h f data part_flag

/-! ### Lemmas on cmd_provide_domain_name.c -/

namespace DomainName

theorem binding_only_refl (w : DnWorld) : binding_only w w := by
  unfold binding_only
  simp

theorem binding_only_trans (w w1 w2 : DnWorld) (h1 : binding_only w w1)
    (h2 : binding_only w1 w2) : binding_only w w2 := by
  unfold binding_only at h1 h2 ⊢
  obtain ⟨a1, a2, a3, a4, a5, a6, a7, a8, a9, a10, a11⟩ := h1
  obtain ⟨b1, b2, b3, b4, b5, b6, b7, b8, b9, b10, b11⟩ := h2
  exact ⟨b1.trans a1, b2.trans a2, b3.trans a3, b4.trans a4, b5.trans a5, b6.trans a6,
    b7.trans a7, b8.trans a8, b9.trans a9, b10.trans a10, b11.trans a11⟩

theorem handle_domain_name_frame (env : DnEnv) (w : DnWorld) (data : s_tlv_data)
    (param : s_tlv_handler_param) :
    binding_only w (handle_domain_name env w data param).2.1 := by
  unfold handle_domain_name binding_only
  simp only
  split_ifs <;> simp

theorem handle_address_frame (w : DnWorld) (data : s_tlv_data) (param : s_tlv_handler_param) :
    binding_only w (handle_address w data param).2.1 := by
  unfold handle_address binding_only
  split_ifs <;> simp

theorem tlv_dispatch_frame (env : DnEnv) (w : DnWorld) (param : s_tlv_handler_param)
    (data : s_tlv_data) : binding_only w (tlv_dispatch env w param data).2.1 := by
  unfold tlv_dispatch
  split_ifs
  all_goals first
    | exact binding_only_refl w
    | exact handle_domain_name_frame env w data _
    | exact handle_address_frame w data _

/-- The TLV callback touches no global but the cached address and the name
buffer. -/
theorem tlv_handler_frame (env : DnEnv) (w : DnWorld) (param : s_tlv_handler_param)
    (data : s_tlv_data) : binding_only w (tlv_handler env w param data).2.1 := by
  unfold tlv_handler
  split_ifs
  · exact binding_only_refl w
  · exact tlv_dispatch_frame env w _ data

theorem parse_tlv_entries_frame (env : DnEnv) (entries : List s_tlv_data) :
    ∀ (w : DnWorld) (param : s_tlv_handler_param),
      binding_only w (parse_tlv_entries env entries w param).2.1 := by
  induction entries with
  | nil => intro w param; exact binding_only_refl w
  | cons e es ih =>
    intro w param
    simp only [parse_tlv_entries]
    split_ifs
    · exact tlv_handler_frame env w param e
    · exact binding_only_trans _ _ _ (tlv_handler_frame env w param e) (ih _ _)

theorem parse_tlv_frame (env : DnEnv) (payload : List Byte) (w : DnWorld)
    (param : s_tlv_handler_param) : binding_only w (parse_tlv env payload w param).2.1 := by
  unfold parse_tlv
  simp only
  split_ifs <;> exact parse_tlv_entries_frame env _ w param

/-- What `handle_all_received` does to the globals, whatever the payload. -/
theorem handle_all_received_effect (env : DnEnv) (w : DnWorld) :
    (handle_all_received env w).2.rolls = w.rolls + 1 ∧
    (handle_all_received env w).2.g_payload = none ∧
    (handle_all_received env w).2.g_payload_size = 0 ∧
    (handle_all_received env w).2.g_payload_expected_size = 0 ∧
    (handle_all_received env w).2.io_log
      = w.io_log ++ [dn_event.payload_freed, dn_event.challenge_rolled] ∧
    ((handle_all_received env w).1 = false →
      (handle_all_received env w).2.apdu_response_code = APDU_RESPONSE_INVALID_DATA ∧
      (handle_all_received env w).2.g_domain_name_info.valid = w.g_domain_name_info.valid) ∧
    ((handle_all_received env w).1 = true →
      (handle_all_received env w).2.apdu_response_code = w.apdu_response_code ∧
      (handle_all_received env w).2.g_domain_name_info.valid = true) := by
  unfold handle_all_received
  simp only
  have hfr := parse_tlv_frame env ((w.g_payload.getD []).take w.g_payload_size)
    { w with g_domain_name_info := { w.g_domain_name_info with name := true } }
    handler_param_zero
  generalize parse_tlv env ((w.g_payload.getD []).take w.g_payload_size)
    { w with g_domain_name_info := { w.g_domain_name_info with name := true } }
    handler_param_zero = p at hfr ⊢
  obtain ⟨a1, a2, a3, a4, a5, a6, a7, a8, a9, a10, a11⟩ := hfr
  simp only at a1 a2 a3 a4 a5 a6 a7 a8 a9 a10 a11
  split_ifs
  · simp [roll_challenge, free_payload, mem_dealloc, a4, a8, a11]
  · simp [roll_challenge, free_payload, mem_dealloc, a6, a8, a11]

theorem size_t_sub_zero (n : Nat) (h : n < 2 ^ 32) : size_t_sub n 0 = n := by
  unfold size_t_sub
  omega

theorem size_t_sub_two (n : Nat) (h : n < 2 ^ 32) (h2 : 2 ≤ n) : size_t_sub n 2 = n - 2 := by
  unfold size_t_sub
  omega

/-- A chunk that completes the payload leads to `handle_all_received`. -/
theorem feed_complete (env : DnEnv) (w : DnWorld) (data : List Byte) (offset : Nat)
    (hn : size_t_sub data.length offset = data.length - offset)
    (hsum : w.g_payload_size + (data.length - offset) = w.g_payload_expected_size)
    (hexp : w.g_payload_expected_size < 2 ^ 16) :
    handle_provide_domain_name_feed env w data offset =
      response_to_domain_name
        (handle_all_received env
          { w with
            g_payload := some (w.g_payload.getD [] ++ data.drop offset)
            g_payload_size := w.g_payload_expected_size }).1
        (handle_all_received env
          { w with
            g_payload := some (w.g_payload.getD [] ++ data.drop offset)
            g_payload_size := w.g_payload_expected_size }).2 := by
  unfold handle_provide_domain_name_feed
  rw [hn, hsum]
  have h1 : w.g_payload_expected_size % 2 ^ 32 = w.g_payload_expected_size :=
    Nat.mod_eq_of_lt (by omega)
  have h2 : w.g_payload_expected_size % 2 ^ 16 = w.g_payload_expected_size :=
    Nat.mod_eq_of_lt hexp
  simp only [h1, h2, gt_iff_lt, lt_self_iff_false, if_false, if_true]
  cases (handle_all_received env
      { w with
        g_payload := some (w.g_payload.getD [] ++ data.drop offset)
        g_payload_size := w.g_payload_expected_size }).1 <;> simp

/-- The effect of a chunk that completes the payload. -/
theorem feed_complete_effect (env : DnEnv) (w : DnWorld) (data : List Byte) (offset : Nat)
    (hn : size_t_sub data.length offset = data.length - offset)
    (hsum : w.g_payload_size + (data.length - offset) = w.g_payload_expected_size)
    (hexp : w.g_payload_expected_size < 2 ^ 16) :
    (handle_provide_domain_name_feed env w data offset).rolls = w.rolls + 1 ∧
    (handle_provide_domain_name_feed env w data offset).g_payload = none ∧
    (((handle_provide_domain_name_feed env w data offset).io_log
        = w.io_log ++ [dn_event.payload_freed, dn_event.challenge_rolled,
            dn_event.response APDU_RESPONSE_OK] ∧
      (handle_provide_domain_name_feed env w data offset).g_domain_name_info.valid = true) ∨
     ((handle_provide_domain_name_feed env w data offset).io_log
        = w.io_log ++ [dn_event.payload_freed, dn_event.challenge_rolled,
            dn_event.response APDU_RESPONSE_INVALID_DATA] ∧
      (handle_provide_domain_name_feed env w data offset).g_domain_name_info.valid
        = w.g_domain_name_info.valid)) := by
  rw [feed_complete env w data offset hn hsum hexp]
  obtain ⟨e1, e2, -, -, e5, e6, e7⟩ := handle_all_received_effect env
    { w with
      g_payload := some (w.g_payload.getD [] ++ data.drop offset)
      g_payload_size := w.g_payload_expected_size }
  cases hr : (handle_all_received env
      { w with
        g_payload := some (w.g_payload.getD [] ++ data.drop offset)
        g_payload_size := w.g_payload_expected_size }).1 with
  | false =>
    obtain ⟨f1, f2⟩ := e6 hr
    refine ⟨by simpa [response_to_domain_name] using e1,
      by simpa [response_to_domain_name] using e2, Or.inr ⟨?_, ?_⟩⟩
    · simp only [response_to_domain_name, Bool.false_eq_true, if_false, e5, f1]
      simp
    · simpa [response_to_domain_name] using f2
  | true =>
    obtain ⟨-, f2⟩ := e7 hr
    refine ⟨by simpa [response_to_domain_name] using e1,
      by simpa [response_to_domain_name] using e2, Or.inl ⟨?_, ?_⟩⟩
    · simp only [response_to_domain_name, if_true, e5]
      simp
    · simpa [response_to_domain_name] using f2

/-- The binding is marked valid by a command only when that command ends a
successful registration: payload freed, challenge rolled, response Ok. -/
theorem feed_valid (env : DnEnv) (w : DnWorld) (data : List Byte) (offset : Nat)
    (hv : (handle_provide_domain_name_feed env w data offset).g_domain_name_info.valid = true) :
    w.g_domain_name_info.valid = true ∨
    (handle_provide_domain_name_feed env w data offset).io_log
      = w.io_log ++ [dn_event.payload_freed, dn_event.challenge_rolled,
          dn_event.response APDU_RESPONSE_OK] := by
  unfold handle_provide_domain_name_feed at hv ⊢
  simp only at hv ⊢
  split_ifs at hv ⊢ with h1 h2 h3
  · left
    simpa [response_to_domain_name, free_payload, mem_dealloc] using hv
  · obtain ⟨-, -, -, -, e5, e6, -⟩ := handle_all_received_effect env
      { w with
        g_payload := some (w.g_payload.getD [] ++ data.drop offset)
        g_payload_size := (w.g_payload_size + size_t_sub data.length offset) % 2 ^ 16 }
    have hf : (handle_all_received env
      { w with
        g_payload := some (w.g_payload.getD [] ++ data.drop offset)
        g_payload_size := (w.g_payload_size + size_t_sub data.length offset) % 2 ^ 16 }).1
        = false := by simpa using h3
    left
    have := (e6 hf).2
    simp only [response_to_domain_name] at hv
    rw [this] at hv
    exact hv
  · obtain ⟨-, -, -, -, e5, -, -⟩ := handle_all_received_effect env
      { w with
        g_payload := some (w.g_payload.getD [] ++ data.drop offset)
        g_payload_size := (w.g_payload_size + size_t_sub data.length offset) % 2 ^ 16 }
    right
    simp only [response_to_domain_name, if_true, e5]
    simp
  · left
    simpa [response_to_domain_name] using hv

theorem handle_first_chunk_frame (w : DnWorld) (data : List Byte) :
    (handle_first_chunk w data).2.g_domain_name_info = w.g_domain_name_info ∧
    ((handle_first_chunk w data).1 ≠ 0 →
      (handle_first_chunk w data).2.io_log = w.io_log) := by
  unfold handle_first_chunk alloc_payload mem_alloc free_payload mem_dealloc
  split_ifs <;> simp

theorem provide_valid (env : DnEnv) (w : DnWorld) (p1 p2 : Nat) (data : List Byte)
    (hv : (handle_provide_domain_name env w p1 p2 data).g_domain_name_info.valid = true) :
    w.g_domain_name_info.valid = true ∨
    (handle_provide_domain_name env w p1 p2 data).io_log
      = w.io_log ++ [dn_event.payload_freed, dn_event.challenge_rolled,
          dn_event.response APDU_RESPONSE_OK] := by
  unfold handle_provide_domain_name at hv ⊢
  simp only at hv ⊢
  obtain ⟨f1, f2⟩ := handle_first_chunk_frame w data
  split_ifs at hv ⊢ with h1 h2 h3
  · left
    simp only [response_to_domain_name] at hv
    rw [f1] at hv
    exact hv
  · rcases feed_valid env _ data _ hv with h | h
    · left; rw [f1] at h; exact h
    · right; rw [h, f2 h2]
  · left
    simpa [response_to_domain_name] using hv
  · exact feed_valid env w data 0 hv

/-- When `has_domain_name` returns true, and when it returns false. -/
theorem has_domain_name_iff (env : DnEnv) (w : DnWorld) (chain_id : Nat) (addr : List Byte) :
    ((has_domain_name env w chain_id addr).1 = true ↔
      (w.g_domain_name_info.valid = true ∧ env.chain_is_ethereum_compatible chain_id = true ∧
        addr.take 20 = w.g_domain_name_info.addr.take 20)) ∧
    ((has_domain_name env w chain_id addr).1 = false ↔
      ¬ (w.g_domain_name_info.valid = true ∧ env.chain_is_ethereum_compatible chain_id = true ∧
        addr.take 20 = w.g_domain_name_info.addr.take 20)) := by
  unfold has_domain_name
  simp only [ADDRESS_LENGTH]
  by_cases hv : w.g_domain_name_info.valid = true
  · by_cases hc : env.chain_is_ethereum_compatible chain_id = true
    · by_cases ha : addr.take 20 = w.g_domain_name_info.addr.take 20
      · simp [hv, hc, ha]
      · simp [hv, hc, ha]
    · simp [hv, hc]
  · simp [hv]

theorem tlv_dispatch_hash_ctx (env : DnEnv) (w : DnWorld) (param : s_tlv_handler_param)
    (data : s_tlv_data) :
    (tlv_dispatch env w param data).2.2.sig_ctx.hash_ctx = param.sig_ctx.hash_ctx := by
  unfold tlv_dispatch
  split_ifs
  · rfl
  · rfl
  · unfold handle_challenge; split <;> rfl
  · unfold handle_sign_key_id; split
    · rfl
    · split_ifs <;> rfl
  · unfold handle_sign_algo; split <;> rfl
  · rfl
  · unfold handle_domain_name; simp only; split_ifs <;> rfl
  · unfold handle_coin_type; split <;> rfl
  · unfold handle_address; split_ifs <;> rfl
  · rfl

/-- The hash context after the TLV callback on an entry that is a SIGNATURE or
can be DER-encoded. -/
theorem tlv_handler_hash_ctx (env : DnEnv) (w : DnWorld) (param : s_tlv_handler_param)
    (data : s_tlv_data) (h : data.tag = SIGNATURE ∨ der_encodable env data) :
    (tlv_handler env w param data).2.2.sig_ctx.hash_ctx
      = param.sig_ctx.hash_ctx ++ tlv_signed_bytes env data := by
  have hp : hash_payload env data param.sig_ctx.hash_ctx
      = (true, param.sig_ctx.hash_ctx ++ tlv_signed_bytes env data) := by
    unfold hash_payload tlv_signed_bytes
    by_cases hs : data.tag = SIGNATURE
    · simp [hs]
    · rcases h with h | ⟨h1, h2⟩
      · exact absurd h hs
      · simp [hs, h1, h2]
  unfold tlv_handler
  rw [hp]
  simp only [Bool.not_true, Bool.false_eq_true, if_false]
  rw [tlv_dispatch_hash_ctx]

/-- The TLV callback fails on an entry that is no SIGNATURE and cannot be
DER-encoded. -/
theorem tlv_handler_not_encodable (env : DnEnv) (w : DnWorld) (param : s_tlv_handler_param)
    (data : s_tlv_data) (hs : data.tag ≠ SIGNATURE) (h : ¬ der_encodable env data) :
    (tlv_handler env w param data).1 = false := by
  have hp : (hash_payload env data param.sig_ctx.hash_ctx).1 = false := by
    unfold hash_payload
    unfold der_encodable at h
    by_cases h1 : (env.der_encode_value 5 data.tag).length = 0
    · simp [hs, h1]
    · have h2 : (env.der_encode_value 5 data.length).length = 0 := by
        by_contra hc
        exact h ⟨h1, hc⟩
      simp [hs, h1, h2]
  unfold tlv_handler
  simp [hp]

theorem parse_tlv_entries_hash_ctx (env : DnEnv) (entries : List s_tlv_data) :
    ∀ (w : DnWorld) (param : s_tlv_handler_param),
      (parse_tlv_entries env entries w param).1 = true →
      (parse_tlv_entries env entries w param).2.2.sig_ctx.hash_ctx
        = param.sig_ctx.hash_ctx ++ signed_stream env entries := by
  induction entries with
  | nil => intro w param _; simp [parse_tlv_entries, signed_stream]
  | cons e es ih =>
    intro w param hok
    simp only [parse_tlv_entries] at hok ⊢
    by_cases hr : (tlv_handler env w param e).1 = true
    · simp only [hr, Bool.not_true, Bool.false_eq_true, if_false] at hok ⊢
      have henc : e.tag = SIGNATURE ∨ der_encodable env e := by
        by_cases hs : e.tag = SIGNATURE
        · exact Or.inl hs
        · right
          by_contra hc
          rw [tlv_handler_not_encodable env w param e hs hc] at hr
          exact absurd hr (by simp)
      rw [ih _ _ hok, tlv_handler_hash_ctx env w param e henc]
      simp [signed_stream]
    · simp [hr] at hok

theorem is_valid_domain_character_iff (c : Byte) :
    is_valid_domain_character c = true ↔ allowed_character c := by
  unfold is_valid_domain_character isalpha islower isdigit allowed_character
  by_cases h1 : 97 ≤ c.val <;> by_cases h2 : c.val ≤ 122 <;> by_cases h3 : 65 ≤ c.val <;>
    by_cases h4 : c.val ≤ 90 <;> by_cases h5 : 48 ≤ c.val <;> by_cases h6 : c.val ≤ 57 <;>
    simp [h1, h2, h3, h4, h5, h6] <;> omega

theorem strncmp_cons (a : Byte) (s1 s2 : List Byte) (n : Nat) (ha : a ≠ 0) :
    strncmp (a :: s1) s2 (n + 1) = 0 ↔ s2.headD 0 = a ∧ strncmp s1 s2.tail n = 0 := by
  rw [strncmp]
  simp only [List.headD_cons, List.tail_cons]
  by_cases h : a = s2.headD 0
  · rw [if_neg (by simpa using h), if_neg ha]
    constructor
    · intro h1; exact ⟨h.symm, h1⟩
    · intro h1; exact h1.2
  · have hv : a.val ≠ (s2.headD 0).val := fun hc => h (Fin.ext hc)
    have : ¬ s2.headD 0 = a := fun hc => h hc.symm
    rw [if_pos h]
    simp only [this, false_and, iff_false]
    omega

theorem set_take (c : Byte) (name : List Byte) :
    ∀ idx, idx < name.length → (name.set idx c).take (idx + 1) = name.take idx ++ [c] := by
  induction name with
  | nil => intro idx h; simp at h
  | cons x xs ih =>
    intro idx h
    cases idx with
    | zero => simp
    | succ i => simp at h; simp [ih i h]

theorem set_drop (c : Byte) (name : List Byte) :
    ∀ idx k, idx < k → (name.set idx c).drop k = name.drop k := by
  induction name with
  | nil => intro idx k _; simp
  | cons x xs ih =>
    intro idx k h
    cases k with
    | zero => omega
    | succ k =>
      cases idx with
      | zero => simp
      | succ i => simp [ih i k (by omega)]

theorem strncmp_str_eth (s : List Byte) (hs : s.length = 4) :
    strncmp str_eth s 4 = 0 ↔ s = str_eth := by
  match s, hs with
  | [a, b, c, d], _ =>
    unfold str_eth
    rw [strncmp_cons _ _ _ _ (by decide), strncmp_cons _ _ _ _ (by decide),
      strncmp_cons _ _ _ _ (by decide), strncmp_cons _ _ _ _ (by decide)]
    simp [strncmp]

theorem handle_domain_name_loop_ok (cs : List Byte) :
    ∀ (idx : Nat) (name : List Byte),
      (handle_domain_name_loop cs idx name).1 = true ↔ ∀ c ∈ cs, allowed_character c := by
  induction cs with
  | nil => intro idx name; simp [handle_domain_name_loop]
  | cons c cs ih =>
    intro idx name
    rw [handle_domain_name_loop]
    by_cases hc : is_valid_domain_character c = true
    · have ha := (is_valid_domain_character_iff c).1 hc
      simp only [hc, Bool.not_true, Bool.false_eq_true, if_false, ih, List.mem_cons,
        forall_eq_or_imp, ha, true_and]
    · have ha : ¬ allowed_character c := fun h => hc ((is_valid_domain_character_iff c).2 h)
      simp [hc, ha]

theorem handle_domain_name_loop_name (cs : List Byte) :
    ∀ (idx : Nat) (name : List Byte),
      (handle_domain_name_loop cs idx name).1 = true → idx + cs.length ≤ name.length →
      (handle_domain_name_loop cs idx name).2
        = name.take idx ++ cs ++ name.drop (idx + cs.length) := by
  induction cs with
  | nil => intro idx name _ _; simp [handle_domain_name_loop]
  | cons c cs ih =>
    intro idx name hok hlen
    rw [handle_domain_name_loop] at hok ⊢
    by_cases hc : is_valid_domain_character c = true
    · simp only [hc, Bool.not_true, Bool.false_eq_true, if_false] at hok ⊢
      simp only [List.length_cons] at hlen
      rw [ih _ _ hok (by rw [List.length_set]; omega), set_take c name idx (by omega),
        set_drop c name idx _ (by omega)]
      have h3 : idx + 1 + cs.length = idx + (c :: cs).length := by
        simp only [List.length_cons]; omega
      rw [h3]
      simp
    · simp [hc] at hok

theorem set_at_length (a : List Byte) (x c : Byte) (r : List Byte) :
    (a ++ x :: r).set a.length c = a ++ c :: r := by
  induction a with
  | nil => simp
  | cons y ys ih => simp [ih]

theorem drop_cons_of_lt (l : List Byte) (n : Nat) (h : n < l.length) :
    ∃ x, l.drop n = x :: l.drop (n + 1) := ⟨l[n], List.drop_eq_getElem_cons h⟩

/-- When `handle_domain_name` accepts. -/
theorem handle_domain_name_ok (env : DnEnv) (w : DnWorld) (data : s_tlv_data)
    (param : s_tlv_handler_param) :
    (handle_domain_name env w data param).1 = true ↔
      5 ≤ data.length ∧ data.length ≤ env.DOMAIN_NAME_MAX_LENGTH ∧
        data.value.drop (data.length - 4) = str_eth ∧
        ∀ c ∈ data.value, allowed_character c := by
  unfold handle_domain_name
  by_cases h1 : data.length > env.DOMAIN_NAME_MAX_LENGTH
  · rw [if_pos h1]
    constructor
    · intro h; simp at h
    · intro h; omega
  · rw [if_neg h1]
    by_cases h2 : data.length < 5
    · simp only [h2, decide_True, Bool.true_or, if_true]
      constructor
      · intro h; simp at h
      · intro h; omega
    · have hl : (data.value.drop (data.length - 4)).length = 4 := by
        simp only [List.length_drop, s_tlv_data.length] at h2 ⊢
        omega
      have hs := strncmp_str_eth _ hl
      by_cases h3 : data.value.drop (data.length - 4) = str_eth
      · have h4 := hs.2 h3
        have hloop := handle_domain_name_loop_ok data.value 0 w.g_domain_name
        simp only [h2, decide_False, Bool.false_or, h4, ne_eq, not_true_eq_false,
          if_false]
        by_cases h5 : (handle_domain_name_loop data.value 0 w.g_domain_name).1 = true
        · simp only [h5, Bool.not_true, Bool.false_eq_true, if_false, true_iff]
          exact ⟨by omega, by omega, h3, hloop.1 h5⟩
        · have h6 : (handle_domain_name_loop data.value 0 w.g_domain_name).1 = false := by
            simpa using h5
          simp only [h6, Bool.not_false, if_true, if_false, Bool.false_eq_true, false_iff]
          intro hc
          exact h5 (hloop.2 hc.2.2.2)
      · have h4 : strncmp str_eth (data.value.drop (data.length - 4)) 4 ≠ 0 :=
          fun hc => h3 (hs.1 hc)
        simp only [h2, decide_False, Bool.false_or, ne_eq, h4, not_false_eq_true,
          decide_True, if_true]
        constructor
        · intro h; simp at h
        · intro h; exact absurd h.2.2.1 h3

/-- The name buffer after `handle_domain_name` accepted. -/
theorem handle_domain_name_stored (env : DnEnv) (w : DnWorld) (data : s_tlv_data)
    (param : s_tlv_handler_param) (hok : (handle_domain_name env w data param).1 = true)
    (hbuf : w.g_domain_name.length = env.DOMAIN_NAME_MAX_LENGTH + 1) :
    (handle_domain_name env w data param).2.1.g_domain_name
      = data.value ++ [0] ++ w.g_domain_name.drop (data.length + 1) := by
  have h := (handle_domain_name_ok env w data param).1 hok
  obtain ⟨h5, hmax, heth, hall⟩ := h
  have hloop := (handle_domain_name_loop_ok data.value 0 w.g_domain_name).2 hall
  have hname := handle_domain_name_loop_name data.value 0 w.g_domain_name hloop
    (by simp only [s_tlv_data.length] at hmax; omega)
  have h4 : strncmp str_eth (data.value.drop (data.length - 4)) 4 = 0 :=
    (strncmp_str_eth _ (by
      simp only [List.length_drop, s_tlv_data.length] at h5 ⊢
      omega)).2 heth
  unfold handle_domain_name
  rw [if_neg (by omega)]
  have h2 : ¬ data.length < 5 := by omega
  simp only [h2, decide_False, Bool.false_or, h4, ne_eq, not_true_eq_false, if_false,
    hloop, Bool.not_true, Bool.false_eq_true, hname]
  simp only [List.take_zero, List.nil_append, Nat.zero_add]
  have hd : data.length = data.value.length := rfl
  have hlt : data.value.length < w.g_domain_name.length := by
    rw [hbuf, ← hd]; omega
  obtain ⟨x, hx⟩ := drop_cons_of_lt w.g_domain_name data.value.length hlt
  rw [hd, hx, set_at_length]
  simp

theorem all_received_invariant (env : DnEnv) (w : DnWorld) (b : Bool) :
    payload_invariant (response_to_domain_name b (handle_all_received env w).2) := by
  obtain ⟨_, e2, e3, e4, _⟩ := handle_all_received_effect env w
  simp [payload_invariant, response_to_domain_name, e2, e3, e4]

theorem feed_invariant (env : DnEnv) (w : DnWorld) (data : List Byte) (offset : Nat) :
    payload_invariant (handle_provide_domain_name_feed env w data offset) := by
  unfold handle_provide_domain_name_feed
  simp only
  split_ifs with h1 h2 h3
  · simp [payload_invariant, response_to_domain_name, free_payload, mem_dealloc]
  · exact all_received_invariant env _ false
  · exact all_received_invariant env _ true
  · simp only [payload_invariant, response_to_domain_name]
    refine ⟨?_, by simp⟩
    have := Nat.mod_mod_of_dvd (w.g_payload_size + size_t_sub data.length offset)
      (show 2 ^ 16 ∣ 2 ^ 32 by norm_num)
    have h5 := Nat.mod_le ((w.g_payload_size + size_t_sub data.length offset) % 2 ^ 32) (2 ^ 16)
    omega

theorem first_chunk_invariant (w : DnWorld) (data : List Byte) (h : payload_invariant w) :
    payload_invariant (handle_first_chunk w data).2 := by
  unfold payload_invariant at h ⊢
  unfold handle_first_chunk alloc_payload mem_alloc free_payload mem_dealloc
  by_cases hp : w.g_payload = none
  · obtain ⟨h1, h2⟩ := h.2 hp
    simp only [hp, ne_eq, not_true_eq_false, if_false]
    split_ifs <;> simp [h1, h2, hp]
  · simp [hp]

theorem provide_invariant (env : DnEnv) (w : DnWorld) (p1 p2 : Nat) (data : List Byte)
    (h : payload_invariant w) :
    payload_invariant (handle_provide_domain_name env w p1 p2 data) := by
  unfold handle_provide_domain_name
  simp only
  split_ifs with h1 h2 h3
  · have := first_chunk_invariant w data h
    simpa [payload_invariant, response_to_domain_name] using this
  · exact feed_invariant env _ data _
  · simpa [payload_invariant, response_to_domain_name] using h
  · exact feed_invariant env w data 0

theorem run_commands_invariant (env : DnEnv) (cmds : List dn_command) :
    ∀ w : DnWorld, payload_invariant w → payload_invariant (run_commands env w cmds) := by
  induction cmds with
  | nil => intro w h; exact h
  | cons c cs ih =>
    intro w h
    simp only [run_commands, List.foldl_cons]
    exact ih _ (provide_invariant env w c.p1 c.p2 c.data h)

/-- A chunk that would take the byte count beyond the expected size. -/
theorem feed_overflow (env : DnEnv) (w : DnWorld) (data : List Byte) (offset : Nat)
    (hlen : data.length ≤ UINT8_MAX) (hoff : offset ≤ data.length)
    (hsize : w.g_payload_size < 2 ^ 16)
    (hover : w.g_payload_size + (data.length - offset) > w.g_payload_expected_size) :
    handle_provide_domain_name_feed env w data offset
      = { w with
          g_payload := none
          g_payload_size := 0
          g_payload_expected_size := 0
          apdu_response_code := APDU_RESPONSE_INVALID_DATA
          mem_used := w.mem_used - w.g_payload_expected_size
          io_log := w.io_log ++ [dn_event.payload_freed,
            dn_event.response APDU_RESPONSE_INVALID_DATA] } := by
  have hn : size_t_sub data.length offset = data.length - offset := by
    unfold size_t_sub
    unfold UINT8_MAX at hlen
    omega
  unfold handle_provide_domain_name_feed
  rw [hn]
  unfold UINT8_MAX at hlen
  rw [if_pos (by omega)]
  simp [response_to_domain_name, free_payload, mem_dealloc]

theorem first_chunk_offset (w : DnWorld) (data : List Byte) :
    (handle_first_chunk w data).1 ≤ data.length := by
  unfold handle_first_chunk
  simp only
  split_ifs <;> omega

end DomainName

/-! ### Lemmas on cmd_signMessage712.c and cmd_signTx.c -/

theorem lor_land_self (a b : Nat) : (a ||| b) &&& b = b := by
  apply Nat.eq_of_testBit_eq
  intro i
  simp only [Nat.testBit_and, Nat.testBit_or]
  cases a.testBit i <;> cases b.testBit i <;> rfl

/-- The handler `handleSignEIP712Message_v0` when `p1` is 0, by the outcome
of `parseBip32`. -/
theorem handleSignEIP712Message_v0_unfold (env : AppEnv) (w : AppWorld)
    (workBuffer : List Byte) (flags : Nat) :
    handleSignEIP712Message_v0 env w 0 workBuffer flags
      = match (env.parseBip32 workBuffer (entry_world env w).bip32).1 with
        | none =>
          (APDU_RESPONSE_INVALID_DATA,
            { entry_world env w with
              bip32 := (env.parseBip32 workBuffer (entry_world env w).bip32).2 }, flags)
        | some rest =>
          if rest.length < 64 then
            (APDU_RESPONSE_INVALID_DATA,
              { entry_world env w with
                bip32 := (env.parseBip32 workBuffer (entry_world env w).bip32).2 }, flags)
          else
            (APDU_RESPONSE_OK,
              { entry_world env w with
                bip32 := (env.parseBip32 workBuffer (entry_world env w).bip32).2
                domainHash := rest.take 32
                messageHash := (rest.drop 32).take 32
                calls := (entry_world env w).calls ++ [app_event.ui_sign_712_v0] },
              flags ||| env.IO_ASYNCH_REPLY) := by
  unfold handleSignEIP712Message_v0
  simp only [ne_eq, not_true_eq_false, if_false]
  rw [show (if ¬ w.appState = APP_STATE_IDLE then
      call app_event.reset_app_context env.reset_app_context w else w) = entry_world env w
    from rfl]
  cases h : (env.parseBip32 workBuffer (entry_world env w).bip32).1 with
  | none => rfl
  | some rest =>
    simp only [KECCAK256_HASH_BYTESIZE, call, id]

/-- A continuation chunk goes straight to the checks after the first-chunk
block. -/
theorem handleSign_more (env : AppEnv) (w : AppWorld) (p1 p2 : Nat) (workBuffer : List Byte)
    (flags : Nat) (hpin : env.os_global_pin_is_validated = true) (h1 : p1 ≠ env.P1_FIRST)
    (h2 : p1 = env.P1_MORE) :
    handleSign env w p1 p2 workBuffer flags
      = some (handleSign_process env w p1 p2 workBuffer flags) := by
  subst h2
  unfold handleSign
  simp [hpin, h1]

/-- The first-chunk block, by the outcome of `parseBip32`. -/
theorem handleSign_first_unfold (env : AppEnv) (w : AppWorld) (workBuffer : List Byte) :
    handleSign_first env w workBuffer
      = match (env.parseBip32 workBuffer (entry_world env w).bip32).1 with
        | none =>
          first_chunk_outcome.returned APDU_RESPONSE_INVALID_DATA
            { entry_world env w with
              appState := APP_STATE_SIGNING_TX
              bip32 := (env.parseBip32 workBuffer (entry_world env w).bip32).2 }
        | some rest =>
          match rest with
          | [] =>
            first_chunk_outcome.returned APDU_RESPONSE_INVALID_DATA
              (call app_event.initTx env.initTx
                { entry_world env w with
                  appState := APP_STATE_SIGNING_TX
                  bip32 := (env.parseBip32 workBuffer (entry_world env w).bip32).2
                  dataPresent := false
                  pluginStatus := env.ETH_PLUGIN_RESULT_UNAVAILABLE })
          | txType :: more =>
            if txType.val ≥ env.MIN_TX_TYPE ∧ txType.val ≤ env.MAX_TX_TYPE then
              if txType.val = env.EIP2930 ∨ txType.val = env.EIP1559 then
                if env.cx_hash_no_throw then
                  first_chunk_outcome.proceed
                    { call (app_event.cx_hash [txType])
                        (fun v => { v with global_sha3 := v.global_sha3 ++ [txType] })
                        (call app_event.initTx env.initTx
                          { entry_world env w with
                            appState := APP_STATE_SIGNING_TX
                            bip32 := (env.parseBip32 workBuffer (entry_world env w).bip32).2
                            dataPresent := false
                            pluginStatus := env.ETH_PLUGIN_RESULT_UNAVAILABLE }) with
                      txContext :=
                        { (call (app_event.cx_hash [txType])
                            (fun v => { v with global_sha3 := v.global_sha3 ++ [txType] })
                            (call app_event.initTx env.initTx
                              { entry_world env w with
                                appState := APP_STATE_SIGNING_TX
                                bip32 := (env.parseBip32 workBuffer (entry_world env w).bip32).2
                                dataPresent := false
                                pluginStatus := env.ETH_PLUGIN_RESULT_UNAVAILABLE })).txContext with
                          txType := txType.val } } more
                else
                  first_chunk_outcome.assert_failed
                    (call app_event.initTx env.initTx
                      { entry_world env w with
                        appState := APP_STATE_SIGNING_TX
                        bip32 := (env.parseBip32 workBuffer (entry_world env w).bip32).2
                        dataPresent := false
                        pluginStatus := env.ETH_PLUGIN_RESULT_UNAVAILABLE })
              else
                first_chunk_outcome.returned APDU_RESPONSE_TX_TYPE_NOT_SUPPORTED
                  (call app_event.initTx env.initTx
                    { entry_world env w with
                      appState := APP_STATE_SIGNING_TX
                      bip32 := (env.parseBip32 workBuffer (entry_world env w).bip32).2
                      dataPresent := false
                      pluginStatus := env.ETH_PLUGIN_RESULT_UNAVAILABLE })
            else
              first_chunk_outcome.proceed
                { call app_event.initTx env.initTx
                    { entry_world env w with
                      appState := APP_STATE_SIGNING_TX
                      bip32 := (env.parseBip32 workBuffer (entry_world env w).bip32).2
                      dataPresent := false
                      pluginStatus := env.ETH_PLUGIN_RESULT_UNAVAILABLE } with
                  txContext :=
                    { (call app_event.initTx env.initTx
                        { entry_world env w with
                          appState := APP_STATE_SIGNING_TX
                          bip32 := (env.parseBip32 workBuffer (entry_world env w).bip32).2
                          dataPresent := false
                          pluginStatus := env.ETH_PLUGIN_RESULT_UNAVAILABLE }).txContext with
                      txType := env.LEGACY } } rest := by
  rfl

/-! ## The claims -/

/-- C1 (counterexample): the string "Bob" is split correctly into three
chunks, (a) with the arena full, where the last call returns
InsufficientMemory, (b) with a review UI that refuses the field, where the
first call returns its status; and (c) a `bytes` field named chainId under the
root EIP712Domain, where every call returns Ok but the final engine state
depends on the split. -/
theorem C1_fragmentation_fails :
    correctly_chunked [66, 111, 98] [[0, 3, 66], [111], [98]] ∧
    IS_DYN field_name.type = true ∧
    (field_hash_chunks sampleEnv (session field_name ROOT_MESSAGE 0)
        [[0, 3, 66], [111], [98]]).1
      = [APDU_RESPONSE_OK, APDU_RESPONSE_OK, APDU_RESPONSE_INSUFFICIENT_MEMORY] ∧
    ((field_hash_chunks refusingEnv (session field_name ROOT_MESSAGE 64)
        [[0, 3, 66], [111], [98]]).1).head?
      = some APDU_RESPONSE_CONDITION_NOT_SATISFIED ∧
    correctly_chunked [1, 2] [[0, 2, 1], [2]] ∧
    IS_DYN field_chainId_bytes.type = true ∧
    (field_hash_chunks sampleEnv (session field_chainId_bytes ROOT_DOMAIN 64)
        [[0, 2, 1], [2]]).1 = [APDU_RESPONSE_OK, APDU_RESPONSE_OK] ∧
    (field_hash sampleEnv (session field_chainId_bytes ROOT_DOMAIN 64) [0, 2, 1, 2] false).1
      = APDU_RESPONSE_OK ∧
    engine (field_hash_chunks sampleEnv (session field_chainId_bytes ROOT_DOMAIN 64)
        [[0, 2, 1], [2]]).2
      ≠ engine (field_hash sampleEnv (session field_chainId_bytes ROOT_DOMAIN 64)
        [0, 2, 1, 2] false).2 := by
  refine ⟨by decide, by decide, by decide, by decide, by decide, by decide, by decide,
    by decide, ?_⟩
  intro h
  exact absurd (congrArg World.chain_id h) (by decide)

/-- C1 (amended): for a dynamic field value `v` of at most 65535 bytes and
every correct split of "2-byte length, then `v`", started in phase Idle,
provided the content hash can be initialised and finalized (into `d`), the
review UI accepts the first chunk, the arena has 32 bytes free and the field
triggers no domain capture: every call returns Ok, the content hash has
absorbed exactly `v`, the word handed to the parent feed is the 32 bytes of
`d` (absorbed by the hash context of the enclosing struct when that context
is the last block of the arena, given to the region below the word
otherwise), and the final engine state is the one reached when the stream is
delivered as a single chunk that the UI accepts. -/
theorem C1_fragmentation_invariance (env : Env) (w : World) (h : s_field_hashing) (f : Field)
    (v : List Byte) (chunks : List (List Byte)) (d : Word)
    (hfh : w.fh = some h) (hidle : h.state = FHS_IDLE) (hf : path_get_field w = some f)
    (hdyn : IS_DYN f.type = true) (hv : v.length ≤ 65535)
    (hsplit : correctly_chunked v chunks)
    (hk : env.cx_keccak_init_no_throw 256 = true)
    (hu : env.ui_712_new_field f ((chunks.headD []).drop 2) = APDU_RESPONSE_OK)
    (hmem : w.mem_used + 32 ≤ w.mem_size)
    (hd : env.cx_hash_no_throw v = some d)
    (hdom : domain_neutral w f) :
    (field_hash_chunks env w chunks).1 = List.replicate chunks.length APDU_RESPONSE_OK ∧
    (field_hash_chunks env w chunks).2.global_sha3 = v ∧
    (field_hash_chunks env w chunks).2.parent_hash
      = (if w.mem_used = w.hash_ctx_end then w.parent_hash ++ d.val else w.parent_hash) ∧
    (field_hash_chunks env w chunks).2.stray_hash
      = (if w.mem_used = w.hash_ctx_end then w.stray_hash else w.stray_hash ++ [d.val]) ∧
    d.val.length = 32 ∧
    (env.ui_712_new_field f v = APDU_RESPONSE_OK →
      (field_hash env w (length_header v.length ++ v) false).1 = APDU_RESPONSE_OK ∧
      engine (field_hash_chunks env w chunks).2
        = engine (field_hash env w (length_header v.length ++ v) false).2) := by
  have hres := fragmentation_result env w h f v chunks d hfh hidle hf hdyn hv hsplit hk hu
    hmem hd hdom
  refine ⟨by rw [hres], by rw [hres], by rw [hres]; rfl, by rw [hres]; rfl, d.property, ?_⟩
  intro hu1
  have hone := fragmentation_result env w h f v [length_header v.length ++ v] d hfh hidle hf
    hdyn hv (single_chunk_correct v) hk (by simpa [length_header] using hu1) hmem hd hdom
  simp only [field_hash_chunks, Prod.mk.injEq] at hone
  obtain ⟨h1, h2⟩ := hone
  refine ⟨by simpa using h1, ?_⟩
  rw [h2, hres]
  simp [engine]

/-- C1 (amended), on the string "Bob" in three chunks. -/
theorem C1_fragmentation_invariance_witness :
    (field_hash_chunks sampleEnv (session field_name ROOT_MESSAGE 64)
        [[0, 3, 66], [111], [98]]).1
      = [APDU_RESPONSE_OK, APDU_RESPONSE_OK, APDU_RESPONSE_OK] ∧
    (field_hash_chunks sampleEnv (session field_name ROOT_MESSAGE 64)
        [[0, 3, 66], [111], [98]]).2.global_sha3 = [66, 111, 98] :=
  ⟨(C1_fragmentation_invariance sampleEnv (session field_name ROOT_MESSAGE 64)
      { remaining_size := 0, state := FHS_IDLE } field_name [66, 111, 98]
      [[0, 3, 66], [111], [98]] (word_of 3) rfl rfl rfl rfl (by decide) (by decide) rfl rfl
      (by decide) rfl (Or.inl (by decide))).1,
    (C1_fragmentation_invariance sampleEnv (session field_name ROOT_MESSAGE 64)
      { remaining_size := 0, state := FHS_IDLE } field_name [66, 111, 98]
      [[0, 3, 66], [111], [98]] (word_of 3) rfl rfl rfl rfl (by decide) (by decide) rfl rfl
      (by decide) rfl (Or.inl (by decide))).2.1⟩

/-- C2 (code evaluated at the failing input): a static `uint8` field, in phase
Idle, receives the single complete chunk `00 01 05` with the partial flag
unset; the encoder and the review UI would both accept the value. `field_hash`
answers Unknown, feeds nothing into the parent hash, does not advance the path
and stays in AwaitingMore. -/
theorem C2_static_single_chunk_unknown :
    IS_DYN field_age.type = false ∧
    sampleEnv.encode_uint [5] = some (word_of 5) ∧
    sampleEnv.ui_712_new_field field_age [5] = APDU_RESPONSE_OK ∧
    field_hash sampleEnv (session field_age ROOT_MESSAGE 64) [0, 1, 5] false
      = (APDU_RESPONSE_UNKNOWN,
          { session field_age ROOT_MESSAGE 64 with
            fh := some { remaining_size := 1, state := FHS_WAITING_FOR_MORE } }) := by
  decide

/-- C3 (counterexample): the last byte of the string "Bob" arrives in a
non-partial chunk that brings `remaining_bytes` to zero, with 64 bytes free
in the arena and the root EIP712Message. (a) The SDK fails to finalize the
content hash: `field_hash` returns InsufficientMemory, keeps the 32 bytes it
allocated, does not advance the path and stays in AwaitingMore. (b) A block
of 32 bytes lies between the hash context of the enclosing struct and the
digest: `field_hash` returns Ok, and that hash context has absorbed
nothing. -/
theorem C3_completion_not_fed :
    IS_DYN field_name.type = true ∧
    (awaiting field_name ROOT_MESSAGE 64 1).root_type ≠ ROOT_DOMAIN ∧
    (awaiting field_name ROOT_MESSAGE 64 1).mem_used + 32
      ≤ (awaiting field_name ROOT_MESSAGE 64 1).mem_size ∧
    field_hash hashFailEnv (awaiting field_name ROOT_MESSAGE 64 1) [98] false
      = (APDU_RESPONSE_INSUFFICIENT_MEMORY,
          { awaiting field_name ROOT_MESSAGE 64 1 with
            fh := some { remaining_size := 0, state := FHS_WAITING_FOR_MORE }
            global_sha3 := [98]
            mem_used := 132 }) ∧
    ({ awaiting field_name ROOT_MESSAGE 64 1 with mem_used := 132 } : World).mem_used + 32
      ≤ (awaiting field_name ROOT_MESSAGE 64 1).mem_size ∧
    field_hash sampleEnv { awaiting field_name ROOT_MESSAGE 64 1 with mem_used := 132 }
        [98] false
      = (APDU_RESPONSE_OK,
          { awaiting field_name ROOT_MESSAGE 64 1 with
            fh := some { remaining_size := 0, state := FHS_IDLE }
            global_sha3 := [98]
            parent_hash := []
            stray_hash := [(word_of 1).val]
            mem_used := 132
            path_fields := []
            ui_log := [ui_event.finalize_field] }) := by
  decide

/-- C3 (amended): a non-partial chunk that brings `remaining_bytes` to zero
for a dynamic field, with 32 bytes free in the arena, a root other than
EIP712Domain, the hash context of the enclosing struct as the last block of
the arena and an SDK that finalizes the content hash (into the digest `d` of
32 bytes), makes `field_hash` return Ok: `d` is what the parent hash context
is fed, the arena usage is as before, the path is advanced once and the
phase is Idle. This is stated for a chunk in phase AwaitingMore, for a first
chunk (phase Idle) that the content hash initialisation and the review UI
accept, and for the finalization steps, where the 32 bytes are allocated and
released. -/
theorem C3_dynamic_completion (env : Env) (w : World) (h : s_field_hashing) (f : Field)
    (data : List Byte) (d : Word)
    (hfh : w.fh = some h) (hf : path_get_field w = some f) (hdyn : IS_DYN f.type = true)
    (hroot : w.root_type ≠ ROOT_DOMAIN) (hmem : w.mem_used + 32 ≤ w.mem_size)
    (hctx : w.mem_used = w.hash_ctx_end) :
    (h.state = FHS_WAITING_FOR_MORE → data.length = h.remaining_size →
      env.cx_hash_no_throw (w.global_sha3 ++ data) = some d →
      field_hash env w data false =
        (APDU_RESPONSE_OK,
          { w with
            fh := some { remaining_size := 0, state := FHS_IDLE }
            global_sha3 := w.global_sha3 ++ data
            parent_hash := w.parent_hash ++ d.val
            path_fields := w.path_fields.tail
            ui_log := w.ui_log ++ [ui_event.finalize_field] })) ∧
    (h.state = FHS_IDLE → ∀ (b0 b1 : Byte) (rest : List Byte), data = b0 :: b1 :: rest →
      rest.length = 256 * b0.val + b1.val →
      env.cx_keccak_init_no_throw 256 = true →
      env.ui_712_new_field f rest = APDU_RESPONSE_OK →
      env.cx_hash_no_throw rest = some d →
      field_hash env w data false =
        (APDU_RESPONSE_OK,
          { w with
            fh := some { remaining_size := 0, state := FHS_IDLE }
            global_sha3 := rest
            parent_hash := w.parent_hash ++ d.val
            path_fields := w.path_fields.tail
            ui_log := w.ui_log ++ [ui_event.new_field f rest, ui_event.finalize_field] })) ∧
    (env.cx_hash_no_throw w.global_sha3 = some d →
      field_hash_finalize_dynamic env w = (some d, { w with mem_used := w.mem_used + 32 }) ∧
      field_hash_feed_parent f.type d { w with mem_used := w.mem_used + 32 }
        = { w with parent_hash := w.parent_hash ++ d.val } ∧
      field_hash_finalize env w f data =
        (APDU_RESPONSE_OK,
          { w with
            fh := some { h with state := FHS_IDLE }
            parent_hash := w.parent_hash ++ d.val
            path_fields := w.path_fields.tail
            ui_log := w.ui_log ++ [ui_event.finalize_field] }) ∧
      (field_hash_finalize env w f data).2.mem_used = w.mem_used) ∧
    d.val.length = 32 := by
  have hp : parent_fed w d.val = w.parent_hash ++ d.val := by simp [parent_fed, hctx]
  have hs : stray_fed w d.val = w.stray_hash := by simp [stray_fed, hctx]
  refine ⟨?_, ?_, ?_, d.property⟩
  · intro hwait hlen hd
    rw [field_hash_waiting env w h f data false hfh hf hwait,
      consume_last_ok env w h f data d hdyn hlen hmem hd (Or.inl hroot), hp, hs]
  · intro hidle b0 b1 rest hdata hlen hk hu hd
    subst hdata
    rw [idle_dyn_accepted env w h f b0 b1 rest false hfh hf hidle hdyn hk hu,
      consume_last_ok env _ _ f rest d hdyn (by simpa using hlen)
        (by simpa [after_prepare] using hmem) (by simpa [after_prepare] using hd)
        (Or.inl (by simpa [after_prepare] using hroot))]
    simp [after_prepare, parent_fed, stray_fed, hctx]
  · intro hd
    refine ⟨?_, ?_, ?_, ?_⟩
    · unfold field_hash_finalize_dynamic
      simp [mem_alloc, KECCAK256_HASH_BYTESIZE, hmem, hd]
    · rw [feed_parent_eq]
      simp [hctx]
    · rw [finalize_dynamic_ok env w f data d hdyn hmem hd (Or.inl hroot), hfh, hp, hs]
      simp
    · rw [finalize_dynamic_ok env w f data d hdyn hmem hd (Or.inl hroot)]

/-- C3 (amended), on the last byte of the string "Bob". -/
theorem C3_dynamic_completion_witness :
    field_hash sampleEnv
        { session field_name ROOT_MESSAGE 64 with
          fh := some { remaining_size := 1, state := FHS_WAITING_FOR_MORE }
          global_sha3 := [66, 111] }
        [98] false
      = (APDU_RESPONSE_OK,
          { session field_name ROOT_MESSAGE 64 with
            fh := some { remaining_size := 0, state := FHS_IDLE }
            global_sha3 := [66, 111, 98]
            parent_hash := (word_of 3).val
            path_fields := []
            ui_log := [ui_event.finalize_field] }) :=
  (C3_dynamic_completion sampleEnv
    { session field_name ROOT_MESSAGE 64 with
      fh := some { remaining_size := 1, state := FHS_WAITING_FOR_MORE }
      global_sha3 := [66, 111] }
    { remaining_size := 1, state := FHS_WAITING_FOR_MORE } field_name [98] (word_of 3)
    rfl rfl rfl (by decide) (by decide) rfl).1 rfl rfl rfl

/-- C4 (counterexample): the first chunk of a dynamic field completes the
value and carries the partial flag; the review UI refuses the field, and
`field_hash` returns the UI's status, ConditionNotSatisfied, not InvalidData. -/
theorem C4_partial_on_complete_not_invalid_data :
    (chunk_value { remaining_size := 0, state := FHS_IDLE } [0, 1, 66]).length
      = chunk_expected { remaining_size := 0, state := FHS_IDLE } [0, 1, 66] ∧
    (field_hash refusingEnv (session field_name ROOT_MESSAGE 64) [0, 1, 66] true).1
      = APDU_RESPONSE_CONDITION_NOT_SATISFIED := by
  decide

/-- C4 (amended): `field_hash` returns Ok only if the chunk brings
`remaining_bytes` to zero with the partial flag unset, or leaves it above zero
with the partial flag set on a dynamic field; and a chunk that gets as far as
the partial-flag check is rejected with InvalidData when it completes the
value with the flag set, when it does not complete it with the flag unset, and
when it does not complete the value of a static field. -/
theorem C4_partial_flag_rule (env : Env) (w : World) (h : s_field_hashing) (f : Field)
    (data : List Byte) (part_flag : Bool)
    (hfh : w.fh = some h) (hf : path_get_field w = some f) :
    ((field_hash env w data part_flag).1 = APDU_RESPONSE_OK →
      (((chunk_value h data).length = chunk_expected h data ∧ part_flag = false) ∨
        ((chunk_value h data).length < chunk_expected h data ∧ part_flag = true ∧
          IS_DYN f.type = true)) ∧
      ∃ h1, (field_hash env w data part_flag).2.fh = some h1 ∧
        h1.remaining_size = chunk_expected h data - (chunk_value h data).length) ∧
    (reaches_check env h f data →
      (((chunk_value h data).length = chunk_expected h data ∧ part_flag = true) ∨
        ((chunk_value h data).length < chunk_expected h data ∧ part_flag = false) ∨
        ((chunk_value h data).length < chunk_expected h data ∧ IS_DYN f.type = false)) →
      (field_hash env w data part_flag).1 = APDU_RESPONSE_INVALID_DATA) := by
  rcases state_cases h with hidle | hwait
  · simp only [chunk_expected, chunk_value, hidle, if_true]
    match data with
    | [] =>
      rw [field_hash_idle_short env w h f [] part_flag hfh hf hidle (by simp)]
      simp
    | [b] =>
      rw [field_hash_idle_short env w h f [b] part_flag hfh hf hidle (by simp)]
      simp
    | b0 :: b1 :: rest =>
      simp only [bswap16_head, List.drop_succ_cons, List.drop_zero]
      rcases idle_first_chunk env w h f b0 b1 rest part_flag hfh hf hidle with
        ⟨hc, he⟩ | ⟨hd, hk, hu, he⟩ | ⟨hd, hk, hu, he⟩
      · rw [he]
        refine ⟨by simp, ?_⟩
        intro hr
        obtain ⟨r1, r2, -⟩ := hr hidle
        rcases hc with hc | hc
        · rw [hc] at r1; exact absurd r1 (by simp)
        · rw [hc] at r2; exact absurd r2 (by simp)
      · rw [he]
        refine ⟨fun hok => absurd hok hu, ?_⟩
        intro hr
        obtain ⟨-, -, r3⟩ := hr hidle
        exact absurd (by simpa using r3) hu
      · rw [he]
        refine ⟨?_, fun _ hv => consume_flag_violation env _ _ f rest part_flag hv⟩
        intro hok
        rcases consume_ok_inv env _ _ f rest part_flag hok with ⟨h1, h2, h3⟩ | ⟨h1, h2, h3, h4⟩
        · exact ⟨Or.inl ⟨h1, h2⟩, _, h3, by simp only at h1 ⊢; omega⟩
        · exact ⟨Or.inr ⟨h1, h2, h3⟩, _, h4, rfl⟩
  · have hne : h.state ≠ FHS_IDLE := by rw [hwait]; simp
    simp only [chunk_expected, chunk_value, hne, if_false]
    rw [field_hash_waiting env w h f data part_flag hfh hf hwait]
    refine ⟨?_, fun _ hv => consume_flag_violation env w h f data part_flag hv⟩
    intro hok
    rcases consume_ok_inv env w h f data part_flag hok with ⟨h1, h2, h3⟩ | ⟨h1, h2, h3, h4⟩
    · exact ⟨Or.inl ⟨h1, h2⟩, _, h3, by simp only at h1 ⊢; omega⟩
    · exact ⟨Or.inr ⟨h1, h2, h3⟩, _, h4, rfl⟩

/-- C4 (amended), on a completing chunk that carries the partial flag. -/
theorem C4_partial_flag_rule_witness :
    (field_hash sampleEnv
        { session field_name ROOT_MESSAGE 64 with
          fh := some { remaining_size := 2, state := FHS_WAITING_FOR_MORE } }
        [66, 111] true).1 = APDU_RESPONSE_INVALID_DATA :=
  (C4_partial_flag_rule sampleEnv
    { session field_name ROOT_MESSAGE 64 with
      fh := some { remaining_size := 2, state := FHS_WAITING_FOR_MORE } }
    { remaining_size := 2, state := FHS_WAITING_FOR_MORE } field_name [66, 111] true
    rfl rfl).2 (fun hi => absurd hi (by decide)) (Or.inl (by decide))

/-- C5: in phase Idle a chunk of fewer than 2 bytes is rejected with
InvalidData and changes nothing; with at least 2 bytes `b0 b1 ...` the first
chunk handler sets the expected length to `256 * b0 + b1` and the phase to
AwaitingMore and hands on the bytes after the header as the value bytes, so
that `field_hash` goes on with exactly those; after the call the remaining
length is the announced one, less the value bytes when they were counted, and
the phase is AwaitingMore unless the field was completed by this very call. -/
theorem C5_length_header (env : Env) (w : World) (h : s_field_hashing) (f : Field)
    (data : List Byte) (part_flag : Bool)
    (hfh : w.fh = some h) (hf : path_get_field w = some f) (hidle : h.state = FHS_IDLE) :
    (data.length < 2 → field_hash env w data part_flag = (APDU_RESPONSE_INVALID_DATA, w)) ∧
    (∀ (b0 b1 : Byte) (rest : List Byte), data = b0 :: b1 :: rest →
      (field_hash_prepare env w f data APDU_RESPONSE_UNKNOWN).2.2.fh
        = some { remaining_size := 256 * b0.val + b1.val, state := FHS_WAITING_FOR_MORE } ∧
      ((field_hash_prepare env w f data APDU_RESPONSE_UNKNOWN).1 = some rest ∨
        ((field_hash_prepare env w f data APDU_RESPONSE_UNKNOWN).1 = none ∧
          (field_hash_prepare env w f data APDU_RESPONSE_UNKNOWN).2.1 ≠ APDU_RESPONSE_OK)) ∧
      field_hash env w data part_flag =
        (if (field_hash_prepare env w f data APDU_RESPONSE_UNKNOWN).2.1 ≠ APDU_RESPONSE_OK then
          ((field_hash_prepare env w f data APDU_RESPONSE_UNKNOWN).2.1,
            (field_hash_prepare env w f data APDU_RESPONSE_UNKNOWN).2.2)
        else field_hash_consume env (field_hash_prepare env w f data APDU_RESPONSE_UNKNOWN).2.2
          { remaining_size := 256 * b0.val + b1.val, state := FHS_WAITING_FOR_MORE }
          f rest part_flag) ∧
      ∃ h1, (field_hash env w data part_flag).2.fh = some h1 ∧
        (h1.remaining_size = 256 * b0.val + b1.val ∨
          h1.remaining_size = 256 * b0.val + b1.val - rest.length) ∧
        (h1.state = FHS_WAITING_FOR_MORE ∨
          ((field_hash env w data part_flag).1 = APDU_RESPONSE_OK ∧ h1.remaining_size = 0))) := by
  refine ⟨fun hlen => field_hash_idle_short env w h f data part_flag hfh hf hidle hlen, ?_⟩
  intro b0 b1 rest hdata
  subst hdata
  refine ⟨?_, ?_, field_hash_idle_unfold env w h f b0 b1 rest part_flag hfh hf hidle, ?_⟩
  · unfold field_hash_prepare
    by_cases hd : IS_DYN f.type = true
    · by_cases hk : env.cx_keccak_init_no_throw 256 = true
      · simp [hd, hk, ui_712_new_field, bswap16_head]
      · simp [hd, hk, bswap16_head]
    · simp [hd, bswap16_head]
  · unfold field_hash_prepare
    by_cases hd : IS_DYN f.type = true
    · by_cases hk : env.cx_keccak_init_no_throw 256 = true
      · simp [hd, hk]
      · simp [hd, hk]
    · simp [hd]
  · rcases idle_first_chunk env w h f b0 b1 rest part_flag hfh hf hidle with
      ⟨-, he⟩ | ⟨-, -, -, he⟩ | ⟨-, -, -, he⟩
    · rw [he]
      exact ⟨_, rfl, Or.inl rfl, Or.inl rfl⟩
    · rw [he]
      exact ⟨_, rfl, Or.inl rfl, Or.inl rfl⟩
    · rw [he]
      by_cases hok : (field_hash_consume env (after_prepare w (256 * b0.val + b1.val) f rest)
          { remaining_size := 256 * b0.val + b1.val, state := FHS_WAITING_FOR_MORE }
          f rest part_flag).1 = APDU_RESPONSE_OK
      · rcases consume_ok_inv env _ _ f rest part_flag hok with ⟨h1, -, h3⟩ | ⟨-, -, -, h3⟩
        · refine ⟨_, h3, Or.inr ?_, Or.inr ⟨hok, rfl⟩⟩
          simp only at h1 ⊢
          omega
        · exact ⟨_, h3, Or.inr rfl, Or.inl rfl⟩
      · obtain ⟨⟨h1, e1, e2, e3⟩, -⟩ :=
          consume_err_frame env (after_prepare w (256 * b0.val + b1.val) f rest)
            { remaining_size := 256 * b0.val + b1.val, state := FHS_WAITING_FOR_MORE }
            f rest part_flag rfl hok
        exact ⟨h1, e1, e3, Or.inl e2⟩

/-- C5, on a first chunk of one byte and on the first chunk `00 03 42` of the
string "Bob". -/
theorem C5_length_header_witness :
    field_hash sampleEnv (session field_name ROOT_MESSAGE 64) [0] false
      = (APDU_RESPONSE_INVALID_DATA, session field_name ROOT_MESSAGE 64) ∧
    (field_hash_prepare sampleEnv (session field_name ROOT_MESSAGE 64) field_name [0, 3, 66]
        APDU_RESPONSE_UNKNOWN).2.2.fh
      = some { remaining_size := 3, state := FHS_WAITING_FOR_MORE } :=
  ⟨(C5_length_header sampleEnv (session field_name ROOT_MESSAGE 64)
      { remaining_size := 0, state := FHS_IDLE } field_name [0] false rfl rfl rfl).1
      (by decide),
    ((C5_length_header sampleEnv (session field_name ROOT_MESSAGE 64)
      { remaining_size := 0, state := FHS_IDLE } field_name [0, 3, 66] false rfl rfl rfl).2
      0 3 [66] rfl).1⟩

/-- C6 (counterexample): the first chunk of a dynamic field announces 1 byte
and carries 2; the review UI refuses the field, and `field_hash` returns the
UI's status, ConditionNotSatisfied, not InvalidData. -/
theorem C6_overlong_not_invalid_data :
    chunk_expected { remaining_size := 0, state := FHS_IDLE } [0, 1, 66, 111]
      < (chunk_value { remaining_size := 0, state := FHS_IDLE } [0, 1, 66, 111]).length ∧
    (field_hash refusingEnv (session field_name ROOT_MESSAGE 64) [0, 1, 66, 111] false).1
      = APDU_RESPONSE_CONDITION_NOT_SATISFIED := by
  decide

/-- C6 (amended): a chunk with more value bytes than `remaining_bytes` is
always rejected, none of its bytes reaches the content hash (which is as
before, or freshly initialised and empty) or the parent hash, and the path
is not advanced; the status is InvalidData whenever the chunk gets as far as
the length check. -/
theorem C6_overlong_chunk (env : Env) (w : World) (h : s_field_hashing) (f : Field)
    (data : List Byte) (part_flag : Bool)
    (hfh : w.fh = some h) (hf : path_get_field w = some f)
    (hover : chunk_expected h data < (chunk_value h data).length) :
    (field_hash env w data part_flag).1 ≠ APDU_RESPONSE_OK ∧
    (reaches_check env h f data →
      (field_hash env w data part_flag).1 = APDU_RESPONSE_INVALID_DATA) ∧
    ((field_hash env w data part_flag).2.global_sha3 = w.global_sha3 ∨
      (field_hash env w data part_flag).2.global_sha3 = []) ∧
    (field_hash env w data part_flag).2.parent_hash = w.parent_hash ∧
    (field_hash env w data part_flag).2.path_fields = w.path_fields := by
  rcases state_cases h with hidle | hwait
  · simp only [chunk_expected, chunk_value, hidle, if_true] at hover
    match data, hover with
    | [], hover => simp at hover
    | [_], hover => simp at hover
    | b0 :: b1 :: rest, hover =>
      simp only [bswap16_head, List.drop_succ_cons, List.drop_zero] at hover
      rcases idle_first_chunk env w h f b0 b1 rest part_flag hfh hf hidle with
        ⟨hc, he⟩ | ⟨hd, hk, hu, he⟩ | ⟨hd, hk, hu, he⟩
      · rw [he]
        refine ⟨by simp, ?_, Or.inl rfl, rfl, rfl⟩
        intro hr
        obtain ⟨r1, r2, -⟩ := hr hidle
        rcases hc with hc | hc
        · rw [hc] at r1; exact absurd r1 (by simp)
        · rw [hc] at r2; exact absurd r2 (by simp)
      · rw [he]
        refine ⟨hu, ?_, Or.inr rfl, rfl, rfl⟩
        intro hr
        obtain ⟨-, -, r3⟩ := hr hidle
        exact absurd (by simpa using r3) hu
      · rw [he, consume_overlong env _ _ f rest part_flag (by simpa using hover)]
        exact ⟨by simp, fun _ => rfl, Or.inr rfl, rfl, rfl⟩
  · have hne : h.state ≠ FHS_IDLE := by rw [hwait]; simp
    simp only [chunk_expected, chunk_value, hne, if_false] at hover
    rw [field_hash_waiting env w h f data part_flag hfh hf hwait,
      consume_overlong env w h f data part_flag hover]
    exact ⟨by simp, fun _ => rfl, Or.inl rfl, rfl, rfl⟩

/-- C6 (amended), on a chunk of 2 bytes when 1 byte is pending. -/
theorem C6_overlong_chunk_witness :
    (field_hash sampleEnv
        { session field_name ROOT_MESSAGE 64 with
          fh := some { remaining_size := 1, state := FHS_WAITING_FOR_MORE } }
        [66, 111] false).1 = APDU_RESPONSE_INVALID_DATA :=
  (C6_overlong_chunk sampleEnv
    { session field_name ROOT_MESSAGE 64 with
      fh := some { remaining_size := 1, state := FHS_WAITING_FOR_MORE } }
    { remaining_size := 1, state := FHS_WAITING_FOR_MORE } field_name [66, 111] false
    rfl rfl (by decide)).2.1 (fun hi => absurd hi (by decide))

/-- C7: with no active session (engine not initialised, as after
`field_hash_deinit`, or no current field), `field_hash` returns
ConditionNotSatisfied for every chunk and partial flag and leaves all the
globals, hash contexts included, as they were. -/
theorem C7_no_active_session (env : Env) (w : World) (data : List Byte) (part_flag : Bool) :
    (w.fh = none ∨ path_get_field w = none →
      field_hash env w data part_flag = (APDU_RESPONSE_CONDITION_NOT_SATISFIED, w)) ∧
    field_hash env (field_hash_deinit w) data part_flag
      = (APDU_RESPONSE_CONDITION_NOT_SATISFIED, field_hash_deinit w) := by
  refine ⟨fun h => field_hash_no_session env w data part_flag h, rfl⟩

/-- C7, on a session whose path is exhausted. -/
theorem C7_no_active_session_witness :
    field_hash sampleEnv { session field_name ROOT_MESSAGE 64 with path_fields := [] }
        [0, 1, 66] false
      = (APDU_RESPONSE_CONDITION_NOT_SATISFIED,
          { session field_name ROOT_MESSAGE 64 with path_fields := [] }) :=
  (C7_no_active_session sampleEnv
    { session field_name ROOT_MESSAGE 64 with path_fields := [] } [0, 1, 66] false).1
    (Or.inr rfl)

/-- C8 (code evaluated at the failing input): the first chunk of a 20-byte
address, a static field, makes `field_hash` return Unknown although the review
UI was not consulted and no SDK call failed. -/
theorem C8_unknown_reached :
    (field_hash sampleEnv (session field_wallet ROOT_MESSAGE 64)
        (0 :: 20 :: List.replicate 20 1) false).1 = APDU_RESPONSE_UNKNOWN ∧
    (field_hash sampleEnv (session field_wallet ROOT_MESSAGE 64)
        (0 :: 20 :: List.replicate 20 1) false).2.ui_log = [] := by
  decide

/-- C9 (counterexample): a chunk with one byte too many is rejected with
InvalidData and leaves the engine in AwaitingMore with 3 bytes pending; the
next chunk resumes that field and completes it. -/
theorem C9_error_leaves_awaiting_more :
    (field_hash sampleEnv (session field_name ROOT_MESSAGE 64) [0, 3, 66, 111, 98, 33] false).1
      = APDU_RESPONSE_INVALID_DATA ∧
    (field_hash sampleEnv (session field_name ROOT_MESSAGE 64) [0, 3, 66, 111, 98, 33] false).2.fh
      = some { remaining_size := 3, state := FHS_WAITING_FOR_MORE } ∧
    (field_hash sampleEnv
        (field_hash sampleEnv (session field_name ROOT_MESSAGE 64)
          [0, 3, 66, 111, 98, 33] false).2
        [66, 111, 98] false).1 = APDU_RESPONSE_OK := by
  decide

/-- C9 (amended): `field_hash` does not reset the phase on an error. A call
that returns a status other than Ok leaves the globals unchanged when it fails
before the length header is read (no session, or a first chunk shorter than 2
bytes); after every other error return the phase is AwaitingMore. -/
theorem C9_error_keeps_phase (env : Env) (w : World) (data : List Byte) (part_flag : Bool)
    (herr : (field_hash env w data part_flag).1 ≠ APDU_RESPONSE_OK) :
    (w.fh = none ∨ path_get_field w = none → (field_hash env w data part_flag).2 = w) ∧
    (∀ h f, w.fh = some h → path_get_field w = some f →
      (h.state = FHS_IDLE → data.length < 2 → (field_hash env w data part_flag).2 = w) ∧
      (¬ (h.state = FHS_IDLE ∧ data.length < 2) →
        ∃ h1, (field_hash env w data part_flag).2.fh = some h1 ∧
          h1.state = FHS_WAITING_FOR_MORE)) := by
  refine ⟨fun hn => by rw [field_hash_no_session env w data part_flag hn], ?_⟩
  intro h f hfh hf
  refine ⟨fun hidle hlen => by
    rw [field_hash_idle_short env w h f data part_flag hfh hf hidle hlen], ?_⟩
  intro hnot
  rcases state_cases h with hidle | hwait
  · match data, hnot, herr with
    | [], hnot, _ => exact absurd ⟨hidle, by simp⟩ hnot
    | [_], hnot, _ => exact absurd ⟨hidle, by simp⟩ hnot
    | b0 :: b1 :: rest, _, herr =>
      rcases idle_first_chunk env w h f b0 b1 rest part_flag hfh hf hidle with
        ⟨-, he⟩ | ⟨-, -, -, he⟩ | ⟨-, -, -, he⟩
      · rw [he]; exact ⟨_, rfl, rfl⟩
      · rw [he]; exact ⟨_, rfl, rfl⟩
      · rw [he] at herr ⊢
        obtain ⟨⟨h1, e1, e2, -⟩, -⟩ := consume_err_frame env _ _ f rest part_flag rfl herr
        exact ⟨h1, e1, e2⟩
  · rw [field_hash_waiting env w h f data part_flag hfh hf hwait] at herr ⊢
    obtain ⟨⟨h1, e1, e2, -⟩, -⟩ := consume_err_frame env w h f data part_flag hfh herr
    exact ⟨h1, e1, e2.trans hwait⟩

/-- C9 (amended), on the chunk with one byte too many. -/
theorem C9_error_keeps_phase_witness :
    (field_hash sampleEnv (session field_name ROOT_MESSAGE 64) [0, 3, 66, 111, 98, 33] false).1
      ≠ APDU_RESPONSE_OK ∧
    ∃ h1, (field_hash sampleEnv (session field_name ROOT_MESSAGE 64)
        [0, 3, 66, 111, 98, 33] false).2.fh = some h1 ∧ h1.state = FHS_WAITING_FOR_MORE :=
  ⟨by decide,
    ((C9_error_keeps_phase sampleEnv (session field_name ROOT_MESSAGE 64)
      [0, 3, 66, 111, 98, 33] false (by decide)).2
      { remaining_size := 0, state := FHS_IDLE } field_name rfl rfl).2 (by decide)⟩

/-- C12 (code evaluated at the failing inputs): under the root EIP712Domain,
finalizing the `uint256` field named "chain" with the value `01` succeeds and
sets the captured chain id to 1; finalizing the address field with the empty
name overwrites the captured contract address; and the address field named
"verifying" with a 3-byte value is rejected by the length check meant for
verifyingContract. The same capture happens through `field_hash`. -/
theorem C12_capture_on_key_prefixes :
    field_chain.keyname ≠ some str_chainId ∧
    (field_hash_finalize sampleEnv (awaiting field_chain ROOT_DOMAIN 64 0) field_chain [1])
      = (APDU_RESPONSE_OK,
          { awaiting field_chain ROOT_DOMAIN 64 0 with
            fh := some { remaining_size := 0, state := FHS_IDLE }
            chain_id := 1
            parent_hash := (word_of 1).val
            path_fields := []
            ui_log := [ui_event.new_field field_chain [1], ui_event.finalize_field] }) ∧
    (field_hash_finalize sampleEnv (awaiting field_unnamed ROOT_DOMAIN 64 0) field_unnamed
        (List.replicate 20 7)).2.contract_addr = List.replicate 20 7 ∧
    (field_hash_domain_special_fields (awaiting field_verifying ROOT_DOMAIN 64 0)
        field_verifying [1, 2, 3]).1 = APDU_RESPONSE_INVALID_DATA ∧
    (field_hash sampleEnv (awaiting field_chain ROOT_DOMAIN 64 1) [1] false).1
      = APDU_RESPONSE_OK ∧
    (field_hash sampleEnv (awaiting field_chain ROOT_DOMAIN 64 1) [1] false).2.chain_id = 1 := by
  decide

/-- C13: for a non-dynamic field whose type is none of signed integer, unsigned
integer, fixed bytes, address and boolean, whatever the value, static
finalization yields no word and field finalization returns InvalidData with
all the globals untouched: the review UI is not told, the parent hash is fed
nothing and the path is not advanced. So does `field_hash` for the chunk that
completes such a field. -/
theorem C13_unsupported_type (env : Env) (w : World) (f : Field) (data : List Byte)
    (hs : IS_DYN f.type = false)
    (h1 : f.type ≠ TYPE_SOL_INT) (h2 : f.type ≠ TYPE_SOL_UINT)
    (h3 : f.type ≠ TYPE_SOL_BYTES_FIX) (h4 : f.type ≠ TYPE_SOL_ADDRESS)
    (h5 : f.type ≠ TYPE_SOL_BOOL) :
    field_hash_finalize_static env w f data = (none, w) ∧
    field_hash_finalize env w f data = (APDU_RESPONSE_INVALID_DATA, w) ∧
    (∀ h, w.fh = some h → path_get_field w = some f → h.state = FHS_WAITING_FOR_MORE →
      data.length = h.remaining_size →
      field_hash env w data false
        = (APDU_RESPONSE_INVALID_DATA, { w with fh := some { h with remaining_size := 0 } })) := by
  have hst : ∀ w0 : World, field_hash_finalize_static env w0 f data = (none, w0) := by
    intro w0
    unfold field_hash_finalize_static
    cases ht : f.type <;> simp_all [IS_DYN]
  have hfin : ∀ w0 : World, field_hash_finalize env w0 f data
      = (APDU_RESPONSE_INVALID_DATA, w0) := by
    intro w0
    rw [finalize_static_branch env w0 f data hs, hst]
  refine ⟨hst w, hfin w, ?_⟩
  intro h hfh hf hwait hlen
  rw [field_hash_waiting env w h f data false hfh hf hwait]
  unfold field_hash_consume
  have a : ¬ data.length > h.remaining_size := by omega
  have b : h.remaining_size - data.length = 0 := by omega
  simp [a, b, hs, hfin]

/-- C13, on a field of a custom type. -/
theorem C13_unsupported_type_witness :
    field_hash_finalize sampleEnv (awaiting field_custom ROOT_MESSAGE 64 1) field_custom [5]
      = (APDU_RESPONSE_INVALID_DATA, awaiting field_custom ROOT_MESSAGE 64 1) :=
  (C13_unsupported_type sampleEnv (awaiting field_custom ROOT_MESSAGE 64 1) field_custom [5]
    rfl (by decide) (by decide) (by decide) (by decide) (by decide)).2.1

namespace DomainName

/-- C14 (code evaluated at the failing input): the signed sample payload binds
"a.eth" to the address `0a ... 0a` and is accepted. A second payload, unsigned,
carrying the name "z.eth" and the address `0b ... 0b`, is then rejected with
InvalidData; the binding is still marked valid and now holds the rejected
payload's address and name, and `has_domain_name` answers true for the address
`0b ... 0b` and false for the registered one. -/
theorem C14_rejected_payload_rebinds :
    dn_registered.g_domain_name_info = { valid := true, name := true, addr := addr_a } ∧
    dn_registered.g_domain_name.take 6 = [97, 46, 101, 116, 104, 0] ∧
    (handle_provide_domain_name sampleDnEnv dn_registered 1 0
        (length_header 29 ++ rogue_payload addr_b)).io_log
      = dn_registered.io_log ++ [dn_event.payload_freed, dn_event.challenge_rolled,
          dn_event.response APDU_RESPONSE_INVALID_DATA] ∧
    (handle_provide_domain_name sampleDnEnv dn_registered 1 0
        (length_header 29 ++ rogue_payload addr_b)).g_domain_name_info
      = { valid := true, name := true, addr := addr_b } ∧
    (handle_provide_domain_name sampleDnEnv dn_registered 1 0
        (length_header 29 ++ rogue_payload addr_b)).g_domain_name.take 6
      = [122, 46, 101, 116, 104, 0] ∧
    (has_domain_name sampleDnEnv
        (handle_provide_domain_name sampleDnEnv dn_registered 1 0
          (length_header 29 ++ rogue_payload addr_b)) 1 addr_b).1 = true ∧
    (has_domain_name sampleDnEnv
        (handle_provide_domain_name sampleDnEnv dn_registered 1 0
          (length_header 29 ++ rogue_payload addr_b)) 1 addr_a).1 = false := by
  decide

set_option maxRecDepth 100000 in
/-- C15 (code evaluated at the failing input): a payload whose entries carry
the tag STRUCT_TYPE 257 times and every other tag once is decoded, handed to
`tlv_handler` entry by entry from zeroed counters, and passes
`all_tags_found_once` with every counter equal to 1; `handle_all_received`
accepts it. -/
theorem C15_tag_counted_257_times :
    (entries_257.filter (fun e => decide (e.tag = STRUCT_TYPE))).length = 257 ∧
    sampleDnEnv.tlv_decode payload_257 = (entries_257, true) ∧
    (parse_tlv_entries sampleDnEnv entries_257 dn_start handler_param_zero).1 = true ∧
    (parse_tlv_entries sampleDnEnv entries_257 dn_start handler_param_zero).2.2.counters
      = List.replicate 9 1 ∧
    all_tags_found_once
      (parse_tlv_entries sampleDnEnv entries_257 dn_start handler_param_zero).2.2.counters
      = true ∧
    (handle_all_received sampleDnEnv (dn_received payload_257)).1 = true := by
  decide

/-- C16: `has_domain_name` returns true if and only if the cached binding is
marked valid, the chain id is Ethereum-compatible and the 20 bytes of the
address equal the 20 bytes of the cached address; in every other case it
returns false. -/
theorem C16_lookup_result (env : DnEnv) (w : DnWorld) (chain_id : Nat) (addr : List Byte) :
    ((has_domain_name env w chain_id addr).1 = true ↔
      (w.g_domain_name_info.valid = true ∧ env.chain_is_ethereum_compatible chain_id = true ∧
        addr.take 20 = w.g_domain_name_info.addr.take 20)) ∧
    ((has_domain_name env w chain_id addr).1 = false ↔
      ¬ (w.g_domain_name_info.valid = true ∧ env.chain_is_ethereum_compatible chain_id = true ∧
        addr.take 20 = w.g_domain_name_info.addr.take 20)) :=
  has_domain_name_iff env w chain_id addr

/-- C17: whatever its arguments and result, `has_domain_name` leaves the cached
binding wiped (not valid, name pointer and address zeroed) and touches nothing
else; a second call right after it returns false for every chain id and
address; and if a lookup made after one more provide-domain-name command
returns true, that command ended a successful registration (payload freed,
challenge rolled, response Ok). -/
theorem C17_single_use (env : DnEnv) (w : DnWorld) (chain_id : Nat) (addr : List Byte) :
    (has_domain_name env w chain_id addr).2
      = { w with g_domain_name_info :=
            { valid := false, name := false, addr := List.replicate 20 0 } } ∧
    (∀ (chain_id2 : Nat) (addr2 : List Byte),
      (has_domain_name env (has_domain_name env w chain_id addr).2 chain_id2 addr2).1 = false) ∧
    (∀ (p1 p2 : Nat) (data : List Byte) (chain_id2 : Nat) (addr2 : List Byte),
      (has_domain_name env
        (handle_provide_domain_name env (has_domain_name env w chain_id addr).2 p1 p2 data)
        chain_id2 addr2).1 = true →
      (handle_provide_domain_name env (has_domain_name env w chain_id addr).2 p1 p2 data).io_log
        = w.io_log ++ [dn_event.payload_freed, dn_event.challenge_rolled,
            dn_event.response APDU_RESPONSE_OK]) := by
  refine ⟨rfl, fun c2 a2 => by simp [has_domain_name], ?_⟩
  intro p1 p2 data c2 a2 ht
  have hv := ((has_domain_name_iff env _ c2 a2).1.1 ht).1
  rcases provide_valid env _ p1 p2 data hv with h | h
  · simp [has_domain_name] at h
  · rw [h]
    rfl

/-- C17, on the registered sample binding: the first lookup succeeds, the
second fails. -/
theorem C17_single_use_witness :
    (has_domain_name sampleDnEnv dn_registered 1 addr_a).1 = true ∧
    (has_domain_name sampleDnEnv (has_domain_name sampleDnEnv dn_registered 1 addr_a).2
        1 addr_a).1 = false :=
  ⟨by decide, (C17_single_use sampleDnEnv dn_registered 1 addr_a).2.1 1 addr_a⟩

/-- C18: `handle_all_received`, which runs whenever the received size reaches
the expected size, frees the payload and then rolls the challenge, once, on
the accepting path and on the rejecting one; when it rejects, the status is
InvalidData and the valid flag of the binding is as before. For the command
that completes a payload, by a following chunk or by a single first chunk, the
events are: payload freed, challenge rolled, response sent, the response being
Ok with the binding valid, or InvalidData with the valid flag as before. -/
theorem C18_challenge_invalidation (env : DnEnv) (w : DnWorld) (p1 p2 : Nat)
    (data : List Byte) :
    ((handle_all_received env w).2.rolls = w.rolls + 1 ∧
      (handle_all_received env w).2.g_payload = none ∧
      (handle_all_received env w).2.io_log
        = w.io_log ++ [dn_event.payload_freed, dn_event.challenge_rolled] ∧
      ((handle_all_received env w).1 = false →
        (handle_all_received env w).2.apdu_response_code = APDU_RESPONSE_INVALID_DATA ∧
        (handle_all_received env w).2.g_domain_name_info.valid
          = w.g_domain_name_info.valid)) ∧
    (p1 ≠ P1_FIRST_CHUNK → w.g_payload ≠ none →
      w.g_payload_size + data.length = w.g_payload_expected_size →
      w.g_payload_expected_size < 2 ^ 16 →
      (handle_provide_domain_name env w p1 p2 data).rolls = w.rolls + 1 ∧
      (handle_provide_domain_name env w p1 p2 data).g_payload = none ∧
      (((handle_provide_domain_name env w p1 p2 data).io_log
          = w.io_log ++ [dn_event.payload_freed, dn_event.challenge_rolled,
              dn_event.response APDU_RESPONSE_OK] ∧
        (handle_provide_domain_name env w p1 p2 data).g_domain_name_info.valid = true) ∨
       ((handle_provide_domain_name env w p1 p2 data).io_log
          = w.io_log ++ [dn_event.payload_freed, dn_event.challenge_rolled,
              dn_event.response APDU_RESPONSE_INVALID_DATA] ∧
        (handle_provide_domain_name env w p1 p2 data).g_domain_name_info.valid
          = w.g_domain_name_info.valid))) ∧
    (p1 = P1_FIRST_CHUNK → w.g_payload = none → w.g_payload_size = 0 →
      2 ≤ data.length → data.length - 2 = U2BE data →
      w.mem_used + U2BE data ≤ w.mem_size →
      (handle_provide_domain_name env w p1 p2 data).rolls = w.rolls + 1 ∧
      (handle_provide_domain_name env w p1 p2 data).g_payload = none ∧
      (((handle_provide_domain_name env w p1 p2 data).io_log
          = w.io_log ++ [dn_event.payload_freed, dn_event.challenge_rolled,
              dn_event.response APDU_RESPONSE_OK] ∧
        (handle_provide_domain_name env w p1 p2 data).g_domain_name_info.valid = true) ∨
       ((handle_provide_domain_name env w p1 p2 data).io_log
          = w.io_log ++ [dn_event.payload_freed, dn_event.challenge_rolled,
              dn_event.response APDU_RESPONSE_INVALID_DATA] ∧
        (handle_provide_domain_name env w p1 p2 data).g_domain_name_info.valid
          = w.g_domain_name_info.valid))) := by
  refine ⟨?_, ?_, ?_⟩
  · obtain ⟨e1, e2, -, -, e5, e6, -⟩ := handle_all_received_effect env w
    exact ⟨e1, e2, e5, e6⟩
  · intro hp hpl hsum hexp
    have hfeed : handle_provide_domain_name env w p1 p2 data
        = handle_provide_domain_name_feed env w data 0 := by
      unfold handle_provide_domain_name
      simp [hp, hpl]
    rw [hfeed]
    exact feed_complete_effect env w data 0 (size_t_sub_zero _ (by omega)) (by simpa using hsum)
      hexp
  · intro hp hpl hsz hlen hu hmem
    have hub : U2BE data < 2 ^ 16 := by
      unfold U2BE
      split
      · rename_i b0 b1 _
        have h0 := b0.isLt
        have h1 := b1.isLt
        omega
      · norm_num
    have hfirst : handle_first_chunk w data
        = (2, { w with
                mem_used := w.mem_used + U2BE data
                g_payload := some []
                g_payload_expected_size := U2BE data }) := by
      unfold handle_first_chunk alloc_payload mem_alloc
      have : ¬ data.length < 2 := by omega
      simp [hpl, this, hmem]
    have hfeed : handle_provide_domain_name env w p1 p2 data
        = handle_provide_domain_name_feed env
            { w with
              mem_used := w.mem_used + U2BE data
              g_payload := some []
              g_payload_expected_size := U2BE data } data 2 := by
      unfold handle_provide_domain_name
      simp [hp, hfirst]
    rw [hfeed]
    have heff := feed_complete_effect env
      { w with
        mem_used := w.mem_used + U2BE data
        g_payload := some []
        g_payload_expected_size := U2BE data } data 2
      (size_t_sub_two _ (by omega) hlen) (by simp only [hsz]; omega) hub
    exact heff

/-- C18, on the sample payload sent from start-up as a single first chunk. -/
theorem C18_challenge_invalidation_witness :
    (handle_provide_domain_name sampleDnEnv dn_start 1 0
        (length_header 51 ++ sample_payload 7 addr_a)).rolls = 1 ∧
    (handle_provide_domain_name sampleDnEnv dn_start 1 0
        (length_header 51 ++ sample_payload 7 addr_a)).g_payload = none :=
  ⟨((C18_challenge_invalidation sampleDnEnv dn_start 1 0
      (length_header 51 ++ sample_payload 7 addr_a)).2.2 rfl rfl rfl (by decide) (by decide)
      (by decide)).1,
    ((C18_challenge_invalidation sampleDnEnv dn_start 1 0
      (length_header 51 ++ sample_payload 7 addr_a)).2.2 rfl rfl rfl (by decide) (by decide)
      (by decide)).2.1⟩

end DomainName

/-- C19: after `field_hash_deinit`, `field_hash_init` returns InsufficientMemory
exactly when the arena cannot allocate the engine state, and then changes
nothing; otherwise it returns Ok and the phase is Idle, whatever phase and
remaining length the globals held before. -/
theorem C19_reinit_isolation (junk : Nat) (w : World) :
    ((field_hash_init junk (field_hash_deinit w)).1 = APDU_RESPONSE_INSUFFICIENT_MEMORY ↔
      MEM_ALLOC_AND_ALIGN_TYPE_fh (field_hash_deinit w) = none) ∧
    (MEM_ALLOC_AND_ALIGN_TYPE_fh (field_hash_deinit w) = none ↔
      w.mem_size < w.mem_used + sizeof_s_field_hashing) ∧
    ((field_hash_init junk (field_hash_deinit w)).1 = APDU_RESPONSE_INSUFFICIENT_MEMORY →
      (field_hash_init junk (field_hash_deinit w)).2 = field_hash_deinit w) ∧
    ((field_hash_init junk (field_hash_deinit w)).1 ≠ APDU_RESPONSE_INSUFFICIENT_MEMORY →
      field_hash_init junk (field_hash_deinit w) =
        (APDU_RESPONSE_OK,
          { w with
            fh := some { remaining_size := junk, state := FHS_IDLE }
            mem_used := w.mem_used + sizeof_s_field_hashing })) := by
  unfold field_hash_init field_hash_deinit MEM_ALLOC_AND_ALIGN_TYPE_fh mem_alloc
  by_cases h : w.mem_used + sizeof_s_field_hashing ≤ w.mem_size
  · simp [h]
  · simp [h]
    omega

/-- C19, on a session left in AwaitingMore with 3 bytes pending: with room in
the arena the new session is Idle, with a full arena the initialisation fails. -/
theorem C19_reinit_isolation_witness :
    field_hash_init 0 (field_hash_deinit (awaiting field_name ROOT_MESSAGE 64 3)) =
      (APDU_RESPONSE_OK,
        { awaiting field_name ROOT_MESSAGE 64 3 with
          fh := some { remaining_size := 0, state := FHS_IDLE }
          mem_used := 104 }) ∧
    (field_hash_init 0 (field_hash_deinit (awaiting field_name ROOT_MESSAGE 0 3))).1
      = APDU_RESPONSE_INSUFFICIENT_MEMORY :=
  ⟨(C19_reinit_isolation 0 (awaiting field_name ROOT_MESSAGE 64 3)).2.2.2 (by decide),
    (C19_reinit_isolation 0 (awaiting field_name ROOT_MESSAGE 0 3)).1.2 (by decide)⟩

/-- C20 (counterexample): the last byte of a dynamic field arrives, the SDK
fails to finalize the content hash: `field_hash` returns InsufficientMemory and
the arena holds 132 bytes instead of 100. The value of a static field arrives,
the encoder accepts it and the review UI refuses it: `field_hash` returns
InvalidData and the arena holds 132 bytes instead of 100. -/
theorem C20_failure_keeps_block :
    (awaiting field_name ROOT_MESSAGE 64 1).mem_used = 100 ∧
    (field_hash hashFailEnv (awaiting field_name ROOT_MESSAGE 64 1) [98] false).1
      = APDU_RESPONSE_INSUFFICIENT_MEMORY ∧
    (field_hash hashFailEnv (awaiting field_name ROOT_MESSAGE 64 1) [98] false).2.mem_used
      = 132 ∧
    (awaiting field_age ROOT_MESSAGE 64 1).mem_used = 100 ∧
    (field_hash refusingEnv (awaiting field_age ROOT_MESSAGE 64 1) [5] false).1
      = APDU_RESPONSE_INVALID_DATA ∧
    (field_hash refusingEnv (awaiting field_age ROOT_MESSAGE 64 1) [5] false).2.mem_used
      = 132 := by
  decide

/-- C20 (amended): a call of `field_hash` that returns a status other than Ok
leaves the arena usage as it was or 32 bytes higher. Field finalization keeps
the 32-byte block of a dynamic field's digest allocated when finalizing the
content hash fails, and keeps the encoded word of a static field allocated
when the review UI refuses the field; every other failing finalization leaves
the arena usage unchanged. -/
theorem C20_failure_arena_usage (env : Env) (w : World) (f : Field) (data : List Byte)
    (part_flag : Bool) :
    ((field_hash env w data part_flag).1 ≠ APDU_RESPONSE_OK →
      (field_hash env w data part_flag).2.mem_used = w.mem_used ∨
      (field_hash env w data part_flag).2.mem_used = w.mem_used + 32) ∧
    (IS_DYN f.type = true → w.mem_used + 32 ≤ w.mem_size →
      env.cx_hash_no_throw w.global_sha3 = none →
      field_hash_finalize env w f data
        = (APDU_RESPONSE_INSUFFICIENT_MEMORY, { w with mem_used := w.mem_used + 32 })) ∧
    (IS_DYN f.type = false → (static_word env f data).isSome = true →
      w.mem_used + 32 ≤ w.mem_size → env.ui_712_new_field f data ≠ APDU_RESPONSE_OK →
      field_hash_finalize env w f data
        = (APDU_RESPONSE_INVALID_DATA,
            { w with mem_used := w.mem_used + 32
                     ui_log := w.ui_log ++ [ui_event.new_field f data] })) ∧
    ((field_hash_finalize env w f data).1 ≠ APDU_RESPONSE_OK →
      ¬ (IS_DYN f.type = true ∧ w.mem_used + 32 ≤ w.mem_size ∧
          env.cx_hash_no_throw w.global_sha3 = none) →
      ¬ (IS_DYN f.type = false ∧ (static_word env f data).isSome = true ∧
          w.mem_used + 32 ≤ w.mem_size ∧ env.ui_712_new_field f data ≠ APDU_RESPONSE_OK) →
      (field_hash_finalize env w f data).2.mem_used = w.mem_used) := by
  refine ⟨?_, ?_, ?_, ?_⟩
  · intro _
    rcases field_hash_mem env w data part_flag with h | ⟨-, h⟩
    · exact Or.inl h
    · exact Or.inr h
  · intro hd hm hh
    rw [finalize_dynamic_branch env w f data hd]
    rcases finalize_dynamic_cases env w with ⟨hlt, -⟩ | ⟨-, -, he⟩ | ⟨v, -, hv, -⟩
    · omega
    · rw [he]
    · rw [hh] at hv; exact absurd hv (by simp)
  · intro hs hw hm hu
    rw [finalize_static_branch env w f data hs]
    rcases finalize_static_cases env w f data with he | ⟨v, -, -, -, he⟩ | ⟨v, -, -, hok, -⟩
    · exfalso
      rw [finalize_static_eq] at he
      rcases encode_alloc_mem (static_word env f data) w with ⟨e1, -⟩ | ⟨v, -, -, e2⟩
      · cases hsw : static_word env f data with
        | none => rw [hsw] at hw; simp at hw
        | some v =>
          rw [hsw] at e1
          simp [encode_alloc, mem_alloc, EIP_712_ENCODED_FIELD_LENGTH, hm] at e1
      · rw [e2] at he
        simp only [hu, ui_712_new_field, ne_eq, not_false_eq_true, if_true,
          Prod.mk.injEq, true_and] at he
        have := congrArg World.mem_used he
        simp at this
    · rw [he]
    · exact absurd hok hu
  · intro hne hn1 hn2
    by_cases hd : IS_DYN f.type = true
    · rw [finalize_dynamic_branch env w f data hd] at hne ⊢
      rcases finalize_dynamic_cases env w with ⟨-, he⟩ | ⟨hm, hh, -⟩ | ⟨v, -, -, he⟩
      · rw [he]
      · exact absurd ⟨hd, hm, hh⟩ hn1
      · rw [he] at hne ⊢
        simp only [finalize_feed_mem]
        omega
    · have hs : IS_DYN f.type = false := by simpa using hd
      rw [finalize_static_branch env w f data hs] at hne ⊢
      rcases finalize_static_cases env w f data with he | ⟨v, hv, hm, hu, -⟩ | ⟨v, -, -, -, he⟩
      · rw [he]
      · exact absurd ⟨hs, by simp [hv], hm, hu⟩ hn2
      · rw [he] at hne ⊢
        simp only [finalize_feed_mem]
        omega

/-- C20 (amended), on the two failures that keep their block. -/
theorem C20_failure_arena_usage_witness :
    field_hash_finalize hashFailEnv (awaiting field_name ROOT_MESSAGE 64 0) field_name [98]
      = (APDU_RESPONSE_INSUFFICIENT_MEMORY,
          { awaiting field_name ROOT_MESSAGE 64 0 with mem_used := 132 }) ∧
    field_hash_finalize refusingEnv (awaiting field_age ROOT_MESSAGE 64 0) field_age [5]
      = (APDU_RESPONSE_INVALID_DATA,
          { awaiting field_age ROOT_MESSAGE 64 0 with
            mem_used := 132
            ui_log := [ui_event.new_field field_age [5]] }) :=
  ⟨(C20_failure_arena_usage hashFailEnv (awaiting field_name ROOT_MESSAGE 64 0) field_name
      [98] false).2.1 rfl (by decide) rfl,
    (C20_failure_arena_usage refusingEnv (awaiting field_age ROOT_MESSAGE 64 0) field_age
      [5] false).2.2.1 rfl rfl (by decide) (by decide)⟩

namespace DomainName

/-- C21: the TLV callback feeds the signature hash context, for an entry that
is no SIGNATURE, the DER encoding of its tag, the DER encoding of its length
and its value, and nothing for a SIGNATURE entry; it fails on an entry whose
tag or length `der_encode_value` cannot encode in its 5-byte buffer; and when
a sequence of entries has been parsed, the hash context has absorbed, in
order of appearance, exactly those bytes for every entry but the SIGNATURE
ones. -/
theorem C21_signed_stream (env : DnEnv) (w : DnWorld) (param : s_tlv_handler_param)
    (data : s_tlv_data) (entries : List s_tlv_data) :
    (data.tag ≠ SIGNATURE → der_encodable env data →
      (tlv_handler env w param data).2.2.sig_ctx.hash_ctx
        = param.sig_ctx.hash_ctx ++ env.der_encode_value 5 data.tag
            ++ env.der_encode_value 5 data.length ++ data.value) ∧
    (data.tag = SIGNATURE →
      hash_payload env data param.sig_ctx.hash_ctx = (true, param.sig_ctx.hash_ctx) ∧
      (tlv_handler env w param data).2.2.sig_ctx.hash_ctx = param.sig_ctx.hash_ctx) ∧
    (data.tag ≠ SIGNATURE → ¬ der_encodable env data →
      (tlv_handler env w param data).1 = false) ∧
    ((parse_tlv_entries env entries w param).1 = true →
      (parse_tlv_entries env entries w param).2.2.sig_ctx.hash_ctx
        = param.sig_ctx.hash_ctx ++
            ((entries.filter (fun e => decide (e.tag ≠ SIGNATURE))).map
              (fun e => env.der_encode_value 5 e.tag ++ env.der_encode_value 5 e.length
                ++ e.value)).flatten) := by
  refine ⟨?_, ?_, ?_, ?_⟩
  · intro hs he
    rw [tlv_handler_hash_ctx env w param data (Or.inr he)]
    simp [tlv_signed_bytes, hs]
  · intro hs
    refine ⟨by simp [hash_payload, hs], ?_⟩
    rw [tlv_handler_hash_ctx env w param data (Or.inl hs)]
    simp [tlv_signed_bytes, hs]
  · exact tlv_handler_not_encodable env w param data
  · intro hok
    rw [parse_tlv_entries_hash_ctx env entries w param hok]
    congr 1
    unfold signed_stream
    clear hok
    induction entries with
    | nil => rfl
    | cons e es ih =>
      by_cases hs : e.tag = SIGNATURE
      · simp [tlv_signed_bytes, hs, ih]
      · simp [tlv_signed_bytes, hs, ih]

/-- C21, on the entries of the sample payload: the hash context ends up with
the 47 bytes of the signed part. -/
theorem C21_signed_stream_witness :
    (parse_tlv_entries sampleDnEnv (sampleDnEnv.tlv_decode (sample_payload 7 addr_a)).1
        dn_start handler_param_zero).2.2.sig_ctx.hash_ctx = sample_tbs 7 addr_a :=
  (C21_signed_stream sampleDnEnv dn_start handler_param_zero
    { tag := SIGNATURE, value := [] }
    (sampleDnEnv.tlv_decode (sample_payload 7 addr_a)).1).2.2.2 (by decide)

/-- C22: `handle_domain_name` accepts a value of length n exactly when
5 <= n <= DOMAIN_NAME_MAX_LENGTH, its last four bytes are ".eth" and every
byte is one of a-z, 0-9, '.', '-', '_'; a value with an upper-case letter or
a byte of 0x80 or more is rejected; and on acceptance the name buffer (of
DOMAIN_NAME_MAX_LENGTH + 1 characters) holds those n bytes followed by a NUL
byte, the characters after them being left as they were. -/
theorem C22_domain_name_acceptance (env : DnEnv) (w : DnWorld) (data : s_tlv_data)
    (param : s_tlv_handler_param) :
    ((handle_domain_name env w data param).1 = true ↔
      5 ≤ data.length ∧ data.length ≤ env.DOMAIN_NAME_MAX_LENGTH ∧
        data.value.drop (data.length - 4) = str_eth ∧
        ∀ c ∈ data.value,
          (97 ≤ c.val ∧ c.val ≤ 122) ∨ (48 ≤ c.val ∧ c.val ≤ 57) ∨
            c.val = 46 ∨ c.val = 45 ∨ c.val = 95) ∧
    ((∃ c ∈ data.value, (65 ≤ c.val ∧ c.val ≤ 90) ∨ 128 ≤ c.val) →
      (handle_domain_name env w data param).1 = false) ∧
    ((handle_domain_name env w data param).1 = true →
      w.g_domain_name.length = env.DOMAIN_NAME_MAX_LENGTH + 1 →
      (handle_domain_name env w data param).2.1.g_domain_name
        = data.value ++ [0] ++ w.g_domain_name.drop (data.length + 1)) := by
  refine ⟨handle_domain_name_ok env w data param, ?_,
    handle_domain_name_stored env w data param⟩
  rintro ⟨c, hc, hbad⟩
  by_contra hne
  have hok : (handle_domain_name env w data param).1 = true := by simpa using hne
  have ha := ((handle_domain_name_ok env w data param).1 hok).2.2.2 c hc
  unfold allowed_character at ha
  omega

/-- C22, on the name "a.eth" and the name "A.eth". -/
theorem C22_domain_name_acceptance_witness :
    (handle_domain_name sampleDnEnv dn_start
        { tag := DOMAIN_NAME, value := [97, 46, 101, 116, 104] }
        handler_param_zero).2.1.g_domain_name
      = [97, 46, 101, 116, 104, 0] ++ List.replicate 25 0 ∧
    (handle_domain_name sampleDnEnv dn_start
        { tag := DOMAIN_NAME, value := [65, 46, 101, 116, 104] }
        handler_param_zero).1 = false :=
  ⟨(C22_domain_name_acceptance sampleDnEnv dn_start
      { tag := DOMAIN_NAME, value := [97, 46, 101, 116, 104] }
      handler_param_zero).2.2 (by decide) (by decide),
   (C22_domain_name_acceptance sampleDnEnv dn_start
      { tag := DOMAIN_NAME, value := [65, 46, 101, 116, 104] }
      handler_param_zero).2.1 ⟨65, by decide, by decide⟩⟩

/-- C23: started from globals with no payload buffer and both byte counts 0,
after every sequence of `handle_provide_domain_name` calls the number of
bytes received is at most the expected size, and both are 0 when there is no
payload buffer; a chunk that would take the count beyond the expected size is
answered InvalidData, the payload is freed and nothing is copied; and the
offset subtracted from the `uint8_t` length is 0 or the result of
`handle_first_chunk`, which never exceeds the length, so the subtraction in
`size_t` is the plain difference. -/
theorem C23_reassembly_invariant (env : DnEnv) (w : DnWorld) (cmds : List dn_command)
    (data : List Byte) (offset : Nat) :
    (w.g_payload = none → w.g_payload_size = 0 → w.g_payload_expected_size = 0 →
      (run_commands env w cmds).g_payload_size ≤ (run_commands env w cmds).g_payload_expected_size ∧
      ((run_commands env w cmds).g_payload = none →
        (run_commands env w cmds).g_payload_size = 0 ∧
        (run_commands env w cmds).g_payload_expected_size = 0)) ∧
    (data.length ≤ UINT8_MAX → offset ≤ data.length → w.g_payload_size < 2 ^ 16 →
      w.g_payload_size + (data.length - offset) > w.g_payload_expected_size →
      handle_provide_domain_name_feed env w data offset
        = { w with
            g_payload := none
            g_payload_size := 0
            g_payload_expected_size := 0
            apdu_response_code := APDU_RESPONSE_INVALID_DATA
            mem_used := w.mem_used - w.g_payload_expected_size
            io_log := w.io_log ++ [dn_event.payload_freed,
              dn_event.response APDU_RESPONSE_INVALID_DATA] }) ∧
    (data.length ≤ UINT8_MAX →
      (handle_first_chunk w data).1 ≤ data.length ∧
      size_t_sub data.length (handle_first_chunk w data).1
        = data.length - (handle_first_chunk w data).1 ∧
      size_t_sub data.length 0 = data.length) := by
  refine ⟨?_, feed_overflow env w data offset, ?_⟩
  · intro h1 h2 h3
    exact run_commands_invariant env cmds w ⟨by omega, fun _ => ⟨h2, h3⟩⟩
  · intro hlen
    have ho := first_chunk_offset w data
    unfold UINT8_MAX at hlen
    refine ⟨ho, ?_, size_t_sub_zero _ (by omega)⟩
    unfold size_t_sub
    omega

/-- C23, on the start-up globals: a first chunk announcing 4 bytes and
carrying 1, then a following chunk of 5 bytes, which overflows. -/
theorem C23_reassembly_invariant_witness :
    ((run_commands sampleDnEnv dn_start
        [{ p1 := P1_FIRST_CHUNK, p2 := 0, data := [0, 4, 1] },
         { p1 := P1_FOLLOWING_CHUNK, p2 := 0, data := [1, 2, 3, 4, 5] }]).g_payload_size
      ≤ (run_commands sampleDnEnv dn_start
        [{ p1 := P1_FIRST_CHUNK, p2 := 0, data := [0, 4, 1] },
         { p1 := P1_FOLLOWING_CHUNK, p2 := 0, data := [1, 2, 3, 4, 5] }]).g_payload_expected_size) ∧
    (handle_provide_domain_name_feed sampleDnEnv
        (run_commands sampleDnEnv dn_start
          [{ p1 := P1_FIRST_CHUNK, p2 := 0, data := [0, 4, 1] }]) [1, 2, 3, 4, 5] 0).io_log
      = [dn_event.response APDU_RESPONSE_OK, dn_event.payload_freed,
          dn_event.response APDU_RESPONSE_INVALID_DATA] :=
  ⟨((C23_reassembly_invariant sampleDnEnv dn_start
      [{ p1 := P1_FIRST_CHUNK, p2 := 0, data := [0, 4, 1] },
       { p1 := P1_FOLLOWING_CHUNK, p2 := 0, data := [1, 2, 3, 4, 5] }] [] 0).1
      rfl rfl rfl).1,
   by
    rw [(C23_reassembly_invariant sampleDnEnv
      (run_commands sampleDnEnv dn_start
        [{ p1 := P1_FIRST_CHUNK, p2 := 0, data := [0, 4, 1] }]) [] [1, 2, 3, 4, 5] 0).2.1
      (by decide) (by decide) (by decide) (by decide)]
    decide⟩

/-- C24: a first chunk (p1 = 0x01) received while a payload is being
assembled is answered InvalidP1P2 and that payload is freed; with no payload
in progress, a first chunk shorter than 2 bytes is answered InvalidData; a
chunk with another p1 received while no payload is in progress is answered
InvalidP1P2 and nothing but the response code changes; and a first chunk of
at least 2 bytes whose announced size the arena can hold sets the expected
size to the big-endian value of its first 2 bytes and is then processed as a
following chunk from its third byte on. -/
theorem C24_chunk_sequencing (env : DnEnv) (w : DnWorld) (p1 p2 : Nat) (data : List Byte) :
    (p1 = 1 → w.g_payload ≠ none →
      handle_provide_domain_name env w p1 p2 data
        = { w with
            g_payload := none
            g_payload_size := 0
            g_payload_expected_size := 0
            apdu_response_code := APDU_RESPONSE_INVALID_P1_P2
            mem_used := w.mem_used - w.g_payload_expected_size
            io_log := w.io_log ++ [dn_event.payload_freed,
              dn_event.response APDU_RESPONSE_INVALID_P1_P2] }) ∧
    (p1 = 1 → w.g_payload = none → data.length < 2 →
      handle_provide_domain_name env w p1 p2 data
        = { w with
            apdu_response_code := APDU_RESPONSE_INVALID_DATA
            io_log := w.io_log ++ [dn_event.response APDU_RESPONSE_INVALID_DATA] }) ∧
    (p1 ≠ 1 → w.g_payload = none →
      handle_provide_domain_name env w p1 p2 data
        = { w with
            apdu_response_code := APDU_RESPONSE_INVALID_P1_P2
            io_log := w.io_log ++ [dn_event.response APDU_RESPONSE_INVALID_P1_P2] }) ∧
    (p1 = 1 → w.g_payload = none → 2 ≤ data.length →
      w.mem_used + U2BE data ≤ w.mem_size →
      handle_first_chunk w data
        = (2, { w with
            g_payload := some []
            g_payload_expected_size := U2BE data
            mem_used := w.mem_used + U2BE data }) ∧
      handle_provide_domain_name env w p1 p2 data
        = handle_provide_domain_name_feed env
            { w with
              g_payload := some []
              g_payload_expected_size := U2BE data
              mem_used := w.mem_used + U2BE data } data 2 ∧
      (w.g_payload_size = 0 → data.length ≤ UINT8_MAX → data.length - 2 < U2BE data →
        (handle_provide_domain_name env w p1 p2 data).g_payload = some (data.drop 2) ∧
        (handle_provide_domain_name env w p1 p2 data).g_payload_size = data.length - 2 ∧
        (handle_provide_domain_name env w p1 p2 data).g_payload_expected_size = U2BE data ∧
        (handle_provide_domain_name env w p1 p2 data).io_log
          = w.io_log ++ [dn_event.response APDU_RESPONSE_OK])) := by
  refine ⟨?_, ?_, ?_, ?_⟩
  · intro h1 hp
    unfold handle_provide_domain_name handle_first_chunk
    simp [h1, P1_FIRST_CHUNK, hp, response_to_domain_name, free_payload, mem_dealloc]
  · intro h1 hp hlen
    unfold handle_provide_domain_name handle_first_chunk
    simp [h1, P1_FIRST_CHUNK, hp, hlen, response_to_domain_name]
  · intro h1 hp
    unfold handle_provide_domain_name
    simp [h1, P1_FIRST_CHUNK, hp, response_to_domain_name]
  · intro h1 hp hlen hmem
    have hfc : handle_first_chunk w data
        = (2, { w with
            g_payload := some []
            g_payload_expected_size := U2BE data
            mem_used := w.mem_used + U2BE data }) := by
      unfold handle_first_chunk alloc_payload mem_alloc
      have h2 : ¬ data.length < 2 := by omega
      simp [hp, h2, hmem]
    have htop : handle_provide_domain_name env w p1 p2 data
        = handle_provide_domain_name_feed env
            { w with
              g_payload := some []
              g_payload_expected_size := U2BE data
              mem_used := w.mem_used + U2BE data } data 2 := by
      unfold handle_provide_domain_name
      simp [h1, P1_FIRST_CHUNK, hfc]
    refine ⟨hfc, htop, ?_⟩
    intro hs hmax hlt
    rw [htop]
    unfold UINT8_MAX at hmax
    have hu : U2BE data < 2 ^ 16 := by
      unfold U2BE
      split
      · rename_i b0 b1 _
        have := b0.isLt
        have := b1.isLt
        omega
      · omega
    have hn : size_t_sub data.length 2 = data.length - 2 := size_t_sub_two _ (by omega) hlen
    unfold handle_provide_domain_name_feed
    simp only [hn, hs, Nat.zero_add]
    have e1 : (data.length - 2) % 2 ^ 32 = data.length - 2 := by omega
    have e2 : (data.length - 2) % 2 ^ 16 = data.length - 2 := by omega
    rw [e1, e2, if_neg (by omega), if_neg (by omega)]
    simp [response_to_domain_name]

/-- C24, on the start-up globals and the first chunk announcing 4 bytes and
carrying 1. -/
theorem C24_chunk_sequencing_witness :
    (handle_provide_domain_name sampleDnEnv dn_start 1 0 [0, 4, 9]).g_payload = some [9] ∧
    (handle_provide_domain_name sampleDnEnv dn_start 1 0 [0, 4, 9]).g_payload_size = 1 ∧
    (handle_provide_domain_name sampleDnEnv dn_start 1 0 [0, 4, 9]).g_payload_expected_size = 4 ∧
    (handle_provide_domain_name sampleDnEnv dn_start 1 0 [0, 4, 9]).io_log
      = [dn_event.response APDU_RESPONSE_OK] :=
  ((C24_chunk_sequencing sampleDnEnv dn_start 1 0 [0, 4, 9]).2.2.2
    rfl rfl (by decide) (by decide)).2.2 rfl (by decide) (by decide)

end DomainName

/-- C25: `handleSignEIP712Message_v0` returns InvalidP1P2 and changes nothing
whenever p1 is not 0; when p1 is 0 it returns Ok exactly when the derivation
path parses and at least 64 bytes remain after it, and then the stored domain
hash is the first 32 remaining bytes, the stored message hash the next 32,
and the asynchronous-reply flag is set; in every other case it returns
InvalidData, leaves both hashes as they were once the application context
had been reset, and leaves the flags alone. -/
theorem C25_raw_hash_path (env : AppEnv) (w : AppWorld) (p1 : Nat) (workBuffer : List Byte)
    (flags : Nat) :
    (p1 ≠ 0 →
      handleSignEIP712Message_v0 env w p1 workBuffer flags
        = (APDU_RESPONSE_INVALID_P1_P2, w, flags)) ∧
    (p1 = 0 →
      ((handleSignEIP712Message_v0 env w p1 workBuffer flags).1 = APDU_RESPONSE_OK ↔
        ∃ rest, (env.parseBip32 workBuffer (entry_world env w).bip32).1 = some rest ∧
          64 ≤ rest.length) ∧
      (∀ rest, (env.parseBip32 workBuffer (entry_world env w).bip32).1 = some rest →
        64 ≤ rest.length →
        (handleSignEIP712Message_v0 env w p1 workBuffer flags).2.1.domainHash = rest.take 32 ∧
        (handleSignEIP712Message_v0 env w p1 workBuffer flags).2.1.messageHash
          = (rest.drop 32).take 32 ∧
        (handleSignEIP712Message_v0 env w p1 workBuffer flags).2.2
          = flags ||| env.IO_ASYNCH_REPLY ∧
        (handleSignEIP712Message_v0 env w p1 workBuffer flags).2.2 &&& env.IO_ASYNCH_REPLY
          = env.IO_ASYNCH_REPLY) ∧
      ((handleSignEIP712Message_v0 env w p1 workBuffer flags).1 ≠ APDU_RESPONSE_OK →
        (handleSignEIP712Message_v0 env w p1 workBuffer flags).1 = APDU_RESPONSE_INVALID_DATA ∧
        (handleSignEIP712Message_v0 env w p1 workBuffer flags).2.1.domainHash
          = (entry_world env w).domainHash ∧
        (handleSignEIP712Message_v0 env w p1 workBuffer flags).2.1.messageHash
          = (entry_world env w).messageHash ∧
        (handleSignEIP712Message_v0 env w p1 workBuffer flags).2.2 = flags) ∧
      (w.appState = APP_STATE_IDLE → entry_world env w = w)) := by
  constructor
  · intro h
    unfold handleSignEIP712Message_v0
    rw [if_pos h]
  · intro h
    subst h
    rw [handleSignEIP712Message_v0_unfold]
    refine ⟨?_, ?_, ?_, ?_⟩
    · cases hp : (env.parseBip32 workBuffer (entry_world env w).bip32).1 with
      | none => simp
      | some rest =>
        by_cases hl : rest.length < 64
        · simp only [hl, if_true, Option.some.injEq, exists_eq_left']
          constructor
          · intro hc; exact absurd hc (by decide)
          · intro hc; omega
        · simp only [hl, if_false, Option.some.injEq, exists_eq_left', true_iff]
          omega
    · intro rest hp hl
      rw [hp]
      have hl2 : ¬ rest.length < 64 := by omega
      simp [hl2, lor_land_self]
    · cases hp : (env.parseBip32 workBuffer (entry_world env w).bip32).1 with
      | none => intro _; simp
      | some rest =>
        by_cases hl : rest.length < 64
        · simp only [hl, if_true]
          intro _
          simp
        · simp only [hl, if_false]
          intro hc
          exact absurd rfl hc
    · intro hi
      unfold entry_world
      rw [if_neg (by simp [hi])]

/-- C25, on the start-up globals and the sample command: both hashes are
stored and the flag 16 is set. -/
theorem C25_raw_hash_path_witness :
    (handleSignEIP712Message_v0 sampleAppEnv app_start 0 sample_712_v0 0).2.1.domainHash
      = List.replicate 32 1 ∧
    (handleSignEIP712Message_v0 sampleAppEnv app_start 0 sample_712_v0 0).2.1.messageHash
      = List.replicate 32 2 ∧
    (handleSignEIP712Message_v0 sampleAppEnv app_start 0 sample_712_v0 0).2.2 = 16 ∧
    (handleSignEIP712Message_v0 sampleAppEnv app_start 0 sample_712_v0 0).2.2 &&& 16 = 16 := by
  have h := ((C25_raw_hash_path sampleAppEnv app_start 0 sample_712_v0 0).2 rfl).2.1
    (List.replicate 32 1 ++ List.replicate 32 2) (by decide) (by decide)
  have e1 : (List.replicate 32 (1 : Byte) ++ List.replicate 32 2).take 32
      = List.replicate 32 1 := by decide
  have e2 : ((List.replicate 32 (1 : Byte) ++ List.replicate 32 2).drop 32).take 32
      = List.replicate 32 2 := by decide
  have e3 : 0 ||| sampleAppEnv.IO_ASYNCH_REPLY = 16 := by decide
  have e4 : sampleAppEnv.IO_ASYNCH_REPLY = 16 := rfl
  rw [e1, e2, e3, e4] at h
  exact h

/-- C26, as stated, fails: with the PIN validated, a first chunk with p2 = 1
whose derivation path does not parse is answered InvalidData, not
InvalidP1P2. -/
theorem C26_first_chunk_p2_not_invalid_p1_p2 :
    sampleAppEnv.os_global_pin_is_validated = true ∧ (1 : Nat) ≠ 0 ∧
    Option.map Prod.fst (handleSign sampleAppEnv app_start sampleAppEnv.P1_FIRST 1 [] 0)
      = some APDU_RESPONSE_INVALID_DATA ∧
    Option.map Prod.fst (handleSign sampleAppEnv app_start sampleAppEnv.P1_FIRST 1 [] 0)
      ≠ some APDU_RESPONSE_INVALID_P1_P2 := by
  decide

/-- C26, amended: with the PIN validated, a p1 that is neither P1_FIRST nor
P1_MORE is answered InvalidP1P2; a continuation chunk (p1 = P1_MORE) is
answered InvalidP1P2 when p2 is not 0 and otherwise ConditionNotSatisfied
when the application state is not SIGNING_TX, in both cases with no change
of the globals, so that it reaches the transaction parser only when a
signing session is open; a first chunk is examined before p2 is looked at:
it is answered InvalidData when its derivation path does not parse or no
byte follows the path, TxTypeNotSupported when its type byte lies in
[MIN_TX_TYPE, MAX_TX_TYPE] and is neither EIP2930 nor EIP1559, and
InvalidP1P2 when it passes these checks and p2 is not 0. -/
theorem C26_continuation_guard (env : AppEnv) (w : AppWorld) (p1 p2 : Nat)
    (workBuffer : List Byte) (flags : Nat) (hpin : env.os_global_pin_is_validated = true) :
    (p1 ≠ env.P1_FIRST → p1 ≠ env.P1_MORE →
      handleSign env w p1 p2 workBuffer flags = some (APDU_RESPONSE_INVALID_P1_P2, w, flags)) ∧
    (p1 ≠ env.P1_FIRST → p1 = env.P1_MORE →
      (p2 ≠ 0 →
        handleSign env w p1 p2 workBuffer flags
          = some (APDU_RESPONSE_INVALID_P1_P2, w, flags)) ∧
      (p2 = 0 → w.appState ≠ APP_STATE_SIGNING_TX →
        handleSign env w p1 p2 workBuffer flags
          = some (APDU_RESPONSE_CONDITION_NOT_SATISFIED, w, flags)) ∧
      (∀ r, handleSign env w p1 p2 workBuffer flags = some r →
        (∃ b f, app_event.processTx b f ∈ r.2.1.calls.drop w.calls.length) →
        w.appState = APP_STATE_SIGNING_TX ∧ p2 = 0)) ∧
    (p1 = env.P1_FIRST →
      ((env.parseBip32 workBuffer (entry_world env w).bip32).1 = none →
        Option.map Prod.fst (handleSign env w p1 p2 workBuffer flags)
          = some APDU_RESPONSE_INVALID_DATA) ∧
      ((env.parseBip32 workBuffer (entry_world env w).bip32).1 = some [] →
        Option.map Prod.fst (handleSign env w p1 p2 workBuffer flags)
          = some APDU_RESPONSE_INVALID_DATA) ∧
      (∀ (txType : Byte) (more : List Byte),
        (env.parseBip32 workBuffer (entry_world env w).bip32).1 = some (txType :: more) →
        env.MIN_TX_TYPE ≤ txType.val → txType.val ≤ env.MAX_TX_TYPE →
        txType.val ≠ env.EIP2930 → txType.val ≠ env.EIP1559 →
        Option.map Prod.fst (handleSign env w p1 p2 workBuffer flags)
          = some APDU_RESPONSE_TX_TYPE_NOT_SUPPORTED) ∧
      (∀ (txType : Byte) (more : List Byte),
        (env.parseBip32 workBuffer (entry_world env w).bip32).1 = some (txType :: more) →
        (¬ (env.MIN_TX_TYPE ≤ txType.val ∧ txType.val ≤ env.MAX_TX_TYPE) ∨
          ((txType.val = env.EIP2930 ∨ txType.val = env.EIP1559) ∧
            env.cx_hash_no_throw = true)) →
        p2 ≠ 0 →
        Option.map Prod.fst (handleSign env w p1 p2 workBuffer flags)
          = some APDU_RESPONSE_INVALID_P1_P2)) := by
  refine ⟨?_, ?_, ?_⟩
  · intro h1 h2
    unfold handleSign
    simp [hpin, h1, h2]
  · intro h1 h2
    rw [handleSign_more env w p1 p2 workBuffer flags hpin h1 h2]
    refine ⟨?_, ?_, ?_⟩
    · intro hp2
      unfold handleSign_process
      rw [if_pos hp2]
    · intro hp2 hs
      unfold handleSign_process
      rw [if_neg (by simp [hp2]), if_pos ⟨h2, hs⟩]
    · intro r hr hex
      by_cases hp2 : p2 ≠ 0
      · exfalso
        unfold handleSign_process at hr
        rw [if_pos hp2] at hr
        cases hr
        simp at hex
      · have hp2z : p2 = 0 := by simpa using hp2
        by_cases hs : w.appState ≠ APP_STATE_SIGNING_TX
        · exfalso
          unfold handleSign_process at hr
          rw [if_neg hp2, if_pos ⟨h2, hs⟩] at hr
          cases hr
          simp at hex
        · exact ⟨by simpa using hs, hp2z⟩
  · intro h1
    have hs : handleSign env w p1 p2 workBuffer flags
        = match handleSign_first env w workBuffer with
          | first_chunk_outcome.returned sw w1 => some (sw, w1, flags)
          | first_chunk_outcome.assert_failed _ => none
          | first_chunk_outcome.proceed w1 rest =>
            some (handleSign_process env w1 p1 p2 rest flags) := by
      unfold handleSign
      simp [hpin, h1]
    rw [hs, handleSign_first_unfold]
    refine ⟨?_, ?_, ?_, ?_⟩
    · intro hp
      rw [hp]
      rfl
    · intro hp
      rw [hp]
      rfl
    · intro txType more hp hmin hmax h2930 h1559
      rw [hp]
      simp only [ge_iff_le, hmin, hmax, and_self, if_true, h2930, h1559, or_self, if_false]
      rfl
    · intro txType more hp hcase hp2
      rw [hp]
      rcases hcase with hout | ⟨hsup, hhash⟩
      · simp only [ge_iff_le]
        rw [if_neg hout]
        simp only [Option.map, handleSign_process]
        rw [if_pos hp2]
      · by_cases hin : env.MIN_TX_TYPE ≤ txType.val ∧ txType.val ≤ env.MAX_TX_TYPE
        · simp only [ge_iff_le]
          rw [if_pos hin, if_pos hsup, if_pos hhash]
          simp only [Option.map, handleSign_process]
          rw [if_pos hp2]
        · simp only [ge_iff_le]
          rw [if_neg hin]
          simp only [Option.map, handleSign_process]
          rw [if_pos hp2]

/-- C26, on the start-up globals: a continuation chunk with p2 = 0 is
answered ConditionNotSatisfied and changes nothing. -/
theorem C26_continuation_guard_witness :
    handleSign sampleAppEnv app_start 128 0 [1, 2, 3] 0
      = some (APDU_RESPONSE_CONDITION_NOT_SATISFIED, app_start, 0) :=
  ((C26_continuation_guard sampleAppEnv app_start 128 0 [1, 2, 3] 0 rfl).2.1
    (by decide) rfl).2.1 rfl (by decide)

end AppEthereum
